import Mathlib

/-!
# PIPS website scripts: a shallow embedding

The scripts under `js/` are translated function by function.  JavaScript
values that reach persistent storage are JSON documents (`JVal`); a value that
may be `undefined` is an `Option JVal` with `none` for `undefined`.  A string
held by `localStorage` is represented by what `JSON.parse` makes of it
(`StoredText`).  Exceptions are `Except JSError`; a `try`/`catch` is a `match`
on the result.  Clock readings, random suffixes and the storage quota are
inputs of the functions that consult them.
-/

set_option autoImplicit false

namespace JS

/-- A JSON document: what `JSON.parse` returns and `JSON.stringify` accepts.
An object is the list of its own properties in insertion order; a number is an
integer (ids, timestamps, prices and counters are the only numbers used). -/
inductive JVal where
  | null
  | bool (b : Bool)
  | num (n : Int)
  | str (s : String)
  | arr (xs : List JVal)
  | obj (kvs : List (String × JVal))
  deriving Inhabited

/-- The exceptions the scripts can meet. -/
inductive JSError where
  | TypeError
  | SyntaxError
  | QuotaExceededError
  deriving DecidableEq, Repr

/-- A string kept in `localStorage`: `json v` is text that `JSON.parse` accepts
and reads as `v` (the text `JSON.stringify v` writes); `malformed s` is the
string `s` when `s` is outside the JSON grammar (the empty string included). -/
inductive StoredText where
  | json (v : JVal)
  | malformed (s : String)
  deriving Inhabited

/-- Truthiness of a stored string: only the empty string is falsy. -/
def StoredText.truthy : StoredText → Bool
  | .json _ => true
  | .malformed s => s != ""

/-- `JSON.parse(text)`: throws `SyntaxError` on text outside the grammar. -/
def JSON.parse : StoredText → Except JSError JVal
  | .json v => .ok v
  | .malformed _ => .error .SyntaxError

/-- `JSON.stringify(v)`. -/
def JSON.stringify (v : JVal) : StoredText := .json v

/-- The canonical array index named by the property key `k`, below `len`. -/
def arrayIndex (k : String) (len : Nat) : Option Nat :=
  (List.range len).find? (fun i => toString i == k)

/-- Property read `x[k]` (also `x.k`): `TypeError` on `undefined` and `null`;
own properties of objects; elements and `length` of arrays.  Reads on strings,
numbers and booleans give a primitive or `undefined`, which every caller here
treats alike, and are rendered as `undefined`. -/
def getProp : Option JVal → String → Except JSError (Option JVal)
  | none, _ => .error .TypeError
  | some .null, _ => .error .TypeError
  | some (.obj kvs), k => .ok (kvs.lookup k)
  | some (.arr xs), k =>
    if k = "length" then .ok (some (.num xs.length))
    else match arrayIndex k xs.length with
      | some i => .ok xs[i]?
      | none => .ok none
  | some _, _ => .ok none

/-- Element read `x[i]` with a number `i`. -/
def getIndex : Option JVal → Nat → Except JSError (Option JVal)
  | none, _ => .error .TypeError
  | some .null, _ => .error .TypeError
  | some (.arr xs), i => .ok xs[i]?
  | some _, _ => .ok none

/-- Replace the value of the first property named `k`, or append the property. -/
def setField (k : String) (v : JVal) : List (String × JVal) → List (String × JVal)
  | [] => [(k, v)]
  | (k', v') :: rest => if k' = k then (k, v) :: rest else (k', v') :: setField k v rest

/-- Property write `x[k] = v` on an object, or on an array at an index in
range (the only receivers the callers here write to). -/
def setProp : JVal → String → JVal → JVal
  | .obj kvs, k, v => .obj (setField k v kvs)
  | .arr xs, k, v =>
    match arrayIndex k xs.length with
    | some i => .arr (xs.set i v)
    | none => .arr xs
  | x, _, _ => x

/-- An object literal `{k1: e1, ...}`; a property whose value is `undefined`
is left out (it reads as `undefined` and `JSON.stringify` omits it). -/
def mkObj (fields : List (String × Option JVal)) : JVal :=
  .obj (fields.filterMap (fun p => p.2.map (fun v => (p.1, v))))

/-- Strict equality `a === b`.  Arrays and objects compare by reference, and
the operands compared here never share one (one side is freshly parsed). -/
def strictEq : Option JVal → Option JVal → Bool
  | none, none => true
  | some .null, some .null => true
  | some (.bool a), some (.bool b) => a == b
  | some (.num a), some (.num b) => a == b
  | some (.str a), some (.str b) => a == b
  | _, _ => false

/-- `xs.push(x)`: the array with `x` appended; `TypeError` when the receiver
is not an array. -/
def arrayPush : Option JVal → JVal → Except JSError JVal
  | some (.arr xs), x => .ok (.arr (xs ++ [x]))
  | _, _ => .error .TypeError

/-- Array filter with a callback that may throw, over a list of elements. -/
def filterE (p : JVal → Except JSError Bool) : List JVal → Except JSError (List JVal)
  | [] => .ok []
  | x :: xs =>
    match p x with
    | .error e => .error e
    | .ok b =>
      match filterE p xs with
      | .error e => .error e
      | .ok ys => .ok (if b then x :: ys else ys)

/-- `xs.filter(cb)`: `TypeError` when the receiver is not an array. -/
def arrayFilter (p : JVal → Except JSError Bool) : Option JVal → Except JSError JVal
  | some (.arr xs) =>
    match filterE p xs with
    | .ok ys => .ok (.arr ys)
    | .error e => .error e
  | _ => .error .TypeError

/-- Position of the first element satisfying a callback that may throw. -/
def findIndexE (p : JVal → Except JSError Bool) : List JVal → Except JSError (Option Nat)
  | [] => .ok none
  | x :: xs =>
    match p x with
    | .error e => .error e
    | .ok true => .ok (some 0)
    | .ok false =>
      match findIndexE p xs with
      | .error e => .error e
      | .ok r => .ok (r.map (· + 1))

/-- The own enumerable properties an object spread `{...x}` copies. -/
def ownEntries : Option JVal → List (String × JVal)
  | some (.obj kvs) => kvs
  | some (.arr xs) => (List.range xs.length).zipWith (fun i x => (toString i, x)) xs
  | some (.str s) => (List.range s.length).zipWith (fun i c => (toString i, JVal.str (String.singleton c))) s.toList
  | _ => []

/-- The object literal `{...a, ...b}`. -/
def spreadMerge (a b : Option JVal) : JVal :=
  .obj ((ownEntries b).foldl (fun acc p => setField p.1 p.2 acc)
    ((ownEntries a).foldl (fun acc p => setField p.1 p.2 acc) []))

/-- The contents of `localStorage`, one entry per key. -/
abbrev Storage := List (String × StoredText)

/-- The browser's storage quota: whether writing a text under a key is accepted
in a given storage state. -/
abbrev Quota := Storage → String → StoredText → Bool

/-- `localStorage.getItem(key)`: `none` is `null`. -/
def localStorage.getItem (ls : Storage) (key : String) : Option StoredText :=
  ls.lookup key

/-- `localStorage.setItem(key, text)`: throws when the quota refuses the write,
leaving the storage as it was. -/
def localStorage.setItem (q : Quota) (ls : Storage) (key : String) (text : StoredText) :
    Except JSError Storage :=
  if q ls key text then .ok ((key, text) :: ls.filter (fun p => p.1 != key))
  else .error .QuotaExceededError

/-- `localStorage.removeItem(key)`. -/
def localStorage.removeItem (ls : Storage) (key : String) : Storage :=
  ls.filter (fun p => p.1 != key)

/-- The readings of the clock a call takes, labelled by the place in the source
that takes them: `now` is `Date.now()`, `iso` is `new Date().toISOString()`,
`uploadStamp` is the `toLocaleString()` of a new image, `defaultStamp i` is
the `toLocaleString()` read for the `i`-th image of the default gallery,
`logStamp` is the `toISOString()` of a validation log entry and
`applicationStamp` the one of an `applicationDate`. -/
structure Clock where
  now : Nat
  iso : String
  uploadStamp : String
  defaultStamp : Nat → String
  logStamp : String
  applicationStamp : String

end JS

namespace AdminDataManager
open JS

/-- Storage key of the contact document (`KEYS.CONTACT`). -/
def KEYS.CONTACT : String := "schoolContactInfo"
/-- Storage key of the gallery collection (`KEYS.GALLERY`). -/
def KEYS.GALLERY : String := "schoolGalleryImages"
/-- Storage key of the notice board document (`KEYS.NOTICE_BOARD`). -/
def KEYS.NOTICE_BOARD : String := "schoolNoticeBoard"
/-- Storage key of the uniform shop document (`KEYS.UNIFORM_SHOP`). -/
def KEYS.UNIFORM_SHOP : String := "schoolUniformShop"

/-! ### Contact information -/

/-- The document `ContactInfo.getDefault()` returns. -/
def ContactInfo.getDefault : JVal :=
  .obj [
    ("email", .str "pinetownindependentprimary@gmail.com"),
    ("phone", .str "0748479786"),
    ("address", .obj [("street", .str "37 Hill Street"), ("city", .str "Pinetown"),
      ("postal", .str "3610"), ("country", .str "South Africa")]),
    ("officeHours", .arr [
      .obj [("day", .str "Mon-Fri"), ("time", .str "7:30 AM - 3:30 PM")],
      .obj [("day", .str "Saturday"), ("time", .str "Closed")],
      .obj [("day", .str "Sunday"), ("time", .str "Closed")]]),
    ("schoolHours", .arr [
      .obj [("label", .str "Classes"), ("time", .str "8:00 AM - 2:30 PM")],
      .obj [("label", .str "After Care"), ("time", .str "2:30 PM - 5:00 PM")],
      .obj [("label", .str "Drop-off"), ("time", .str "7:00 AM - 8:00 AM")]])]

/-- The body of the `try` block of `ContactInfo.get`. -/
def ContactInfo.getTry (ls : Storage) : Except JSError JVal :=
  match localStorage.getItem ls KEYS.CONTACT with
  | some data => if data.truthy then JSON.parse data else .ok ContactInfo.getDefault
  | none => .ok ContactInfo.getDefault

/-- The function `ContactInfo.get()`: the `catch` returns the default. -/
def ContactInfo.get (ls : Storage) : JVal :=
  match ContactInfo.getTry ls with
  | .ok v => v
  | .error _ => ContactInfo.getDefault

/-- The function `ContactInfo.save(data)`: the result and the storage after. -/
def ContactInfo.save (q : Quota) (ls : Storage) (data : JVal) : Bool × Storage :=
  match localStorage.setItem q ls KEYS.CONTACT (JSON.stringify data) with
  | .ok ls' => (true, ls')
  | .error _ => (false, ls)

/-! ### Gallery images -/

/-- One image literal of the default gallery. -/
def galleryImage (id : Int) (src alt uploadDate : String) : JVal :=
  .obj [("id", .num id), ("src", .str src), ("alt", .str alt), ("uploadDate", .str uploadDate)]

/-- The collection `Gallery.getDefault()` returns: each image is stamped with
the clock reading taken for it. -/
def Gallery.getDefault (c : Clock) : JVal :=
  .arr [
    galleryImage 1 "_images/events 1.jpg" "School Event 1" (c.defaultStamp 0),
    galleryImage 2 "_images/events 2.jpg" "School Event 2" (c.defaultStamp 1),
    galleryImage 3 "_images/events 3.jpg" "School Event 3" (c.defaultStamp 2),
    galleryImage 4 "_images/events 4.jpg" "School Event 4" (c.defaultStamp 3),
    galleryImage 5 "_images/events 5.jpg" "School Event 5" (c.defaultStamp 4),
    galleryImage 6 "_images/events 6.jpg" "School Event 6" (c.defaultStamp 5),
    galleryImage 7 "_images/events 7.jpg" "School Event 7" (c.defaultStamp 6),
    galleryImage 8 "_images/events 8.jpg" "School Event 8" (c.defaultStamp 7),
    galleryImage 9 "_images/events 9.jpg" "School Event 9" (c.defaultStamp 8),
    galleryImage 10 "_images/events 10.jpg" "School Event 10" (c.defaultStamp 9),
    galleryImage 11 "_images/teaches_photo 1.jpg" "Teachers Photo" (c.defaultStamp 10),
    galleryImage 12 "_images/awards 1.jpg" "Awards Ceremony" (c.defaultStamp 11),
    galleryImage 13 "_images/awards 2.jpg" "Awards Ceremony" (c.defaultStamp 12),
    galleryImage 14 "_images/awards 3.jpg" "Awards Ceremony" (c.defaultStamp 13),
    galleryImage 15 "_images/photo_day.jpg" "Photo Day Activities" (c.defaultStamp 14),
    galleryImage 16 "_images/classroom 1.jpg" "Classroom Environment" (c.defaultStamp 15),
    galleryImage 17 "_images/classroom 2.jpg" "Classroom Learning" (c.defaultStamp 16)]

/-- The body of the `try` block of `Gallery.getAll`. -/
def Gallery.getAllTry (ls : Storage) (c : Clock) : Except JSError JVal :=
  match localStorage.getItem ls KEYS.GALLERY with
  | some data => if data.truthy then JSON.parse data else .ok (Gallery.getDefault c)
  | none => .ok (Gallery.getDefault c)

/-- The function `Gallery.getAll()`. -/
def Gallery.getAll (ls : Storage) (c : Clock) : JVal :=
  match Gallery.getAllTry ls c with
  | .ok v => v
  | .error _ => Gallery.getDefault c

/-- The image `Gallery.add` builds from `imageData`; `TypeError` when
`imageData` is `undefined` or `null`. -/
def Gallery.newImage (imageData : Option JVal) (c : Clock) : Except JSError JVal :=
  match getProp imageData "src" with
  | .error e => .error e
  | .ok src =>
    match getProp imageData "alt" with
    | .error e => .error e
    | .ok alt =>
      .ok (mkObj [("id", some (.num c.now)), ("src", src), ("alt", alt),
        ("uploadDate", some (.str c.uploadStamp))])

/-- The body of the `try` block of `Gallery.add`: the new image and the storage
after the write. -/
def Gallery.addTry (q : Quota) (ls : Storage) (c : Clock) (imageData : Option JVal) :
    Except JSError (JVal × Storage) :=
  let images := Gallery.getAll ls c
  match Gallery.newImage imageData c with
  | .error e => .error e
  | .ok newImage =>
    match arrayPush (some images) newImage with
    | .error e => .error e
    | .ok images' =>
      match localStorage.setItem q ls KEYS.GALLERY (JSON.stringify images') with
      | .error e => .error e
      | .ok ls' => .ok (newImage, ls')

/-- The function `Gallery.add(imageData)`: the new image, or `null` from the
`catch`, and the storage after. -/
def Gallery.add (q : Quota) (ls : Storage) (c : Clock) (imageData : Option JVal) :
    JVal × Storage :=
  match Gallery.addTry q ls c imageData with
  | .ok r => r
  | .error _ => (.null, ls)

/-- The filter callback `img => img.id !== imageId`. -/
def idDiffers (id : Option JVal) (item : JVal) : Except JSError Bool :=
  match getProp (some item) "id" with
  | .error e => .error e
  | .ok v => .ok (!strictEq v id)

/-- The body of the `try` block of `Gallery.delete`. -/
def Gallery.deleteTry (q : Quota) (ls : Storage) (c : Clock) (imageId : Option JVal) :
    Except JSError Storage :=
  match arrayFilter (idDiffers imageId) (some (Gallery.getAll ls c)) with
  | .error e => .error e
  | .ok images => localStorage.setItem q ls KEYS.GALLERY (JSON.stringify images)

/-- The function `Gallery.delete(imageId)`: the result and the storage after. -/
def Gallery.delete (q : Quota) (ls : Storage) (c : Clock) (imageId : Option JVal) :
    Bool × Storage :=
  match Gallery.deleteTry q ls c imageId with
  | .ok ls' => (true, ls')
  | .error _ => (false, ls)

/-! ### Notice board -/

/-- One item literal of the default notice board. -/
def noticeItem (id : Int) (text : String) : JVal :=
  .obj [("id", .num id), ("text", .str text)]

/-- The document `NoticeBoard.getDefault()` returns. -/
def NoticeBoard.getDefault : JVal :=
  .obj [
    ("events", .arr [
      noticeItem 1 "Parent-Teacher Conference - March 15, 2025",
      noticeItem 2 "School Sports Day - March 22, 2025",
      noticeItem 3 "Grade 7 Graduation Ceremony - December 5, 2025",
      noticeItem 4 "School Open Day - April 10, 2025"]),
    ("news", .arr [
      noticeItem 1 "New library books have arrived and are available for borrowing",
      noticeItem 2 "School garden project wins district environmental award",
      noticeItem 3 "Grade 6 students participate in mathematics olympiad",
      noticeItem 4 "School choir performs at community festival"]),
    ("reminders", .arr [
      noticeItem 1 "School fees for Term 2 are due by March 31, 2025",
      noticeItem 2 "Please ensure students wear proper school uniform daily",
      noticeItem 3 "Parent permission slips for field trips must be submitted by Friday",
      noticeItem 4 "After-school activities resume next Monday"])]

/-- The body of the `try` block of `NoticeBoard.getAll`. -/
def NoticeBoard.getAllTry (ls : Storage) : Except JSError JVal :=
  match localStorage.getItem ls KEYS.NOTICE_BOARD with
  | some data => if data.truthy then JSON.parse data else .ok NoticeBoard.getDefault
  | none => .ok NoticeBoard.getDefault

/-- The function `NoticeBoard.getAll()`. -/
def NoticeBoard.getAll (ls : Storage) : JVal :=
  match NoticeBoard.getAllTry ls with
  | .ok v => v
  | .error _ => NoticeBoard.getDefault

/-- The function `NoticeBoard.save(data)`: the result and the storage after. -/
def NoticeBoard.save (q : Quota) (ls : Storage) (data : JVal) : Bool × Storage :=
  match localStorage.setItem q ls KEYS.NOTICE_BOARD (JSON.stringify data) with
  | .ok ls' => (true, ls')
  | .error _ => (false, ls)

/-- The body of the `try` block of `NoticeBoard.addItem`; the push changes the
array held by `data[category]` in place. -/
def NoticeBoard.addItemTry (q : Quota) (ls : Storage) (c : Clock) (category : String)
    (text : Option JVal) : Except JSError (JVal × Storage) :=
  let data := NoticeBoard.getAll ls
  let newItem := mkObj [("id", some (.num c.now)), ("text", text)]
  match getProp (some data) category with
  | .error e => .error e
  | .ok list =>
    match arrayPush list newItem with
    | .error e => .error e
    | .ok list' =>
      let r := NoticeBoard.save q ls (setProp data category list')
      .ok (if r.1 then newItem else .null, r.2)

/-- The function `NoticeBoard.addItem(category, text)`. -/
def NoticeBoard.addItem (q : Quota) (ls : Storage) (c : Clock) (category : String)
    (text : Option JVal) : JVal × Storage :=
  match NoticeBoard.addItemTry q ls c category text with
  | .ok r => r
  | .error _ => (.null, ls)

/-- The body of the `try` block of `NoticeBoard.deleteItem`. -/
def NoticeBoard.deleteItemTry (q : Quota) (ls : Storage) (category : String)
    (itemId : Option JVal) : Except JSError (Bool × Storage) :=
  let data := NoticeBoard.getAll ls
  match getProp (some data) category with
  | .error e => .error e
  | .ok list =>
    match arrayFilter (idDiffers itemId) list with
    | .error e => .error e
    | .ok list' => .ok (NoticeBoard.save q ls (setProp data category list'))

/-- The function `NoticeBoard.deleteItem(category, itemId)`. -/
def NoticeBoard.deleteItem (q : Quota) (ls : Storage) (category : String)
    (itemId : Option JVal) : Bool × Storage :=
  match NoticeBoard.deleteItemTry q ls category itemId with
  | .ok r => r
  | .error _ => (false, ls)

/-! ### Uniform shop -/

/-- One item literal of the default uniform shop. -/
def uniformItem (id : Int) (name : String) (price : Int) : JVal :=
  .obj [("id", .num id), ("name", .str name), ("price", .num price)]

/-- The document `UniformShop.getDefault()` returns. -/
def UniformShop.getDefault : JVal :=
  .obj [
    ("boys", .obj [
      ("summer", .arr [
        uniformItem 1 "Navy blue shorts" 150,
        uniformItem 2 "White short-sleeve shirt" 120,
        uniformItem 3 "Navy blue knee-high socks" 45,
        uniformItem 4 "Black school shoes" 280,
        uniformItem 5 "Navy blue school hat" 85]),
      ("winter", .arr [
        uniformItem 6 "Navy blue long pants" 180,
        uniformItem 7 "White long-sleeve shirt" 140,
        uniformItem 8 "Navy blue pullover" 220,
        uniformItem 9 "Navy blue blazer" 350,
        uniformItem 10 "School tie" 65]),
      ("sports", .arr [
        uniformItem 11 "Navy blue sports shorts" 130,
        uniformItem 12 "White sports t-shirt" 110,
        uniformItem 13 "White sports socks" 40,
        uniformItem 14 "Sports tracksuit" 380])]),
    ("girls", .obj [
      ("summer", .arr [
        uniformItem 15 "Navy blue tunic dress" 180,
        uniformItem 16 "White short-sleeve blouse" 125,
        uniformItem 17 "White knee-high socks" 45,
        uniformItem 18 "Black school shoes" 280,
        uniformItem 19 "Navy blue school hat" 85]),
      ("winter", .arr [
        uniformItem 20 "Navy blue winter skirt" 160,
        uniformItem 21 "White long-sleeve blouse" 145,
        uniformItem 22 "Navy blue cardigan" 240,
        uniformItem 23 "Navy blue blazer" 350,
        uniformItem 24 "School tie" 65]),
      ("sports", .arr [
        uniformItem 25 "Navy blue sports skort" 140,
        uniformItem 26 "White sports t-shirt" 110,
        uniformItem 27 "White sports socks" 40,
        uniformItem 28 "Sports tracksuit" 380])])]

/-- The body of the `try` block of `UniformShop.getAll`. -/
def UniformShop.getAllTry (ls : Storage) : Except JSError JVal :=
  match localStorage.getItem ls KEYS.UNIFORM_SHOP with
  | some data => if data.truthy then JSON.parse data else .ok UniformShop.getDefault
  | none => .ok UniformShop.getDefault

/-- The function `UniformShop.getAll()`. -/
def UniformShop.getAll (ls : Storage) : JVal :=
  match UniformShop.getAllTry ls with
  | .ok v => v
  | .error _ => UniformShop.getDefault

/-- The function `UniformShop.save(data)`: the result and the storage after. -/
def UniformShop.save (q : Quota) (ls : Storage) (data : JVal) : Bool × Storage :=
  match localStorage.setItem q ls KEYS.UNIFORM_SHOP (JSON.stringify data) with
  | .ok ls' => (true, ls')
  | .error _ => (false, ls)

/-- The document after `data[gender][category] = list`, where `data[gender]`
has been read as `sub`: the write goes to the object `sub` held by `data`. -/
def setNested (data : JVal) (gender : String) (sub : Option JVal) (category : String)
    (list : JVal) : JVal :=
  match sub with
  | some s => setProp data gender (setProp s category list)
  | none => data

/-- The item `UniformShop.addItem` builds from `itemData`. -/
def UniformShop.newItem (itemData : Option JVal) (c : Clock) : Except JSError JVal :=
  match getProp itemData "name" with
  | .error e => .error e
  | .ok name =>
    match getProp itemData "price" with
    | .error e => .error e
    | .ok price => .ok (mkObj [("id", some (.num c.now)), ("name", name), ("price", price)])

/-- The body of the `try` block of `UniformShop.addItem`. -/
def UniformShop.addItemTry (q : Quota) (ls : Storage) (c : Clock) (gender category : String)
    (itemData : Option JVal) : Except JSError (JVal × Storage) :=
  let data := UniformShop.getAll ls
  match UniformShop.newItem itemData c with
  | .error e => .error e
  | .ok newItem =>
    match getProp (some data) gender with
    | .error e => .error e
    | .ok sub =>
      match getProp sub category with
      | .error e => .error e
      | .ok list =>
        match arrayPush list newItem with
        | .error e => .error e
        | .ok list' =>
          let r := UniformShop.save q ls (setNested data gender sub category list')
          .ok (if r.1 then newItem else .null, r.2)

/-- The function `UniformShop.addItem(gender, category, itemData)`. -/
def UniformShop.addItem (q : Quota) (ls : Storage) (c : Clock) (gender category : String)
    (itemData : Option JVal) : JVal × Storage :=
  match UniformShop.addItemTry q ls c gender category itemData with
  | .ok r => r
  | .error _ => (.null, ls)

/-- The body of the `try` block of `UniformShop.deleteItem`. -/
def UniformShop.deleteItemTry (q : Quota) (ls : Storage) (gender category : String)
    (itemId : Option JVal) : Except JSError (Bool × Storage) :=
  let data := UniformShop.getAll ls
  match getProp (some data) gender with
  | .error e => .error e
  | .ok sub =>
    match getProp sub category with
    | .error e => .error e
    | .ok list =>
      match arrayFilter (idDiffers itemId) list with
      | .error e => .error e
      | .ok list' => .ok (UniformShop.save q ls (setNested data gender sub category list'))

/-- The function `UniformShop.deleteItem(gender, category, itemId)`. -/
def UniformShop.deleteItem (q : Quota) (ls : Storage) (gender category : String)
    (itemId : Option JVal) : Bool × Storage :=
  match UniformShop.deleteItemTry q ls gender category itemId with
  | .ok r => r
  | .error _ => (false, ls)

/-- The callback `item => item.id === itemId` of `findIndex`. -/
def idEquals (id : Option JVal) (item : JVal) : Except JSError Bool :=
  match getProp (some item) "id" with
  | .error e => .error e
  | .ok v => .ok (strictEq v id)

/-- `xs.findIndex(cb)`: `none` is `-1`; `TypeError` when the receiver is not an
array. -/
def arrayFindIndex (p : JVal → Except JSError Bool) : Option JVal → Except JSError (Option Nat)
  | some (.arr xs) => findIndexE p xs
  | _ => .error .TypeError

/-- The list after `list[i] = v` for an index `i` that `findIndex` returned. -/
def setAt (list : Option JVal) (i : Nat) (v : JVal) : JVal :=
  match list with
  | some (.arr xs) => .arr (xs.set i v)
  | some x => x
  | none => .null

/-- The body of the `try` block of `UniformShop.updateItem`. -/
def UniformShop.updateItemTry (q : Quota) (ls : Storage) (gender category : String)
    (itemId updates : Option JVal) : Except JSError (Bool × Storage) :=
  let data := UniformShop.getAll ls
  match getProp (some data) gender with
  | .error e => .error e
  | .ok sub =>
    match getProp sub category with
    | .error e => .error e
    | .ok list =>
      match arrayFindIndex (idEquals itemId) list with
      | .error e => .error e
      | .ok none => .ok (false, ls)
      | .ok (some itemIndex) =>
        match getIndex list itemIndex with
        | .error e => .error e
        | .ok item =>
          let merged := spreadMerge item updates
          .ok (UniformShop.save q ls
            (setNested data gender sub category (setAt list itemIndex merged)))

/-- The function `UniformShop.updateItem(gender, category, itemId, updates)`. -/
def UniformShop.updateItem (q : Quota) (ls : Storage) (gender category : String)
    (itemId updates : Option JVal) : Bool × Storage :=
  match UniformShop.updateItemTry q ls gender category itemId updates with
  | .ok r => r
  | .error _ => (false, ls)

end AdminDataManager

namespace JS

/-! ### Strings and regular expressions -/

/-- The characters `\s` matches and `trim()` strips: white space and line
terminators. -/
def isWhiteSpace (c : Char) : Bool :=
  c.toNat == 9 || c.toNat == 10 || c.toNat == 11 || c.toNat == 12 || c.toNat == 13 ||
  c.toNat == 32 || c.toNat == 0xA0 || c.toNat == 0x1680 ||
  (0x2000 ≤ c.toNat && c.toNat ≤ 0x200A) ||
  c.toNat == 0x2028 || c.toNat == 0x2029 || c.toNat == 0x202F || c.toNat == 0x205F ||
  c.toNat == 0x3000 || c.toNat == 0xFEFF

/-- The `length` of a string: its number of UTF-16 code units. -/
def utf16Length (cs : List Char) : Nat :=
  (cs.map (fun c => if c.toNat < 0x10000 then 1 else 2)).sum

/-- The characters of `s.trim()`. -/
def trim (cs : List Char) : List Char :=
  ((cs.dropWhile isWhiteSpace).reverse.dropWhile isWhiteSpace).reverse

/-- The value of `s.trim().length`. -/
def trimLength (s : String) : Nat := utf16Length (trim s.toList)

/-- A regular expression over characters; `cls p` matches one character of
the class `p`. -/
inductive Regex where
  | empty
  | eps
  | cls (p : Char → Bool)
  | seq (a b : Regex)
  | alt (a b : Regex)
  | star (a : Regex)

/-- The regex `a+`. -/
def Regex.plus (a : Regex) : Regex := .seq a (.star a)

/-- The regex matching the one character `c`. -/
def Regex.chr (c : Char) : Regex := .cls (fun x => x == c)

/-- Whether a regex matches the empty string. -/
def Regex.nullable : Regex → Bool
  | .empty => false
  | .eps => true
  | .cls _ => false
  | .seq a b => a.nullable && b.nullable
  | .alt a b => a.nullable || b.nullable
  | .star _ => true

/-- The regex matching what remains of a match after the character `c`. -/
def Regex.deriv (c : Char) : Regex → Regex
  | .empty => .empty
  | .eps => .empty
  | .cls p => if p c then .eps else .empty
  | .seq a b => if a.nullable then .alt (.seq (a.deriv c) b) (b.deriv c) else .seq (a.deriv c) b
  | .alt a b => .alt (a.deriv c) (b.deriv c)
  | .star a => .seq (a.deriv c) (.star a)

/-- Whether the regex matches the whole list of characters. -/
def Regex.matchesAll (r : Regex) : List Char → Bool
  | [] => r.nullable
  | c :: cs => (r.deriv c).matchesAll cs

/-- The method `/^r$/.test(s)` for a pattern anchored at both ends. -/
def Regex.test (r : Regex) (s : String) : Bool := r.matchesAll s.toList

/-- The class `[0-9]`, also `\d`. -/
def isDigit (c : Char) : Bool := '0' ≤ c && c ≤ '9'

/-- The class `[a-zA-Z]`. -/
def isLetter (c : Char) : Bool := ('a' ≤ c && c ≤ 'z') || ('A' ≤ c && c ≤ 'Z')

/-- The apostrophe character. -/
def apostrophe : Char := Char.ofNat 39

/-- The double quote character. -/
def doubleQuote : Char := Char.ofNat 34

/-- The value of a digit character in the given radix. -/
def digitValue (radix : Nat) (c : Char) : Option Nat :=
  let v : Option Nat :=
    if '0' ≤ c && c ≤ '9' then some (c.toNat - '0'.toNat)
    else if 'a' ≤ c && c ≤ 'z' then some (c.toNat - 'a'.toNat + 10)
    else if 'A' ≤ c && c ≤ 'Z' then some (c.toNat - 'A'.toNat + 10)
    else none
  v.bind (fun n => if n < radix then some n else none)

/-- The number written by the longest prefix of digits, given the value `acc`
of the digits already read; `none` when no digit has been read at all. -/
def parseDigits (radix : Nat) : Option Nat → List Char → Option Nat
  | acc, [] => acc
  | acc, c :: cs =>
    match digitValue radix c with
    | some d => parseDigits radix (some (acc.getD 0 * radix + d)) cs
    | none => acc

/-- The function `parseInt(s)` with no radix argument: `none` is `NaN`.
Leading white space is skipped, a sign and a hexadecimal prefix are
recognised, and the longest prefix of digits is read. -/
def parseInt (s : String) : Option Int :=
  let cs := s.toList.dropWhile isWhiteSpace
  let signed : Bool × List Char :=
    match cs with
    | '-' :: r => (true, r)
    | '+' :: r => (false, r)
    | _ => (false, cs)
  let based : Nat × List Char :=
    match signed.2 with
    | '0' :: 'x' :: r => (16, r)
    | '0' :: 'X' :: r => (16, r)
    | _ => (10, signed.2)
  match parseDigits based.1 none based.2 with
  | none => none
  | some n => some (if signed.1 then -(n : Int) else n)

/-- A number interpolated into a template string; `none` is `NaN`. -/
def showNumber : Option Int → String
  | none => "NaN"
  | some n => toString n

/-- The parts of `s.split(sep)` for a one-character separator. -/
def splitChars (sep : Char) : List Char → List (List Char)
  | [] => [[]]
  | c :: cs =>
    if c = sep then [] :: splitChars sep cs
    else
      match splitChars sep cs with
      | [] => [[c]]
      | part :: parts => (c :: part) :: parts

end JS

namespace FormValidationManager
open JS

/-- A value that plain objects inherit from `Object.prototype` (a function, or
the prototype itself; every such value is truthy): `text` is the text it is
shown as, and `prop key` is the text of its property `key` when that property
is truthy, `none` when it is falsy or `undefined`. -/
structure InheritedValue where
  text : String
  prop : String → Option String

/-- What the page supplies besides the clock: `navigator.userAgent`,
`window.location.href`, the suffix `Math.random().toString(36).substr(2, 9)`,
the time value `new Date(s)` denotes (`none` for an invalid date), and the
properties that plain objects inherit: `inherited name` is the value a read of
`name` finds on the prototype chain, `none` when there is no such property. -/
structure Page where
  userAgent : String
  url : String
  random : String
  parseDate : String → Option Int
  inherited : String → Option InheritedValue

/-- A validation rule object: its `test` and its default `message`. -/
structure RuleObj where
  test : String → Bool
  message : String

/-- A property of the rule table: a rule object, or a function from the
parsed parameter to a rule object (`minLength`, `maxLength`). -/
inductive RuleEntry where
  | rule (r : RuleObj)
  | factory (f : Option Int → RuleObj)

/-- The pattern `[^\s@]+@[^\s@]+\.[^\s@]+` of the email regex. -/
def emailRegex : Regex :=
  let part := Regex.plus (.cls (fun c => !(isWhiteSpace c || c == '@')))
  .seq part (.seq (.chr '@') (.seq part (.seq (.chr '.') part)))

/-- The pattern `[0-9+\-\s()]+` of the phone regex. -/
def phoneRegex : Regex :=
  Regex.plus (.cls (fun c => isDigit c || c == '+' || c == '-' || isWhiteSpace c ||
    c == '(' || c == ')'))

/-- The pattern `[a-zA-Z\s\-'\.]+` of the name regex. -/
def nameRegex : Regex :=
  Regex.plus (.cls (fun c => isLetter c || isWhiteSpace c || c == '-' || c == apostrophe ||
    c == '.'))

/-- The pattern `[a-zA-Z0-9\s\-_\.]+` of the noSpecialChars regex. -/
def noSpecialCharsRegex : Regex :=
  Regex.plus (.cls (fun c => isLetter c || isDigit c || isWhiteSpace c || c == '-' ||
    c == '_' || c == '.'))

/-- The pattern `grade-[r1-7]` of the grade regex. -/
def gradeRegex : Regex :=
  .seq (.chr 'g') (.seq (.chr 'r') (.seq (.chr 'a') (.seq (.chr 'd') (.seq (.chr 'e')
    (.seq (.chr '-') (.cls (fun c => c == 'r' || ('1' ≤ c && c ≤ '7'))))))))

/-- The number of characters of `value.replace(/[^0-9]/g, '')`. -/
def digitCount (s : String) : Nat := (s.toList.filter isDigit).length

/-- The rule `required`. -/
def requiredRule : RuleObj :=
  { test := fun value => value != "" && decide (trimLength value > 0)
    message := "This field is required" }

/-- The rule `email`. -/
def emailRule : RuleObj :=
  { test := fun value => emailRegex.test value
    message := "Please enter a valid email address" }

/-- The rule `phone`. -/
def phoneRule : RuleObj :=
  { test := fun value => phoneRegex.test value && decide (digitCount value ≥ 10)
    message := "Please enter a valid phone number (at least 10 digits)" }

/-- The rule `date`: the value denotes a date, earlier than the clock. -/
def dateRule (pg : Page) (c : Clock) : RuleObj :=
  { test := fun value =>
      match pg.parseDate value with
      | none => false
      | some t => decide (t < (c.now : Int))
    message := "Please enter a valid date in the past" }

/-- The rule `minLength(min)`; a comparison with `NaN` is false. -/
def minLengthRule (min : Option Int) : RuleObj :=
  { test := fun value =>
      value != "" && (match min with
        | none => false
        | some m => decide ((trimLength value : Int) ≥ m))
    message := "This field must be at least " ++ showNumber min ++ " characters long" }

/-- The rule `maxLength(max)`. -/
def maxLengthRule (max : Option Int) : RuleObj :=
  { test := fun value =>
      value == "" || (match max with
        | none => false
        | some m => decide ((utf16Length value.toList : Int) ≤ m))
    message := "This field must not exceed " ++ showNumber max ++ " characters" }

/-- The rule `name`. -/
def nameRule : RuleObj :=
  { test := fun value => nameRegex.test value && decide (trimLength value ≥ 2)
    message := "Please enter a valid name (letters, spaces, hyphens, and apostrophes only)" }

/-- The rule `noSpecialChars`. -/
def noSpecialCharsRule : RuleObj :=
  { test := fun value => noSpecialCharsRegex.test value
    message := "Special characters are not allowed except hyphens, underscores, and periods" }

/-- The rule `grade`. -/
def gradeRule : RuleObj :=
  { test := fun value => gradeRegex.test value
    message := "Please select a valid grade level" }

/-- The rule `textArea`. -/
def textAreaRule : RuleObj :=
  { test := fun value =>
      value == "" || (decide (trimLength value ≥ 10) && decide (trimLength value ≤ 1000))
    message := "Text must be between 10 and 1000 characters" }

/-- The table `initializeValidationRules()` returns, by property name. -/
def initializeValidationRules (pg : Page) (c : Clock) (ruleName : String) : Option RuleEntry :=
  if ruleName = "required" then some (.rule requiredRule)
  else if ruleName = "email" then some (.rule emailRule)
  else if ruleName = "phone" then some (.rule phoneRule)
  else if ruleName = "date" then some (.rule (dateRule pg c))
  else if ruleName = "minLength" then some (.factory minLengthRule)
  else if ruleName = "maxLength" then some (.factory maxLengthRule)
  else if ruleName = "name" then some (.rule nameRule)
  else if ruleName = "noSpecialChars" then some (.rule noSpecialCharsRule)
  else if ruleName = "grade" then some (.rule gradeRule)
  else if ruleName = "textArea" then some (.rule textAreaRule)
  else none

/-- The table `initializeErrorMessages()` returns: field name, then rule. -/
def initializeErrorMessages : List (String × List (String × String)) := [
    ("fullName", [("required", "Student's full name is required"), ("name", "Please enter a valid student name")]),
    ("parentName", [("required", "Parent or guardian name is required"), ("name", "Please enter a valid parent/guardian name")]),
    ("email", [("required", "Email address is required"), ("email", "Please enter a valid email address (e.g., parent@example.com)")]),
    ("contactNumber", [("required", "Contact number is required"), ("phone", "Please enter a valid South African phone number")]),
    ("dob", [("required", "Date of birth is required"), ("date", "Please enter a valid birth date")]),
    ("gradeApplying", [("required", "Please select the grade your child is applying for"), ("grade", "Please select a valid grade level")]),
    ("name", [("required", "Your name is required"), ("name", "Please enter your full name")]),
    ("phone", [("phone", "Please enter a valid phone number")]),
    ("subject", [("required", "Please select an enquiry topic")]),
    ("message", [("required", "Please enter your message or enquiry"), ("textArea", "Message must be between 10 and 1000 characters")]),
    ("additionalInfo", [("textArea", "Additional information should be between 10 and 1000 characters if provided")]),
    ("vol_name", [("required", "Your name is required to volunteer"), ("name", "Please enter your full name")]),
    ("vol_email", [("required", "Email address is required"), ("email", "Please enter a valid email address")]),
    ("vol_phone", [("required", "Phone number is required"), ("phone", "Please enter a valid phone number")]),
    ("vol_interest", [("required", "Please select an area of interest")]),
    ("sponsor_company", [("required", "Company name is required"), ("name", "Please enter a valid company name")]),
    ("sponsor_contact", [("required", "Contact person name is required"), ("name", "Please enter the contact person's name")]),
    ("sponsor_email", [("required", "Email address is required"), ("email", "Please enter a valid email address")]),
    ("sponsor_phone", [("required", "Phone number is required"), ("phone", "Please enter a valid phone number")]),
    ("sponsorship_type", [("required", "Please select a type of sponsorship")])]

/-- The value of `this.errorMessages[fieldName] && this.errorMessages[fieldName][rule]`
as the text it is shown as when it is truthy, `none` when it is falsy.  Both
reads go through the prototype chain: a rule that the field's messages do not
list reads the property objects inherit under the rule's name, and a field
name that the table does not list reads the property `rule` of the value
objects inherit under the field name.  An empty message is falsy. -/
def customMessage (pg : Page) (fieldName rule : String) : Option String :=
  match initializeErrorMessages.lookup fieldName with
  | some messages =>
    match messages.lookup rule with
    | some m => if m != "" then some m else none
    | none => (pg.inherited rule).map (fun v => v.text)
  | none =>
    match pg.inherited fieldName with
    | some v => v.prop rule
    | none => none

/-- The value of `customMessage || ruleObj.message`. -/
def messageFor (pg : Page) (fieldName rule : String) (ruleObj : RuleObj) : String :=
  match customMessage pg fieldName rule with
  | some m => m
  | none => ruleObj.message

/-- The custom message that `initializeErrorMessages` defines for a field name
and a rule, in the words of C13: the entry of the table, `none` when the table
has none. -/
def definedMessage (fieldName rule : String) : Option String :=
  match initializeErrorMessages.lookup fieldName with
  | some messages => messages.lookup rule
  | none => none

/-- The rules are looked up among the own properties of the rule table.  The
value of `ruleObj` in the loop body of `validateField`: `none` is `undefined`;
`TypeError` when a rule with a parameter names no function. -/
def resolveRule (pg : Page) (c : Clock) (rule : String) : Except JSError (Option RuleEntry) :=
  if rule.toList.contains ':' then
    let parts := splitChars ':' rule.toList
    let ruleName := String.mk (parts.headD [])
    let params := String.mk ((parts.tail).headD [])
    match initializeValidationRules pg c ruleName with
    | some (.factory f) => .ok (some (.rule (f (parseInt params))))
    | _ => .error .TypeError
  else .ok (initializeValidationRules pg c rule)

/-- One turn of the loop of `validateField`: the message the rule pushes onto
`errors`, if any; `TypeError` when `ruleObj` is a function, which has no `test`. -/
def ruleError (pg : Page) (c : Clock) (fieldName value rule : String) :
    Except JSError (Option String) :=
  match resolveRule pg c rule with
  | .error e => .error e
  | .ok none => .ok none
  | .ok (some (.factory _)) => .error .TypeError
  | .ok (some (.rule ruleObj)) =>
    if !ruleObj.test value then .ok (some (messageFor pg fieldName rule ruleObj)) else .ok none

/-- The array `errors` after `rules.forEach(...)`. -/
def collectErrors (pg : Page) (c : Clock) (fieldName value : String) :
    List String → Except JSError (List String)
  | [] => .ok []
  | rule :: rest =>
    match ruleError pg c fieldName value rule with
    | .error e => .error e
    | .ok m =>
      match collectErrors pg c fieldName value rest with
      | .error e => .error e
      | .ok ms => .ok (m.toList ++ ms)

/-- What `validateField` returns and shows: `shown` is the message passed to
`showFieldError`, `none` when the error is cleared. -/
structure FieldResult where
  valid : Bool
  shown : Option String
  deriving DecidableEq, Repr

/-- The method `validateField(field, fieldName, rules)` on a field holding
`value`. -/
def validateField (pg : Page) (c : Clock) (value fieldName : String) (rules : List String) :
    Except JSError FieldResult :=
  match collectErrors pg c fieldName value rules with
  | .error e => .error e
  | .ok [] => .ok { valid := true, shown := none }
  | .ok (first :: _) => .ok { valid := false, shown := some first }

/-! ### Forms, the data store and submission -/

/-- A form control that takes part in submission: its `name`, `id` and `value`. -/
structure Control where
  name : String
  id : String
  value : String
  deriving DecidableEq, Repr

/-- A form: its `action` and `id` properties and its controls in document order. -/
structure Form where
  action : String
  id : String
  controls : List Control

/-- The element `form.querySelector('[name="fieldName"], #fieldName')`. -/
def Form.querySelector (form : Form) (fieldName : String) : Option Control :=
  form.controls.find? (fun x => x.name == fieldName || x.id == fieldName)

/-- The object `Object.fromEntries(new FormData(form).entries())`: one property
per control name, a later control of the same name overwriting the value. -/
def Form.data (form : Form) : List (String × JVal) :=
  (form.controls.filter (fun x => x.name != "")).foldl
    (fun acc x => setField x.name (.str x.value) acc) []

/-- The submit handlers a form configuration can name. -/
inductive SubmitHandler where
  | admission
  | enquiry
  | volunteer
  | sponsor
  deriving DecidableEq, Repr

/-- A form configuration: `fields` lists each field with its rules in the
order of `Object.keys(config.fields)`. -/
structure FormConfig where
  name : String
  fields : List (String × List String)
  submitHandler : SubmitHandler
  successMessage : String
  errorMessage : String

/-- The configuration `setupAdmissionForm` registers. -/
def admissionConfig : FormConfig :=
  { name := "admission"
    fields := [
      ("fullName", ["required", "name", "minLength:2", "maxLength:100"]),
      ("dob", ["required", "date"]),
      ("previousSchool", ["maxLength:200", "noSpecialChars"]),
      ("parentName", ["required", "name", "minLength:2", "maxLength:100"]),
      ("contactNumber", ["required", "phone"]),
      ("email", ["required", "email"]),
      ("gradeApplying", ["required", "grade"]),
      ("additionalInfo", ["textArea"])]
    submitHandler := .admission
    successMessage := "Application submitted successfully! We will contact you within 2 business days."
    errorMessage := "Please correct the errors below and try again." }

/-- The configuration `setupEnquiryForm` registers. -/
def enquiryConfig : FormConfig :=
  { name := "enquiry"
    fields := [
      ("name", ["required", "name", "minLength:2", "maxLength:100"]),
      ("email", ["required", "email"]),
      ("phone", ["phone"]),
      ("subject", ["required"]),
      ("message", ["required", "textArea"])]
    submitHandler := .enquiry
    successMessage := "Your enquiry has been sent successfully! We will respond within 24 hours."
    errorMessage := "Please correct the errors below and try again." }

/-- The configuration `setupVolunteerForm` registers. -/
def volunteerConfig : FormConfig :=
  { name := "volunteer"
    fields := [
      ("vol_name", ["required", "name", "minLength:2", "maxLength:100"]),
      ("vol_email", ["required", "email"]),
      ("vol_phone", ["required", "phone"]),
      ("vol_interest", ["required"])]
    submitHandler := .volunteer
    successMessage := "Thank you for volunteering! We will contact you soon with more information."
    errorMessage := "Please correct the errors below and try again." }

/-- The configuration `setupSponsorForm` registers. -/
def sponsorConfig : FormConfig :=
  { name := "sponsor"
    fields := [
      ("sponsor_company", ["required", "name", "minLength:2", "maxLength:200"]),
      ("sponsor_contact", ["required", "name", "minLength:2", "maxLength:100"]),
      ("sponsor_email", ["required", "email"]),
      ("sponsor_phone", ["required", "phone"]),
      ("sponsorship_type", ["required"])]
    submitHandler := .sponsor
    successMessage := "Thank you for your interest in sponsoring! We will contact you to discuss partnership opportunities."
    errorMessage := "Please correct the errors below and try again." }

/-- The object `this.dataStorage`. -/
structure DataStorage where
  admissions : JVal
  enquiries : JVal
  volunteers : JVal
  sponsors : JVal
  validationLogs : JVal

/-- The manager's collections in memory together with the browser storage. -/
structure AppState where
  dataStorage : DataStorage
  localStorage : Storage

/-- The text `localStorage.getItem(key) || '[]'`. -/
def storedOrEmpty (ls : Storage) (key : String) : StoredText :=
  match localStorage.getItem ls key with
  | some text => if text.truthy then text else .json (.arr [])
  | none => .json (.arr [])

/-- The method `initializeDataStorage()`: the five reads are not guarded, a
`SyntaxError` of `JSON.parse` leaves the method. -/
def initializeDataStorage (ls : Storage) : Except JSError DataStorage :=
  match JSON.parse (storedOrEmpty ls "admissionApplications") with
  | .error e => .error e
  | .ok admissions =>
    match JSON.parse (storedOrEmpty ls "contactEnquiries") with
    | .error e => .error e
    | .ok enquiries =>
      match JSON.parse (storedOrEmpty ls "volunteerApplications") with
      | .error e => .error e
      | .ok volunteers =>
        match JSON.parse (storedOrEmpty ls "sponsorApplications") with
        | .error e => .error e
        | .ok sponsors =>
          match JSON.parse (storedOrEmpty ls "validationLogs") with
          | .error e => .error e
          | .ok validationLogs =>
            .ok { admissions := admissions, enquiries := enquiries, volunteers := volunteers,
                  sponsors := sponsors, validationLogs := validationLogs }

/-- The array `xs.slice(-n)`: the last `n` elements. -/
def sliceLast (n : Nat) (xs : List JVal) : List JVal := xs.drop (xs.length - n)

/-- The method `logValidationAttempt(formType, data, validationResults, isValid)`:
the exception that leaves it, if any, and the state after.  The collection in
memory is already updated when the write to storage throws. -/
def logValidationAttempt (q : Quota) (pg : Page) (c : Clock) (st : AppState) (formType : String)
    (validationResults : List (String × Bool)) (isValid : Bool) : Option JSError × AppState :=
  let logEntry : JVal := .obj [
    ("timestamp", .str c.logStamp),
    ("formType", .str formType),
    ("isValid", .bool isValid),
    ("validationResults", .obj (validationResults.map (fun r => (r.1, JVal.bool r.2)))),
    ("userAgent", .str pg.userAgent),
    ("url", .str pg.url)]
  match st.dataStorage.validationLogs with
  | .arr logs =>
    let pushed := logs ++ [logEntry]
    let kept := if pushed.length > 100 then sliceLast 100 pushed else pushed
    let ds := { st.dataStorage with validationLogs := .arr kept }
    match localStorage.setItem q st.localStorage "validationLogs" (JSON.stringify (.arr kept)) with
    | .ok ls' => (none, { dataStorage := ds, localStorage := ls' })
    | .error e => (some e, { dataStorage := ds, localStorage := st.localStorage })
  | _ => (some .TypeError, st)

/-- The shared shape of the four submit handlers: stamp `data` with the three
properties, push it onto the collection in memory, then write the collection
under `key`.  The push is kept when the write throws. -/
def storeSubmission (q : Quota) (st : AppState) (collection : JVal) (key : String)
    (record : JVal) (update : JVal → DataStorage) : Option JSError × AppState :=
  match collection with
  | .arr items =>
    let items' := JVal.arr (items ++ [record])
    let ds := update items'
    match localStorage.setItem q st.localStorage key (JSON.stringify items') with
    | .ok ls' => (none, { dataStorage := ds, localStorage := ls' })
    | .error e => (some e, { dataStorage := ds, localStorage := st.localStorage })
  | _ => (some .TypeError, st)

/-- The id `'ADM-' + Date.now() + '-' + Math.random().toString(36).substr(2, 9)`
with the given tag. -/
def submissionId (tag : String) (pg : Page) (c : Clock) : String :=
  tag ++ "-" ++ toString c.now ++ "-" ++ pg.random

/-- The method `handleAdmissionSubmission(data)`. -/
def handleAdmissionSubmission (q : Quota) (pg : Page) (c : Clock) (st : AppState)
    (data : List (String × JVal)) : Option JSError × AppState :=
  let record := JVal.obj (setField "reviewDate" .null (setField "status" (.str "pending")
    (setField "id" (.str (submissionId "ADM" pg c)) data)))
  storeSubmission q st st.dataStorage.admissions "admissionApplications" record
    (fun v => { st.dataStorage with admissions := v })

/-- The method `handleEnquirySubmission(data)`. -/
def handleEnquirySubmission (q : Quota) (pg : Page) (c : Clock) (st : AppState)
    (data : List (String × JVal)) : Option JSError × AppState :=
  let record := JVal.obj (setField "responseDate" .null (setField "status" (.str "new")
    (setField "id" (.str (submissionId "ENQ" pg c)) data)))
  storeSubmission q st st.dataStorage.enquiries "contactEnquiries" record
    (fun v => { st.dataStorage with enquiries := v })

/-- The method `handleVolunteerSubmission(data)`. -/
def handleVolunteerSubmission (q : Quota) (pg : Page) (c : Clock) (st : AppState)
    (data : List (String × JVal)) : Option JSError × AppState :=
  let record := JVal.obj (setField "applicationDate" (.str c.applicationStamp)
    (setField "status" (.str "new") (setField "id" (.str (submissionId "VOL" pg c)) data)))
  storeSubmission q st st.dataStorage.volunteers "volunteerApplications" record
    (fun v => { st.dataStorage with volunteers := v })

/-- The method `handleSponsorSubmission(data)`. -/
def handleSponsorSubmission (q : Quota) (pg : Page) (c : Clock) (st : AppState)
    (data : List (String × JVal)) : Option JSError × AppState :=
  let record := JVal.obj (setField "applicationDate" (.str c.applicationStamp)
    (setField "status" (.str "new") (setField "id" (.str (submissionId "SPO" pg c)) data)))
  storeSubmission q st st.dataStorage.sponsors "sponsorApplications" record
    (fun v => { st.dataStorage with sponsors := v })

/-- The call `config.submitHandler(data)`. -/
def runSubmitHandler (q : Quota) (pg : Page) (c : Clock) (st : AppState)
    (data : List (String × JVal)) : SubmitHandler → Option JSError × AppState
  | .admission => handleAdmissionSubmission q pg c st data
  | .enquiry => handleEnquirySubmission q pg c st data
  | .volunteer => handleVolunteerSubmission q pg c st data
  | .sponsor => handleSponsorSubmission q pg c st data

/-- The loop `Object.keys(config.fields).forEach(...)` of `handleFormSubmission`:
the entries of `validationResults`, one per configured field the form holds. -/
def validateFields (pg : Page) (c : Clock) (form : Form) :
    List (String × List String) → Except JSError (List (String × Bool))
  | [] => .ok []
  | (fieldName, rules) :: rest =>
    match form.querySelector fieldName with
    | none => validateFields pg c form rest
    | some field =>
      match validateField pg c field.value fieldName rules with
      | .error e => .error e
      | .ok r =>
        match validateFields pg c form rest with
        | .error e => .error e
        | .ok rs => .ok ((fieldName, r.valid) :: rs)

/-- What a call of `handleFormSubmission` leaves behind: the state, the
exception that left the method (if any), and the banner shown by
`showFormMessage` as its type and text. -/
structure Outcome where
  state : AppState
  thrown : Option JSError
  banner : Option (String × String)

/-- The method `handleFormSubmission(form, config)`. -/
def handleFormSubmission (q : Quota) (pg : Page) (c : Clock) (st : AppState) (form : Form)
    (config : FormConfig) : Outcome :=
  let data := setField "formType" (.str config.name)
    (setField "submittedAt" (.str c.iso) form.data)
  match validateFields pg c form config.fields with
  | .error e => { state := st, thrown := some e, banner := none }
  | .ok validationResults =>
    let isValid := validationResults.all (fun r => r.2)
    match logValidationAttempt q pg c st config.name validationResults isValid with
    | (some e, st1) => { state := st1, thrown := some e, banner := none }
    | (none, st1) =>
      if isValid then
        match runSubmitHandler q pg c st1 data config.submitHandler with
        | (none, st2) =>
          { state := st2, thrown := none, banner := some ("success", config.successMessage) }
        | (some _, st2) =>
          { state := st2, thrown := none,
            banner := some ("error", "An error occurred while submitting the form. Please try again.") }
      else
        { state := st1, thrown := none, banner := some ("error", config.errorMessage) }

/-- The storage key `autoSave-${formId}` with `formId = form.action || form.id || 'default'`. -/
def autoSaveKey (form : Form) : String :=
  "autoSave-" ++ (if form.action != "" then form.action
    else if form.id != "" then form.id else "default")

/-- The method `autoSaveFormData(form)` for a form that is not null: the text
written under the form's draft key; the write is not guarded. -/
def autoSaveFormData (q : Quota) (c : Clock) (ls : Storage) (form : Form) :
    Except JSError Storage :=
  localStorage.setItem q ls (autoSaveKey form)
    (JSON.stringify (.obj [("data", .obj form.data), ("timestamp", .str c.iso)]))

end FormValidationManager

namespace AJAXFormManager
open JS

/-- The method `isValidEmail(email)`: the same pattern as the `email` rule. -/
def isValidEmail (email : String) : Bool :=
  (let part := Regex.plus (.cls (fun c => !(isWhiteSpace c || c == '@')))
   Regex.seq part (.seq (.chr '@') (.seq part (.seq (.chr '.') part)))).test email

end AJAXFormManager

namespace Lightbox
open JS

/-- A gallery image element: the DOM node (its identity) and the attributes
the lightbox reads. -/
structure Image where
  node : Nat
  src : String
  alt : String
  deriving DecidableEq, Repr

/-- The two module variables; `none` for the index is `NaN`. -/
structure LightboxState where
  currentImageIndex : Option Int
  galleryImages : List Image
  deriving DecidableEq, Repr

/-- The state when the script is loaded. -/
def initial : LightboxState := { currentImageIndex := some 0, galleryImages := [] }

/-- The remainder `a % b` of two numbers: the sign follows the dividend, and
the remainder by zero is `NaN`. -/
def jsRem (a b : Option Int) : Option Int :=
  match a, b with
  | some x, some y => if y = 0 then none else some (Int.tmod x y)
  | _, _ => none

/-- The sum `a + b` of two numbers, `NaN` when either is. -/
def jsAdd (a b : Option Int) : Option Int :=
  match a, b with
  | some x, some y => some (x + y)
  | _, _ => none

/-- The position of the first element of the list that is the element `x`. -/
def position (x : Image) : List Image → Option Nat
  | [] => none
  | y :: ys => if y = x then some 0 else (position x ys).map (· + 1)

/-- The value `xs.indexOf(x)`: `-1` when `x` is not an element. -/
def indexOf (xs : List Image) (x : Image) : Int :=
  match position x xs with
  | some i => i
  | none => -1

/-- What `updateLightboxContent` shows. -/
structure Content where
  src : String
  alt : String
  counter : String
  deriving DecidableEq, Repr

/-- The element `galleryImages[currentImageIndex]`: `undefined` for an index
that is `NaN`, negative or past the end. -/
def currentImage (s : LightboxState) : Option Image :=
  match s.currentImageIndex with
  | some i => if 0 ≤ i then s.galleryImages[i.toNat]? else none
  | none => none

/-- The function `updateLightboxContent()`: `TypeError` when there is no image
at the current index. -/
def updateLightboxContent (s : LightboxState) : Except JSError Content :=
  match currentImage s with
  | none => .error .TypeError
  | some img =>
    .ok { src := img.src, alt := img.alt,
          counter := showNumber (jsAdd s.currentImageIndex (some 1)) ++ " / " ++
            toString s.galleryImages.length }

/-- The function `openLightbox(imageElement)` on a page whose gallery images
are `page`: the state after, also when `updateLightboxContent` throws. -/
def openLightbox (page : List Image) (imageElement : Image) (_s : LightboxState) :
    LightboxState :=
  { galleryImages := page, currentImageIndex := some (indexOf page imageElement) }

/-- The function `previousImage()`. -/
def previousImage (s : LightboxState) : LightboxState :=
  let length : Option Int := some s.galleryImages.length
  { s with currentImageIndex := jsRem (jsAdd (jsAdd s.currentImageIndex (some (-1))) length) length }

/-- The function `nextImage()`. -/
def nextImage (s : LightboxState) : LightboxState :=
  let length : Option Int := some s.galleryImages.length
  { s with currentImageIndex := jsRem (jsAdd s.currentImageIndex (some 1)) length }

/-- The states reachable through `openLightbox`, `nextImage` and
`previousImage`, with any element passed to `openLightbox`. -/
inductive Reachable : LightboxState → Prop where
  | opened (page : List Image) (imageElement : Image) (s : LightboxState) :
      Reachable (openLightbox page imageElement s)
  | next {s : LightboxState} : Reachable s → Reachable (nextImage s)
  | previous {s : LightboxState} : Reachable s → Reachable (previousImage s)

/-- The states reachable when `openLightbox` is called, as the click handler
does, with one of the gallery images of the page. -/
inductive ReachableFromGallery : LightboxState → Prop where
  | opened (page : List Image) (imageElement : Image) (s : LightboxState)
      (h : imageElement ∈ page) : ReachableFromGallery (openLightbox page imageElement s)
  | next {s : LightboxState} : ReachableFromGallery s → ReachableFromGallery (nextImage s)
  | previous {s : LightboxState} :
      ReachableFromGallery s → ReachableFromGallery (previousImage s)

/-- The current index lies in `[0, count)`. -/
def InRange (s : LightboxState) : Prop :=
  ∃ i : Int, s.currentImageIndex = some i ∧ 0 ≤ i ∧ i < s.galleryImages.length

end Lightbox

namespace JS

/-- The value of `item.id` for a collection item, `undefined` when the read
is not possible. -/
def itemId (item : JVal) : Option JVal :=
  match getProp (some item) "id" with
  | .ok v => v
  | .error _ => none

/-- The ids of the items of a list, in order. -/
def idsOf (items : List JVal) : List (Option JVal) := items.map itemId

end JS

namespace AdminDataManager
open JS

/-- A call of one of the three add operations, with its arguments. -/
inductive AddCall where
  | gallery (imageData : Option JVal)
  | notice (category : String) (text : Option JVal)
  | uniform (gender category : String) (itemData : Option JVal)

/-- The storage after one add call made at the clock readings `c`. -/
def AddCall.run (q : Quota) (ls : Storage) (c : Clock) : AddCall → Storage
  | .gallery imageData => (Gallery.add q ls c imageData).2
  | .notice category text => (NoticeBoard.addItem q ls c category text).2
  | .uniform gender category itemData => (UniformShop.addItem q ls c gender category itemData).2

/-- The storage after a sequence of add calls, each with its clock readings. -/
def runCalls (q : Quota) (ls : Storage) : List (Clock × AddCall) → Storage
  | [] => ls
  | (c, call) :: rest => runCalls q (call.run q ls c) rest

/-- The ids within the gallery collection are pairwise distinct. -/
def galleryIdsDistinct (ls : Storage) : Prop :=
  ∀ c xs, Gallery.getAll ls c = .arr xs → (idsOf xs).Nodup

/-- The ids within each list of the notice board are pairwise distinct. -/
def noticeIdsDistinct (ls : Storage) : Prop :=
  ∀ kvs category xs, NoticeBoard.getAll ls = .obj kvs →
    kvs.lookup category = some (.arr xs) → (idsOf xs).Nodup

/-- The ids within each list of the uniform shop are pairwise distinct. -/
def uniformIdsDistinct (ls : Storage) : Prop :=
  ∀ kvs gender sub category xs, UniformShop.getAll ls = .obj kvs →
    kvs.lookup gender = some (.obj sub) → sub.lookup category = some (.arr xs) →
    (idsOf xs).Nodup

/-- Id uniqueness in the three repositories. -/
def idsDistinct (ls : Storage) : Prop :=
  galleryIdsDistinct ls ∧ noticeIdsDistinct ls ∧ uniformIdsDistinct ls

/-- The reading `Date.now()` of the call is not yet an id of the list the call
appends to. -/
def freshFor (ls : Storage) (c : Clock) : AddCall → Prop
  | .gallery _ => ∀ c' xs, Gallery.getAll ls c' = .arr xs → some (JVal.num c.now) ∉ idsOf xs
  | .notice category _ => ∀ kvs xs, NoticeBoard.getAll ls = .obj kvs →
      kvs.lookup category = some (.arr xs) → some (JVal.num c.now) ∉ idsOf xs
  | .uniform gender category _ => ∀ kvs sub xs, UniformShop.getAll ls = .obj kvs →
      kvs.lookup gender = some (.obj sub) → sub.lookup category = some (.arr xs) →
      some (JVal.num c.now) ∉ idsOf xs

/-- Every call of the sequence is made at a `Date.now()` that is fresh for the
list it appends to, in the storage the call finds. -/
def freshCalls (q : Quota) (ls : Storage) : List (Clock × AddCall) → Prop
  | [] => True
  | (c, call) :: rest => freshFor ls c call ∧ freshCalls q (call.run q ls c) rest

end AdminDataManager

namespace FormValidationManager
open JS

/-- The rule object a rule string denotes in `validateField`, when it denotes
one. -/
def ruleObjOf (pg : Page) (c : Clock) (rule : String) : Option RuleObj :=
  match resolveRule pg c rule with
  | .ok (some (.rule ruleObj)) => some ruleObj
  | _ => none

/-- A rule rejects a value: it denotes a rule object whose test fails. -/
def rejects (pg : Page) (c : Clock) (value rule : String) : Bool :=
  match ruleObjOf pg c rule with
  | some ruleObj => !ruleObj.test value
  | none => false

/-- The rule names the four form configurations use. -/
def configuredRules : List String :=
  ((admissionConfig.fields ++ enquiryConfig.fields ++ volunteerConfig.fields ++
    sponsorConfig.fields).map (fun f => f.2)).flatten

/-- The properties `handleAdmissionSubmission` and `handleFormSubmission` stamp
on the submitted data. -/
def stampedKeys : List String := ["submittedAt", "formType", "id", "status", "reviewDate"]

end FormValidationManager

namespace FormValidationManager
open JS

/-- The message a rule contributes for a value: that of the rule object it
denotes when the test fails. -/
def rejectionMessage (pg : Page) (c : Clock) (fieldName value rule : String) : Option String :=
  match ruleObjOf pg c rule with
  | some ruleObj =>
    if ruleObj.test value then none else some (messageFor pg fieldName rule ruleObj)
  | none => none

end FormValidationManager

namespace FormValidationManager
open JS

/-- The object `data` as `handleFormSubmission` passes it to the submit
handler: the form's entries with `submittedAt` and `formType`. -/
def submittedData (c : Clock) (form : Form) (config : FormConfig) : List (String × JVal) :=
  setField "formType" (.str config.name) (setField "submittedAt" (.str c.iso) form.data)

/-- The record `handleAdmissionSubmission` pushes for a form: the submitted
data stamped with `id`, `status` and `reviewDate`. -/
def admissionRecord (pg : Page) (c : Clock) (form : Form) : JVal :=
  .obj (setField "reviewDate" .null (setField "status" (.str "pending")
    (setField "id" (.str (submissionId "ADM" pg c)) (submittedData c form admissionConfig))))

end FormValidationManager

namespace FormValidationManager
open JS

/-- The object `logEntry` that `logValidationAttempt` pushes. -/
def logEntryOf (pg : Page) (c : Clock) (formType : String)
    (validationResults : List (String × Bool)) (isValid : Bool) : JVal :=
  .obj [
    ("timestamp", .str c.logStamp),
    ("formType", .str formType),
    ("isValid", .bool isValid),
    ("validationResults", .obj (validationResults.map (fun r => (r.1, JVal.bool r.2)))),
    ("userAgent", .str pg.userAgent),
    ("url", .str pg.url)]

end FormValidationManager

namespace AJAXFormManager
open JS

/-- The field `this.storageKey` set by the constructor. -/
def storageKey : String := "pinetown_form_submissions"

/-- The body of the `try` block of `getStoredSubmissions`. -/
def getStoredSubmissionsTry (ls : Storage) : Except JSError JVal :=
  match localStorage.getItem ls storageKey with
  | some stored => if stored.truthy then JSON.parse stored else .ok (.obj [])
  | none => .ok (.obj [])

/-- The method `getStoredSubmissions()`: the `catch` returns an empty object. -/
def getStoredSubmissions (ls : Storage) : JVal :=
  match getStoredSubmissionsTry ls with
  | .ok v => v
  | .error _ => .obj []

end AJAXFormManager

namespace FormValidationManager
open JS

/-- The set of strings C14 describes, in the words of the claim: no white
space, exactly one `@` with at least one character before it, and after the
`@` a `.` that is neither the first nor the last character of that part. -/
def EmailShape (cs : List Char) : Prop :=
  (∀ c ∈ cs, isWhiteSpace c = false) ∧ cs.count '@' = 1 ∧
  ∃ pre post, cs = pre ++ '@' :: post ∧ pre ≠ [] ∧
    ∃ v w, post = v ++ '.' :: w ∧ v ≠ [] ∧ w ≠ []

/-- A character the phone rule allows, in the words of C15: a digit, `+`, `-`,
white space, `(` or `)`. -/
def PhoneChar (c : Char) : Prop :=
  isDigit c = true ∨ c = '+' ∨ c = '-' ∨ isWhiteSpace c = true ∨ c = '(' ∨ c = ')'

/-- A character of a name in the words of C16: a letter, a space, a hyphen or
an apostrophe. -/
def NameCharClaimed (c : Char) : Prop :=
  isLetter c = true ∨ c = ' ' ∨ c = '-' ∨ c = apostrophe

/-- A character the name pattern allows: a letter, white space, a hyphen, an
apostrophe or a period. -/
def NameChar (c : Char) : Prop :=
  isLetter c = true ∨ isWhiteSpace c = true ∨ c = '-' ∨ c = apostrophe ∨ c = '.'

end FormValidationManager

namespace JS

/-- Truthiness of a value: `undefined`, `null`, `false`, `0` and the empty
string are falsy. -/
def truthy : Option JVal → Bool
  | none => false
  | some .null => false
  | some (.bool b) => b
  | some (.num n) => n != 0
  | some (.str s) => s != ""
  | some (.arr _) => true
  | some (.obj _) => true

/-- The value of `a || b`. -/
def orDefault (a : Option JVal) (b : JVal) : Option JVal :=
  if truthy a then a else some b

/-- The characters of `s.substring(0, n)`: the longest prefix of at most `n`
UTF-16 code units.  A supplementary character that the limit would cut in two
is left out whole (the half JavaScript keeps is not a character). -/
def substringTo : Nat → List Char → List Char
  | _, [] => []
  | n, c :: cs =>
    let w := if c.toNat < 0x10000 then 1 else 2
    if w ≤ n then c :: substringTo (n - w) cs else []

/-- The test `hay.includes(needle)` on the characters of two strings. -/
def includes (needle : List Char) : List Char → Bool
  | [] => needle.isPrefixOf []
  | c :: cs => needle.isPrefixOf (c :: cs) || includes needle cs

/-- The regex `a{n,}`. -/
def Regex.atLeast : Nat → Regex → Regex
  | 0, a => .star a
  | n + 1, a => .seq a (Regex.atLeast n a)

end JS

namespace SchoolPosts
open JS

/-- The object `newPost` that `add` builds; `TypeError` when `postData` is
`undefined` or `null`. -/
def newPost (posts : List JVal) (c : Clock) (postData : Option JVal) : Except JSError JVal :=
  match getProp postData "type" with
  | .error e => .error e
  | .ok type =>
    match getProp postData "title", getProp postData "content", getProp postData "author",
      getProp postData "image", getProp postData "category", getProp postData "featured" with
    | .ok title, .ok content, .ok author, .ok image, .ok category, .ok featured =>
      .ok (mkObj [
        ("id", some (.num (posts.length + 1))),
        ("type", orDefault type (.str "news")),
        ("title", title),
        ("content", content),
        ("author", author),
        ("date", some (.str (String.mk ((splitChars 'T' c.iso.toList).headD [])))),
        ("image", orDefault image (.str "")),
        ("category", orDefault category (.str "General")),
        ("featured", orDefault featured (.bool false)),
        ("likes", some (.num 0)),
        ("views", some (.num 0)),
        ("comments", some (.arr []))])
    | _, _, _, _, _, _ => .error .TypeError

/-- The function `SchoolPosts.add(postData)` on the array `this.posts`: the new
post and the array after `unshift`. -/
def add (posts : List JVal) (c : Clock) (postData : Option JVal) :
    Except JSError (JVal × List JVal) :=
  match newPost posts c postData with
  | .error e => .error e
  | .ok post => .ok (post, post :: posts)

end SchoolPosts

namespace FormValidationManager
open JS

/-- The characters `/[<>'"]/` removes. -/
def isDangerous (c : Char) : Bool :=
  c == '<' || c == '>' || c == apostrophe || c == doubleQuote

/-- The method `validateSearchInput(input)` on an input holding `value`: the
value the input holds afterwards and the toasts shown.  The second step works
on the original `value`, not on the truncated one. -/
def validateSearchInput (value : String) : String × List String :=
  let step1 : String × List String :=
    if utf16Length value.toList > 100 then
      (String.mk (substringTo 100 value.toList),
        ["Search term too long. Maximum 100 characters."])
    else (value, [])
  let sanitized := String.mk (value.toList.filter (fun c => !isDangerous c))
  if sanitized != value then
    (sanitized, step1.2 ++ ["Special characters removed for security."])
  else step1

end FormValidationManager

namespace AJAXFormManager
open JS

/-- The pattern `[\+\-\s\(\)\d]{10,}` of `isValidPhone`. -/
def phoneRegex : Regex :=
  Regex.atLeast 10 (.cls (fun c => c == '+' || c == '-' || isWhiteSpace c || c == '(' ||
    c == ')' || isDigit c))

/-- The method `isValidPhone(phone)`: the pattern is tested on
`phone.replace(/\s/g, '')`. -/
def isValidPhone (phone : String) : Bool :=
  phoneRegex.matchesAll (phone.toList.filter (fun c => !isWhiteSpace c))

end AJAXFormManager

namespace SEOSearchManager
open JS

/-- The method `calculateRelevanceScore(item, searchTerm)`, given the
platform's `toLowerCase`. -/
def calculateRelevanceScore (toLowerCase : String → String) (item searchTerm : String) : Nat :=
  let itemLower := (toLowerCase item).toList
  let termLower := (toLowerCase searchTerm).toList
  let exact := if itemLower = termLower then 100 else 0
  let starts := exact + (if termLower.isPrefixOf itemLower then 50 else 0)
  let contains := starts + (if includes termLower itemLower then 25 else 0)
  (splitChars ' ' termLower).foldl
    (fun score word => if includes word itemLower then score + 10 else score) contains

end SEOSearchManager

namespace SEOSearchManager
open JS

/-- The class `[a-zA-Z0-9\s\-_.,!?()]` of `inputSanitization.allowedChars`. -/
def allowedChar (c : Char) : Bool :=
  isLetter c || isDigit c || isWhiteSpace c || c == '-' || c == '_' || c == '.' || c == ',' ||
  c == '!' || c == '?' || c == '(' || c == ')'

/-- The pattern of `securityConfig.inputSanitization.allowedChars`. -/
def allowedChars : Regex := Regex.plus (.cls allowedChar)

/-- The value of `securityConfig.inputSanitization.maxLength`. -/
def maxLength : Nat := 100

/-- The method `sanitizeInput(input)`.  The first `replace`, which deletes the
matches of the script-element pattern, enters as the function `removeScripts`
from the trimmed string to the string without those matches. -/
def sanitizeInput (removeScripts : String → String) (input : Option JVal) : String :=
  match input with
  | some (.str s) =>
    if s = "" then ""
    else
      let trimmed := String.mk (trim s.toList)
      let noScripts := removeScripts trimmed
      let noAngles := noScripts.toList.filter (fun c => !(c == '<' || c == '>'))
      let cut := substringTo maxLength noAngles
      if !allowedChars.matchesAll cut then String.mk (cut.filter allowedChar)
      else String.mk cut
  | _ => ""

end SEOSearchManager

/-! ## tab.js

The document is the list of its elements in document order.  Of an element the
model keeps the id, the class list and `style.display`; the colours, the
border and the animation styles that `showTab` also writes are left out. -/

namespace Tabs

/-- An element of the page: `id`, `classList` and `style.display`. -/
structure Element where
  id : String
  classList : List String
  display : String
  deriving DecidableEq, Repr

/-- The test `classList.contains(cls)`, which is also the selector `.cls`. -/
def hasClass (e : Element) (cls : String) : Bool := e.classList.contains cls

/-- The call `classList.remove(cls)`. -/
def classListRemove (cls : String) (e : Element) : Element :=
  { e with classList := e.classList.filter (fun c => c != cls) }

/-- The call `classList.add(cls)`. -/
def classListAdd (cls : String) (e : Element) : Element :=
  if e.classList.contains cls then e else { e with classList := e.classList ++ [cls] }

/-- The call `document.getElementById(id)`: the first element with that id. -/
def getElementById (doc : List Element) (id : String) : Option Element :=
  doc.find? (fun e => e.id == id)

/-- A write to the element that `getElementById(id)` returned: the first
element with that id is replaced by its image. -/
def updateById (id : String) (f : Element → Element) : List Element → List Element
  | [] => []
  | e :: es => if e.id == id then f e :: es else e :: updateById id f es

/-- The function `showTab(gradeId)`, as the document it leaves. -/
def showTab (gradeId : String) (doc : List Element) : List Element :=
  let cleared := doc.map (fun e =>
    if hasClass e "grade-tab" then classListRemove "active" e else e)
  let hidden := cleared.map (fun e =>
    if hasClass e "grade-content" then { e with display := "none" } else e)
  match getElementById hidden ("tab-" ++ gradeId),
      getElementById hidden ("content-" ++ gradeId) with
  | some _, some _ =>
    updateById ("content-" ++ gradeId) (fun e => { e with display := "block" })
      (updateById ("tab-" ++ gradeId) (classListAdd "active") hidden)
  | _, _ => hidden

/-- Number of grade tabs marked active. -/
def activeTabs (doc : List Element) : Nat :=
  doc.countP (fun e => hasClass e "grade-tab" && hasClass e "active")

/-- Number of grade contents that are displayed. -/
def displayedContents (doc : List Element) : Nat :=
  doc.countP (fun e => hasClass e "grade-content" && e.display != "none")

end Tabs

namespace Tabs

/-- The body of the first loop of `showTab`, used to state facts about it. -/
def clearTab (e : Element) : Element :=
  if hasClass e "grade-tab" then classListRemove "active" e else e

/-- The body of the second loop of `showTab`, used to state facts about it. -/
def hideContent (e : Element) : Element :=
  if hasClass e "grade-content" then { e with display := "none" } else e

end Tabs

namespace JS

/-- The coercions of the platform that the model does not compute: the string
`ToPrimitive` gives for an array or an object, and the number `StringToNumber`
gives for a string (`none` is `NaN`). -/
structure Coercions where
  primitive : JVal → String
  stringToNumber : String → Option Int

/-- The number an operand of `-` is converted to (`none` is `NaN`). -/
def toNumber (co : Coercions) : Option JVal → Option Int
  | none => none
  | some .null => some 0
  | some (.bool b) => some (if b then 1 else 0)
  | some (.num n) => some n
  | some (.str s) => co.stringToNumber s
  | some v => co.stringToNumber (co.primitive v)

/-- The time value of `new Date(v)` (`none` for an invalid date). -/
def dateValue (parseDate : String → Option Int) (co : Coercions) : Option JVal → Option Int
  | none => none
  | some .null => some 0
  | some (.bool b) => some (if b then 1 else 0)
  | some (.num n) => if n.natAbs ≤ 8640000000000000 then some n else none
  | some (.str s) => parseDate s
  | some v => parseDate (co.primitive v)

/-- The first step of `Object.keys(data)`: `TypeError` on `undefined` and
`null`, the value itself otherwise. -/
def keysReceiver : Option JVal → Except JSError JVal
  | none => .error .TypeError
  | some .null => .error .TypeError
  | some d => .ok d

end JS

namespace AJAXFormManager
open JS

/-- The body of the `try` block of `loadAutoSavedData(form, key)`: the draft
data whose properties `populateForm` copies into the form, or `none` when
`populateForm` is not called.  The copying itself is not modelled. -/
def loadAutoSavedDataTry (co : Coercions) (c : Clock) (ls : Storage) (key : String) :
    Except JSError (Option JVal) :=
  match localStorage.getItem ls key with
  | none => .ok none
  | some saved =>
    if saved.truthy then
      match JSON.parse saved with
      | .error e => .error e
      | .ok draft =>
        match getProp (some draft) "data", getProp (some draft) "timestamp" with
        | .ok data, .ok timestamp =>
          match toNumber co timestamp with
          | some t =>
            if (c.now : Int) - t < 24 * 60 * 60 * 1000 then
              match keysReceiver data with
              | .ok d => .ok (some d)
              | .error e => .error e
            else .ok none
          | none => .ok none
        | _, _ => .error .TypeError
    else .ok none

/-- The method `loadAutoSavedData(form, key)`: the `catch` applies nothing. -/
def loadAutoSavedData (co : Coercions) (c : Clock) (ls : Storage) (key : String) :
    Option JVal :=
  match loadAutoSavedDataTry co c ls key with
  | .ok r => r
  | .error _ => none

end AJAXFormManager

namespace FormValidationManager
open JS

/-- The body of the `try` block of `recoverFormData(form)` for the stored text
`savedData`: the draft data whose properties are copied into the empty fields
of the form, or `none` when the draft is not used.  The copying itself is not
modelled. -/
def recoverFormDataTry (pg : Page) (co : Coercions) (c : Clock) (savedData : StoredText) :
    Except JSError (Option JVal) :=
  match JSON.parse savedData with
  | .error e => .error e
  | .ok draft =>
    match getProp (some draft) "data", getProp (some draft) "timestamp" with
    | .ok data, .ok timestamp =>
      match dateValue pg.parseDate co timestamp with
      | some saveTime =>
        if (c.now : Int) - saveTime < 24 * 60 * 60 * 1000 then
          match keysReceiver data with
          | .ok d => .ok (some d)
          | .error e => .error e
        else .ok none
      | none => .ok none
    | _, _ => .error .TypeError

/-- The method `recoverFormData(form)`. -/
def recoverFormData (pg : Page) (co : Coercions) (c : Clock) (ls : Storage) (form : Form) :
    Option JVal :=
  match localStorage.getItem ls (autoSaveKey form) with
  | none => none
  | some savedData =>
    if savedData.truthy then
      match recoverFormDataTry pg co c savedData with
      | .ok r => r
      | .error _ => none
    else none

end FormValidationManager

namespace AJAXFormManager
open JS

/-- The id `'sub_' + Date.now() + '_' + Math.random().toString(36).substr(2, 9)`;
`random` is the suffix drawn from `Math.random()`. -/
def submissionId (c : Clock) (random : String) : String :=
  "sub_" ++ toString c.now ++ "_" ++ random

/-- The statement `submissions[id] = entry` in the class body (strict mode),
for a submission id: `TypeError` on `null` and on a primitive; on an array the
id is not an index, so the property it adds is dropped by `JSON.stringify`. -/
def assignEntry : JVal → String → JVal → Except JSError JVal
  | .obj kvs, id, entry => .ok (.obj (setField id entry kvs))
  | .arr xs, _, _ => .ok (.arr xs)
  | _, _, _ => .error .TypeError

/-- The statement `delete submissions[id]` for a submission id: `TypeError` on
`null`; nothing to delete on an array or a primitive. -/
def deleteEntry : JVal → String → Except JSError JVal
  | .null, _ => .error .TypeError
  | .obj kvs, id => .ok (.obj (kvs.filter (fun p => p.1 != id)))
  | x, _ => .ok x

/-- The body of the `try` block of `storeSubmission(id, data, config)`;
`timestamp` is the reading of `Date.now()` taken there. -/
def storeSubmissionTry (q : Quota) (ls : Storage) (timestamp : Nat) (id : String)
    (data config : Option JVal) : Except JSError Storage :=
  match assignEntry (getStoredSubmissions ls) id
      (mkObj [("data", data), ("config", config), ("timestamp", some (.num timestamp)),
        ("status", some (.str "pending"))]) with
  | .error e => .error e
  | .ok submissions => localStorage.setItem q ls storageKey (JSON.stringify submissions)

/-- The method `storeSubmission(id, data, config)`: the `catch` only warns. -/
def storeSubmission (q : Quota) (ls : Storage) (timestamp : Nat) (id : String)
    (data config : Option JVal) : Storage :=
  match storeSubmissionTry q ls timestamp id data config with
  | .ok ls' => ls'
  | .error _ => ls

/-- The body of the `try` block of `removeStoredSubmission(id)`. -/
def removeStoredSubmissionTry (q : Quota) (ls : Storage) (id : String) :
    Except JSError Storage :=
  match deleteEntry (getStoredSubmissions ls) id with
  | .error e => .error e
  | .ok submissions => localStorage.setItem q ls storageKey (JSON.stringify submissions)

/-- The method `removeStoredSubmission(id)`: the `catch` only warns. -/
def removeStoredSubmission (q : Quota) (ls : Storage) (id : String) : Storage :=
  match removeStoredSubmissionTry q ls id with
  | .ok ls' => ls'
  | .error _ => ls

/-- The method `submitFormData(data, config)`: the value its promise resolves
to and the storage it leaves.  `c.now` is the clock reading in the id, `c.iso`
the stamp of the simulated response and `storedAt` the reading taken by
`storeSubmission`.  The statements of the `try` block cannot throw, so the
`catch` is not reached; the body holds no request to a server. -/
def submitFormData (q : Quota) (ls : Storage) (c : Clock) (random : String) (storedAt : Nat)
    (data config : Option JVal) : JVal × Storage :=
  let id := submissionId c random
  let stored := storeSubmission q ls storedAt id data config
  let simulatedResponse := JVal.obj [("success", .bool true),
    ("message", .str "Form submitted successfully"), ("timestamp", .str c.iso),
    ("submissionId", .str id)]
  let removed := removeStoredSubmission q stored id
  (.obj [("success", .bool true), ("data", simulatedResponse), ("submissionId", .str id)],
    removed)

/-- A quota never refuses to replace the pending-submissions map it has just
accepted by the same map with one entry deleted. -/
def AcceptsRemoval (q : Quota) : Prop :=
  ∀ (ls : Storage) (m : List (String × JVal)) (id : String),
    q ls storageKey (.json (.obj m)) = true →
    q ((storageKey, .json (.obj m)) :: ls.filter (fun p => p.1 != storageKey)) storageKey
      (.json (.obj (m.filter (fun p => p.1 != id)))) = true

end AJAXFormManager

namespace SEOSearchManager
open JS

/-- The table `initializeSearchData()` returns, kept in `this.searchData`:
for each category the grades in source order, each with its list of items. -/
def initializeSearchData : List (String × List (String × List String)) :=
  [
  ("resources", [
    ("grade-1", [
      "Reading books", "Math workbooks", "Art supplies", "Learning games", "Phonics materials",
      "Coloring books", "Number charts", "Alphabet posters", "Educational toys"]),
    ("grade-2", [
      "Chapter books", "Addition/subtraction worksheets", "Science kits", "Writing journals",
      "Spelling lists", "Math manipulatives", "Story books", "Handwriting practice",
      "Educational apps"]),
    ("grade-3", [
      "Multiplication tables", "Geography maps", "History books", "Science experiments",
      "Creative writing guides", "Atlas books", "Math games", "Research projects",
      "Educational videos"]),
    ("grade-4", [
      "Research projects", "Calculator usage", "Social studies books", "Literature novels",
      "STEM activities", "Dictionary", "Encyclopedia", "Math textbooks", "Science equipment"]),
    ("grade-5", [
      "Advanced math concepts", "Science fair projects", "Essay writing guides",
      "Computer skills", "Library research", "Presentation tools", "Advanced readers",
      "Study guides", "Online resources"]),
    ("grade-6", [
      "Pre-algebra books", "Biology basics", "World history", "Critical thinking exercises",
      "Public speaking", "Research methods", "Advanced science", "Literature analysis",
      "Technology tools"]),
    ("grade-7", [
      "Algebra preparation", "Advanced sciences", "High school prep", "Leadership skills",
      "Career exploration", "University prep", "Advanced mathematics", "Scientific research",
      "Academic excellence"])]),
  ("uniforms", [
    ("grade-1", [
      "School shirt (size 6-8)", "School shorts/skirt", "School hat", "Black school shoes",
      "Navy socks", "School bag", "Name tags"]),
    ("grade-2", [
      "School shirt (size 8-10)", "School shorts/skirt", "School hat", "Black school shoes",
      "Navy socks", "School bag", "PE kit"]),
    ("grade-3", [
      "School shirt (size 10-12)", "School shorts/skirt", "School blazer",
      "Black school shoes", "Navy socks", "School tie", "Winter jersey"]),
    ("grade-4", [
      "School shirt (size 12-14)", "School shorts/skirt", "School blazer",
      "Black school shoes", "School tie", "Sports uniform", "School badge"]),
    ("grade-5", [
      "School shirt (size 14-16)", "School trousers/skirt", "School blazer",
      "Black school shoes", "School tie", "Formal uniform", "House colors"]),
    ("grade-6", [
      "School shirt (size 16-18)", "School trousers/skirt", "School blazer",
      "Black school shoes", "School tie", "Prefect badge", "Leadership tie"]),
    ("grade-7", [
      "School shirt (size 18-20)", "School trousers/skirt", "School blazer",
      "Black school shoes", "School tie", "Head boy/girl badge", "Graduation gown"])]),
  ("notices", [
    ("grade-1", [
      "Parent-teacher meetings", "Show and tell days", "Field trip permissions",
      "Reading assessment", "Art exhibition", "Swimming lessons", "Health checks"]),
    ("grade-2", [
      "Spelling bee competition", "Math games day", "Library visits", "Health checkups",
      "Sports day participation", "Music lessons", "Book fair"]),
    ("grade-3", [
      "Science project due dates", "Swimming lessons", "Music recital", "Book fair",
      "Academic assessments", "Environmental day", "Cultural events"]),
    ("grade-4", [
      "History project presentations", "Computer lab schedule", "Inter-school competitions",
      "Career day", "Exam timetables", "Science fair", "Drama productions"]),
    ("grade-5", [
      "Leadership opportunities", "Science fair registration", "High school preparation",
      "Study groups", "Achievement awards", "Debate competitions", "Academic excellence"]),
    ("grade-6", [
      "Prefect nominations", "Advanced courses", "University visits",
      "Scholarship information", "Graduation preparation", "Leadership training",
      "Awards ceremony"]),
    ("grade-7", [
      "High school applications", "Final examinations", "Graduation ceremony",
      "Award nominations", "Farewell events", "Alumni network", "Future planning"])]),
  ("events", [
    ("grade-1", [
      "Welcome party", "Learning celebration", "Family fun day", "Art showcase",
      "Reading festival", "Teddy bear picnic", "Christmas concert"]),
    ("grade-2", [
      "Math carnival", "Science discovery day", "Cultural day", "Sports activities",
      "Music concert", "Spring festival", "Heritage day"]),
    ("grade-3", [
      "Environmental day", "Heritage celebration", "Talent show", "Academic fair",
      "Community service", "Winter festival", "Art exhibition"]),
    ("grade-4", [
      "Leadership workshop", "Technology expo", "Drama performance",
      "Inter-house competitions", "Career exploration", "Science olympiad", "Music festival"]),
    ("grade-5", [
      "Innovation fair", "Public speaking contest", "Academic olympics", "Community projects",
      "Achievement ceremony", "Debate tournament", "Awards evening"]),
    ("grade-6", [
      "Model UN simulation", "Science symposium", "Literary festival", "Entrepreneurship day",
      "Awards evening", "Leadership summit", "Academic conference"]),
    ("grade-7", [
      "Graduation gala", "Final showcase", "Alumni networking", "Scholarship ceremony",
      "Farewell celebration", "Valedictory service", "Future leaders forum"])]) ]

/-- A search result pushed by `getSearchResults`. -/
structure SearchResult where
  category : String
  grade : String
  item : String
  relevanceScore : Nat
  deriving DecidableEq, Repr

/-- What a read finds on the prototype chain of a plain object beyond its own
properties: `inherited name` is `none` when objects inherit no property `name`
(the read gives `undefined`), and otherwise tells, for each key, whether that
key of the inherited value is truthy.  The inherited values are functions and
the prototype itself: all are truthy, none has a `forEach`, none has
enumerable own properties. -/
abbrev Inherited := String → Option (String → Bool)

/-- The call `s.replace(pat, rep)` with a string pattern: the first occurrence
is replaced. -/
def replaceFirst (pat rep : List Char) : List Char → List Char
  | [] => if pat.isEmpty then rep else []
  | c :: cs =>
    if pat.isPrefixOf (c :: cs) then rep ++ (c :: cs).drop pat.length
    else c :: replaceFirst pat rep cs

/-- The label `gradeKey.replace('grade-', 'Grade ')`. -/
def gradeLabel (gradeKey : String) : String :=
  String.mk (replaceFirst "grade-".toList "Grade ".toList gradeKey.toList)

/-- The inner loop `list.forEach(item => ...)` over one list of items: the
results pushed, in order. -/
def matchesOf (toLowerCase : String → String) (searchTerm cat gradeKey : String)
    (items : List String) : List SearchResult :=
  (items.filter (fun item =>
    includes (toLowerCase searchTerm).toList (toLowerCase item).toList)).map
    (fun item =>
      { category := cat
        grade := gradeLabel gradeKey
        item := item
        relevanceScore := calculateRelevanceScore toLowerCase item searchTerm })

/-- The loop over `Object.keys(this.searchData[cat])`. -/
def allGrades (toLowerCase : String → String) (searchTerm cat : String)
    (table : List (String × List String)) : List SearchResult :=
  ((table.map Prod.fst).map (fun gradeKey =>
    matchesOf toLowerCase searchTerm cat gradeKey ((table.lookup gradeKey).getD []))).flatten

/-- The body of `searchCategories.forEach(cat => ...)` for one category: the
results it pushes.  An empty `grade` stands for every falsy value. -/
def categoryResults (inherited : Inherited) (toLowerCase : String → String)
    (searchData : List (String × List (String × List String)))
    (searchTerm grade cat : String) : Except JSError (List SearchResult) :=
  match searchData.lookup cat with
  | some table =>
    match (if grade = "" then none else table.lookup grade) with
    | some items => .ok (matchesOf toLowerCase searchTerm cat grade items)
    | none =>
      if grade ≠ "" ∧ (inherited grade).isSome then .error .TypeError
      else .ok (allGrades toLowerCase searchTerm cat table)
  | none =>
    match inherited cat with
    | none => .error .TypeError
    | some truthyAt => if grade ≠ "" ∧ truthyAt grade = true then .error .TypeError else .ok []

/-- The loop `searchCategories.forEach(...)`: the array `results` it fills. -/
def collectResults (inherited : Inherited) (toLowerCase : String → String)
    (searchData : List (String × List (String × List String)))
    (searchTerm grade : String) : List String → Except JSError (List SearchResult)
  | [] => .ok []
  | cat :: cats =>
    match categoryResults inherited toLowerCase searchData searchTerm grade cat with
    | .error e => .error e
    | .ok pushed =>
      match collectResults inherited toLowerCase searchData searchTerm grade cats with
      | .error e => .error e
      | .ok rest => .ok (pushed ++ rest)

/-- The array `searchCategories`; an empty `category` stands for every falsy
value. -/
def searchCategories (category : String) : List String :=
  if category ≠ "" then [category] else ["resources", "uniforms", "notices", "events"]

/-- The method `getSearchResults(searchTerm, category, grade)` over the table
`this.searchData`; `sort` is stable. -/
def getSearchResults (inherited : Inherited) (toLowerCase : String → String)
    (searchData : List (String × List (String × List String)))
    (searchTerm category grade : String) : Except JSError (List SearchResult) :=
  match collectResults inherited toLowerCase searchData searchTerm grade
      (searchCategories category) with
  | .error e => .error e
  | .ok results =>
    .ok (results.insertionSort (fun a b => b.relevanceScore ≤ a.relevanceScore))

/-- The lists a search reads, in the words of the claim: a list of the
requested category, or of any of the four categories when none is requested,
and of the requested grade when that grade exists in the category. -/
def Searched (searchData : List (String × List (String × List String)))
    (category grade cat gradeKey : String) (items : List String) : Prop :=
  (category ≠ "" → cat = category) ∧
  (category = "" → cat ∈ ["resources", "uniforms", "notices", "events"]) ∧
  ∃ table, searchData.lookup cat = some table ∧ table.lookup gradeKey = some items ∧
    (grade ≠ "" → (∃ list, table.lookup grade = some list) → gradeKey = grade)

end SEOSearchManager

namespace Sample
open JS FormValidationManager

/-- A quota that accepts every write. -/
def quotaFree : Quota := fun _ _ _ => true

/-- A quota that refuses every write: the storage is full. -/
def quotaFull : Quota := fun _ _ _ => false

/-- Clock readings on 14 November 2023 at 22:13:20 UTC. -/
def clock : Clock :=
  { now := 1700000000000
    iso := "2023-11-14T22:13:20.000Z"
    uploadStamp := "11/14/2023, 10:13:20 PM"
    defaultStamp := fun _ => "11/14/2023, 10:13:20 PM"
    logStamp := "2023-11-14T22:13:20.001Z"
    applicationStamp := "2023-11-14T22:13:20.002Z" }

/-- Clock readings one second later. -/
def laterClock : Clock :=
  { now := 1700000001000
    iso := "2023-11-14T22:13:21.000Z"
    uploadStamp := "11/14/2023, 10:13:21 PM"
    defaultStamp := fun _ => "11/14/2023, 10:13:21 PM"
    logStamp := "2023-11-14T22:13:21.001Z"
    applicationStamp := "2023-11-14T22:13:21.002Z" }

/-- The property `constructor` that plain objects inherit: the function
`Object`, of which the examples read the `name`. -/
def objectConstructor : InheritedValue :=
  { text := "function Object() \x7b [native code] \x7d"
    prop := fun key => if key = "name" then some "Object" else none }

/-- A page whose date parser knows one birth date; of the inherited properties
the examples read `constructor` only. -/
def page : Page :=
  { userAgent := "Mozilla/5.0"
    url := "https://school.example/admissions.html"
    random := "k3j9x2m1q"
    parseDate := fun s => if s = "2015-03-01" then some 1425168000000 else none
    inherited := fun name => if name = "constructor" then some objectConstructor else none }

/-- An admission form filled in completely. -/
def validForm : Form :=
  { action := "submit_admission.html"
    id := ""
    controls := [
      { name := "fullName", id := "fullName", value := "Thandi Mokoena" },
      { name := "dob", id := "dob", value := "2015-03-01" },
      { name := "previousSchool", id := "previousSchool", value := "Hillside Primary" },
      { name := "parentName", id := "parentName", value := "Nomsa Mokoena" },
      { name := "contactNumber", id := "contactNumber", value := "082 555 0142" },
      { name := "email", id := "email", value := "nomsa@example.com" },
      { name := "gradeApplying", id := "gradeApplying", value := "grade-3" },
      { name := "additionalInfo", id := "additionalInfo", value := "" }] }

/-- The same form with the student's name left blank. -/
def blankNameForm : Form :=
  { validForm with
    controls := { name := "fullName", id := "fullName", value := "" } :: validForm.controls.tail }

/-- The manager's state on a first visit: nothing stored, empty collections. -/
def emptyState : AppState :=
  { dataStorage := { admissions := .arr [], enquiries := .arr [], volunteers := .arr [],
                     sponsors := .arr [], validationLogs := .arr [] }
    localStorage := [] }

/-- A quota that refuses writes of the admissions collection only. -/
def quotaNoAdmissions : Quota := fun _ key _ => key != "admissionApplications"

/-- A first gallery image. -/
def imageA : Lightbox.Image := { node := 1, src := "_images/events 1.jpg", alt := "School Event 1" }

/-- A second gallery image. -/
def imageB : Lightbox.Image := { node := 2, src := "_images/events 2.jpg", alt := "School Event 2" }

/-- An image of the page that is not in a gallery item. -/
def logo : Lightbox.Image := { node := 3, src := "_images/logo.png", alt := "School logo" }

/-- The completely filled admission form with the previous school left blank. -/
def blankSchoolForm : Form :=
  { validForm with
    controls := validForm.controls.map (fun x =>
      if x.name = "previousSchool" then { x with value := "" } else x) }

/-- Lower case of the letters A to Z only. -/
def asciiLower (s : String) : String := String.mk (s.toList.map Char.toLower)

/-- A page with the tabs and contents of grades 1 and 2, grade 1 shown. -/
def gradePage : List Tabs.Element :=
  [ { id := "tab-grade-1", classList := ["grade-tab", "active"], display := "" },
    { id := "tab-grade-2", classList := ["grade-tab"], display := "" },
    { id := "content-grade-1", classList := ["grade-content"], display := "block" },
    { id := "content-grade-2", classList := ["grade-content"], display := "none" } ]

/-- Coercions under which the text of an array or object is `[object Object]`
and no string denotes a number. -/
def coercions : Coercions :=
  { primitive := fun _ => "[object Object]"
    stringToNumber := fun _ => none }

/-- A page whose date parser knows the stamp of one hour before `clock`. -/
def recoveryPage : Page :=
  { userAgent := "Mozilla/5.0"
    url := "https://school.example/admissions.html"
    random := "k3j9x2m1q"
    parseDate := fun s => if s = "2023-11-14T21:13:20.000Z" then some 1699996400000 else none
    inherited := fun name => if name = "constructor" then some objectConstructor else none }

/-- A storage holding two drafts saved one hour before `clock`: one written by
`AJAXFormManager.autoSaveFormData` under the key `autosave_contact`, one written
by `FormValidationManager.autoSaveFormData` for `validForm`. -/
def draftStorage : Storage :=
  [ ("autosave_contact", .json (.obj [("data", .obj [("name", .str "Thandi")]),
      ("timestamp", .num 1699996400000)])),
    ("autoSave-submit_admission.html", .json (.obj [("data", .obj [("fullName", .str "Thandi")]),
      ("timestamp", .str "2023-11-14T21:13:20.000Z")])) ]

/-- The names objects inherit in the sample environment: `constructor` alone,
whose value has no truthy property among the grade keys. -/
def inherited : SEOSearchManager.Inherited :=
  fun name => if name = "constructor" then some (fun _ => false) else none

end Sample

/-! ## Properties -/

namespace JS

theorem lookup_filter_ne {α : Type} (l : List (String × α)) (k k' : String) (h : k' ≠ k) :
    (l.filter (fun p => p.1 != k)).lookup k' = l.lookup k' := by
  induction l with
  | nil => rfl
  | cons p l ih =>
    obtain ⟨a, b⟩ := p
    by_cases ha : a = k
    · subst ha
      have : (k' == a) = false := by simpa using h
      simp [List.filter, List.lookup, this, ih]
    · have h1 : (a != k) = true := by simpa using ha
      simp only [List.filter, h1, List.lookup]
      rw [ih]

theorem lookup_filter_self {α : Type} (l : List (String × α)) (k : String) :
    (l.filter (fun p => p.1 != k)).lookup k = none := by
  induction l with
  | nil => rfl
  | cons p l ih =>
    obtain ⟨a, b⟩ := p
    by_cases ha : a = k
    · subst ha
      simp [List.filter, ih]
    · have h1 : (a != k) = true := by simpa using ha
      have h2 : (k == a) = false := by simpa using (Ne.symm ha)
      simp only [List.filter, h1, List.lookup, h2, ih]

theorem getItem_setItem_same (q : Quota) (ls ls' : Storage) (k : String) (t : StoredText)
    (h : localStorage.setItem q ls k t = .ok ls') : localStorage.getItem ls' k = some t := by
  unfold localStorage.setItem at h
  split at h
  · injection h with h
    subst h
    simp [localStorage.getItem, List.lookup]
  · cases h

theorem getItem_setItem_other (q : Quota) (ls ls' : Storage) (k k' : String) (t : StoredText)
    (h : localStorage.setItem q ls k t = .ok ls') (hk : k' ≠ k) :
    localStorage.getItem ls' k' = localStorage.getItem ls k' := by
  unfold localStorage.setItem at h
  split at h
  · injection h with h
    subst h
    have : (k' == k) = false := by simpa using hk
    simp only [localStorage.getItem, List.lookup, this]
    exact lookup_filter_ne ls k k' hk
  · cases h

theorem setItem_accepted (q : Quota) (ls : Storage) (k : String) (t : StoredText)
    (h : q ls k t = true) :
    localStorage.setItem q ls k t = .ok ((k, t) :: ls.filter (fun p => p.1 != k)) := by
  simp [localStorage.setItem, h]

theorem setItem_refused (q : Quota) (ls : Storage) (k : String) (t : StoredText)
    (h : q ls k t = false) :
    localStorage.setItem q ls k t = .error .QuotaExceededError := by
  simp [localStorage.setItem, h]

end JS

namespace AdminDataManager
open JS

theorem contact_get_of_stored (ls : Storage) (v : JVal)
    (h : localStorage.getItem ls KEYS.CONTACT = some (.json v)) : ContactInfo.get ls = v := by
  simp [ContactInfo.get, ContactInfo.getTry, h, StoredText.truthy, JSON.parse]

theorem gallery_getAll_of_stored (ls : Storage) (c : Clock) (v : JVal)
    (h : localStorage.getItem ls KEYS.GALLERY = some (.json v)) : Gallery.getAll ls c = v := by
  simp [Gallery.getAll, Gallery.getAllTry, h, StoredText.truthy, JSON.parse]

theorem notice_getAll_of_stored (ls : Storage) (v : JVal)
    (h : localStorage.getItem ls KEYS.NOTICE_BOARD = some (.json v)) :
    NoticeBoard.getAll ls = v := by
  simp [NoticeBoard.getAll, NoticeBoard.getAllTry, h, StoredText.truthy, JSON.parse]

theorem uniform_getAll_of_stored (ls : Storage) (v : JVal)
    (h : localStorage.getItem ls KEYS.UNIFORM_SHOP = some (.json v)) :
    UniformShop.getAll ls = v := by
  simp [UniformShop.getAll, UniformShop.getAllTry, h, StoredText.truthy, JSON.parse]

theorem contact_get_of_unreadable (ls : Storage)
    (h : localStorage.getItem ls KEYS.CONTACT = none ∨
      ∃ s, localStorage.getItem ls KEYS.CONTACT = some (.malformed s)) :
    ContactInfo.get ls = ContactInfo.getDefault := by
  rcases h with h | ⟨s, h⟩
  · simp [ContactInfo.get, ContactInfo.getTry, h]
  · by_cases hs : s = "" <;>
      simp [ContactInfo.get, ContactInfo.getTry, h, StoredText.truthy, JSON.parse, hs]

theorem gallery_getAll_of_unreadable (ls : Storage) (c : Clock)
    (h : localStorage.getItem ls KEYS.GALLERY = none ∨
      ∃ s, localStorage.getItem ls KEYS.GALLERY = some (.malformed s)) :
    Gallery.getAll ls c = Gallery.getDefault c := by
  rcases h with h | ⟨s, h⟩
  · simp [Gallery.getAll, Gallery.getAllTry, h]
  · by_cases hs : s = "" <;>
      simp [Gallery.getAll, Gallery.getAllTry, h, StoredText.truthy, JSON.parse, hs]

theorem notice_getAll_of_unreadable (ls : Storage)
    (h : localStorage.getItem ls KEYS.NOTICE_BOARD = none ∨
      ∃ s, localStorage.getItem ls KEYS.NOTICE_BOARD = some (.malformed s)) :
    NoticeBoard.getAll ls = NoticeBoard.getDefault := by
  rcases h with h | ⟨s, h⟩
  · simp [NoticeBoard.getAll, NoticeBoard.getAllTry, h]
  · by_cases hs : s = "" <;>
      simp [NoticeBoard.getAll, NoticeBoard.getAllTry, h, StoredText.truthy, JSON.parse, hs]

theorem uniform_getAll_of_unreadable (ls : Storage)
    (h : localStorage.getItem ls KEYS.UNIFORM_SHOP = none ∨
      ∃ s, localStorage.getItem ls KEYS.UNIFORM_SHOP = some (.malformed s)) :
    UniformShop.getAll ls = UniformShop.getDefault := by
  rcases h with h | ⟨s, h⟩
  · simp [UniformShop.getAll, UniformShop.getAllTry, h]
  · by_cases hs : s = "" <;>
      simp [UniformShop.getAll, UniformShop.getAllTry, h, StoredText.truthy, JSON.parse, hs]

end AdminDataManager

open JS AdminDataManager in
/-- C6: for each repository, when the string stored under its key is not valid
JSON, or when nothing is stored under the key, the read returns the
repository's `getDefault()` document; the read is a total function, so no
error leaves it. -/
theorem c6_unreadable_storage_reads_default (ls : Storage) (c : Clock) :
    ((localStorage.getItem ls KEYS.CONTACT = none ∨
        ∃ s, localStorage.getItem ls KEYS.CONTACT = some (.malformed s)) →
      ContactInfo.get ls = ContactInfo.getDefault) ∧
    ((localStorage.getItem ls KEYS.GALLERY = none ∨
        ∃ s, localStorage.getItem ls KEYS.GALLERY = some (.malformed s)) →
      Gallery.getAll ls c = Gallery.getDefault c) ∧
    ((localStorage.getItem ls KEYS.NOTICE_BOARD = none ∨
        ∃ s, localStorage.getItem ls KEYS.NOTICE_BOARD = some (.malformed s)) →
      NoticeBoard.getAll ls = NoticeBoard.getDefault) ∧
    ((localStorage.getItem ls KEYS.UNIFORM_SHOP = none ∨
        ∃ s, localStorage.getItem ls KEYS.UNIFORM_SHOP = some (.malformed s)) →
      UniformShop.getAll ls = UniformShop.getDefault) :=
  ⟨contact_get_of_unreadable ls, gallery_getAll_of_unreadable ls c,
   notice_getAll_of_unreadable ls, uniform_getAll_of_unreadable ls⟩

open JS AdminDataManager in
/-- Witness for C6: a storage whose contact and gallery entries are corrupted
and whose notice board and uniform shop entries are absent. -/
theorem c6_unreadable_storage_reads_default_witness :
    ContactInfo.get [(KEYS.CONTACT, .malformed "not json"), (KEYS.GALLERY, .malformed "")]
        = ContactInfo.getDefault ∧
    Gallery.getAll [(KEYS.CONTACT, .malformed "not json"), (KEYS.GALLERY, .malformed "")]
        Sample.clock = Gallery.getDefault Sample.clock ∧
    NoticeBoard.getAll [(KEYS.CONTACT, .malformed "not json"), (KEYS.GALLERY, .malformed "")]
        = NoticeBoard.getDefault ∧
    UniformShop.getAll [(KEYS.CONTACT, .malformed "not json"), (KEYS.GALLERY, .malformed "")]
        = UniformShop.getDefault :=
  have h := c6_unreadable_storage_reads_default
    [(KEYS.CONTACT, .malformed "not json"), (KEYS.GALLERY, .malformed "")] Sample.clock
  ⟨h.1 (Or.inr ⟨"not json", rfl⟩), h.2.1 (Or.inr ⟨"", rfl⟩), h.2.2.1 (Or.inl rfl),
   h.2.2.2 (Or.inl rfl)⟩

namespace AdminDataManager
open JS

theorem notice_save_eq (q : Quota) (ls : Storage) (data : JVal) :
    NoticeBoard.save q ls data =
      if q ls KEYS.NOTICE_BOARD (JSON.stringify data) then
        (true, (KEYS.NOTICE_BOARD, JSON.stringify data) ::
          ls.filter (fun p => p.1 != KEYS.NOTICE_BOARD))
      else (false, ls) := by
  by_cases h : q ls KEYS.NOTICE_BOARD (JSON.stringify data) = true
  · simp [NoticeBoard.save, localStorage.setItem, h]
  · simp [NoticeBoard.save, localStorage.setItem, h]

theorem uniform_save_eq (q : Quota) (ls : Storage) (data : JVal) :
    UniformShop.save q ls data =
      if q ls KEYS.UNIFORM_SHOP (JSON.stringify data) then
        (true, (KEYS.UNIFORM_SHOP, JSON.stringify data) ::
          ls.filter (fun p => p.1 != KEYS.UNIFORM_SHOP))
      else (false, ls) := by
  by_cases h : q ls KEYS.UNIFORM_SHOP (JSON.stringify data) = true
  · simp [UniformShop.save, localStorage.setItem, h]
  · simp [UniformShop.save, localStorage.setItem, h]

theorem contact_save_eq (q : Quota) (ls : Storage) (data : JVal) :
    ContactInfo.save q ls data =
      if q ls KEYS.CONTACT (JSON.stringify data) then
        (true, (KEYS.CONTACT, JSON.stringify data) ::
          ls.filter (fun p => p.1 != KEYS.CONTACT))
      else (false, ls) := by
  by_cases h : q ls KEYS.CONTACT (JSON.stringify data) = true
  · simp [ContactInfo.save, localStorage.setItem, h]
  · simp [ContactInfo.save, localStorage.setItem, h]

theorem mkObj_ne_null (fields : List (String × Option JVal)) : mkObj fields ≠ .null := by
  simp [mkObj]

theorem notice_addItem_null (q : Quota) (ls : Storage) (c : Clock) (category : String)
    (text : Option JVal) (h : (NoticeBoard.addItem q ls c category text).1 = .null) :
    (NoticeBoard.addItem q ls c category text).2 = ls := by
  unfold NoticeBoard.addItem NoticeBoard.addItemTry at *
  simp only at h ⊢
  split at h <;> rename_i heq
  · revert heq
    split
    · intro heq; cases heq
    · split
      · intro heq; cases heq
      · intro heq
        injection heq with heq
        subst heq
        rw [notice_save_eq] at h ⊢
        split at h
        · exact absurd h (mkObj_ne_null _)
        · rename_i hq
          simp [hq]
  · rfl

theorem notice_addItem_refused (q : Quota) (ls : Storage) (c : Clock) (category : String)
    (text : Option JVal) (h : ∀ t, q ls KEYS.NOTICE_BOARD t = false) :
    NoticeBoard.addItem q ls c category text = (.null, ls) := by
  unfold NoticeBoard.addItem NoticeBoard.addItemTry
  simp only
  split <;> rename_i heq
  · revert heq
    split
    · intro heq; cases heq
    · split
      · intro heq; cases heq
      · intro heq
        injection heq with heq
        subst heq
        rw [notice_save_eq]
        simp [h]
  · rfl

theorem uniform_addItem_null (q : Quota) (ls : Storage) (c : Clock)
    (gender category : String) (itemData : Option JVal)
    (h : (UniformShop.addItem q ls c gender category itemData).1 = .null) :
    (UniformShop.addItem q ls c gender category itemData).2 = ls := by
  unfold UniformShop.addItem UniformShop.addItemTry at *
  simp only at h ⊢
  split at h <;> rename_i heq
  · revert heq
    split
    · intro heq; cases heq
    · rename_i newItem hnew
      have hne : newItem ≠ .null := by
        unfold UniformShop.newItem at hnew
        split at hnew
        · cases hnew
        · split at hnew
          · cases hnew
          · injection hnew with hnew
            subst hnew
            exact mkObj_ne_null _
      split
      · intro heq; cases heq
      · split
        · intro heq; cases heq
        · split
          · intro heq; cases heq
          · intro heq
            injection heq with heq
            subst heq
            rw [uniform_save_eq] at h ⊢
            split at h
            · exact absurd h hne
            · rename_i hq
              simp [hq]
  · rfl

theorem uniform_addItem_refused (q : Quota) (ls : Storage) (c : Clock)
    (gender category : String) (itemData : Option JVal)
    (h : ∀ t, q ls KEYS.UNIFORM_SHOP t = false) :
    UniformShop.addItem q ls c gender category itemData = (.null, ls) := by
  unfold UniformShop.addItem UniformShop.addItemTry
  simp only
  split <;> rename_i heq
  · revert heq
    split
    · intro heq; cases heq
    · split
      · intro heq; cases heq
      · split
        · intro heq; cases heq
        · split
          · intro heq; cases heq
          · intro heq
            injection heq with heq
            subst heq
            rw [uniform_save_eq]
            simp [h]
  · rfl

end AdminDataManager

open JS AdminDataManager in
/-- C8: each repository `save` returns exactly whether the storage accepted
the write (true on success, false when the write raises) and is a total
function, so the exception never leaves it; when the storage refuses the
write, `NoticeBoard.addItem` and `UniformShop.addItem` return `null` with the
storage as before the call, and whenever they return `null` the storage is as
before the call. -/
theorem c8_save_reports_write_outcome (q : Quota) (ls : Storage) (c : Clock) (data : JVal)
    (gender category : String) (text itemData : Option JVal) :
    (ContactInfo.save q ls data).1 = q ls KEYS.CONTACT (JSON.stringify data) ∧
    (NoticeBoard.save q ls data).1 = q ls KEYS.NOTICE_BOARD (JSON.stringify data) ∧
    (UniformShop.save q ls data).1 = q ls KEYS.UNIFORM_SHOP (JSON.stringify data) ∧
    ((ContactInfo.save q ls data).1 = false → (ContactInfo.save q ls data).2 = ls) ∧
    ((NoticeBoard.save q ls data).1 = false → (NoticeBoard.save q ls data).2 = ls) ∧
    ((UniformShop.save q ls data).1 = false → (UniformShop.save q ls data).2 = ls) ∧
    ((∀ t, q ls KEYS.NOTICE_BOARD t = false) →
      NoticeBoard.addItem q ls c category text = (.null, ls)) ∧
    ((∀ t, q ls KEYS.UNIFORM_SHOP t = false) →
      UniformShop.addItem q ls c gender category itemData = (.null, ls)) ∧
    ((NoticeBoard.addItem q ls c category text).1 = .null →
      (NoticeBoard.addItem q ls c category text).2 = ls) ∧
    ((UniformShop.addItem q ls c gender category itemData).1 = .null →
      (UniformShop.addItem q ls c gender category itemData).2 = ls) := by
  refine ⟨?_, ?_, ?_, ?_, ?_, ?_, notice_addItem_refused q ls c category text,
    uniform_addItem_refused q ls c gender category itemData,
    notice_addItem_null q ls c category text,
    uniform_addItem_null q ls c gender category itemData⟩
  · rw [contact_save_eq]; split <;> simp_all
  · rw [notice_save_eq]; split <;> simp_all
  · rw [uniform_save_eq]; split <;> simp_all
  · rw [contact_save_eq]; split <;> simp_all
  · rw [notice_save_eq]; split <;> simp_all
  · rw [uniform_save_eq]; split <;> simp_all

open JS AdminDataManager in
/-- Witness for C8: with a full storage, adding a notice and a uniform item
both return `null` and leave the (empty) storage untouched. -/
theorem c8_save_reports_write_outcome_witness :
    NoticeBoard.addItem Sample.quotaFull [] Sample.clock "events" (some (.str "Fun day"))
      = (.null, []) ∧
    UniformShop.addItem Sample.quotaFull [] Sample.clock "boys" "summer"
      (some (.obj [("name", .str "Cap"), ("price", .num 60)])) = (.null, []) :=
  ⟨(c8_save_reports_write_outcome Sample.quotaFull [] Sample.clock .null "boys" "events"
      (some (.str "Fun day")) none).2.2.2.2.2.2.1 (fun _ => rfl),
   (c8_save_reports_write_outcome Sample.quotaFull [] Sample.clock .null "boys" "summer"
      none (some (.obj [("name", .str "Cap"), ("price", .num 60)]))).2.2.2.2.2.2.2.1
      (fun _ => rfl)⟩

namespace JS

theorem lookup_setField_same (k : String) (v : JVal) (kvs : List (String × JVal)) :
    (setField k v kvs).lookup k = some v := by
  induction kvs with
  | nil => simp [setField, List.lookup]
  | cons p rest ih =>
    obtain ⟨a, b⟩ := p
    by_cases h : a = k
    · simp [setField, h, List.lookup]
    · have h2 : (k == a) = false := by simpa using (Ne.symm h)
      simp [setField, h, List.lookup, h2, ih]

theorem lookup_setField_other (k k' : String) (v : JVal) (kvs : List (String × JVal))
    (hk : k' ≠ k) : (setField k v kvs).lookup k' = kvs.lookup k' := by
  induction kvs with
  | nil =>
    have : (k' == k) = false := by simpa using hk
    simp [setField, List.lookup, this]
  | cons p rest ih =>
    obtain ⟨a, b⟩ := p
    by_cases h : a = k
    · subst h
      have : (k' == a) = false := by simpa using hk
      simp [setField, List.lookup, this]
    · by_cases h3 : k' = a
      · subst h3
        simp [setField, h, List.lookup]
      · have : (k' == a) = false := by simpa using h3
        simp [setField, h, List.lookup, this, ih]

theorem getProp_ok_of_ne_null (x : JVal) (k : String) (hx : x ≠ JVal.null) :
    ∃ v, getProp (some x) k = .ok v := by
  cases x with
  | null => exact absurd rfl hx
  | bool b => exact ⟨none, rfl⟩
  | num n => exact ⟨none, rfl⟩
  | str s => exact ⟨none, rfl⟩
  | obj kvs => exact ⟨kvs.lookup k, rfl⟩
  | arr xs =>
    simp only [getProp]
    split
    · exact ⟨_, rfl⟩
    · cases arrayIndex k xs.length with
      | none => exact ⟨_, rfl⟩
      | some i => exact ⟨_, rfl⟩

theorem filterE_idDiffers (id : Option JVal) (xs : List JVal) (h : ∀ x ∈ xs, x ≠ JVal.null) :
    filterE (AdminDataManager.idDiffers id) xs =
      .ok (xs.filter (fun x => !strictEq (itemId x) id)) := by
  induction xs with
  | nil => rfl
  | cons x xs ih =>
    have hx : x ≠ JVal.null := h x (List.mem_cons_self _ _)
    have hxs : ∀ y ∈ xs, y ≠ JVal.null := fun y hy => h y (List.mem_cons_of_mem _ hy)
    have hp : AdminDataManager.idDiffers id x = .ok (!strictEq (itemId x) id) := by
      obtain ⟨v, hv⟩ := getProp_ok_of_ne_null x "id" hx
      simp [AdminDataManager.idDiffers, itemId, hv]
    simp only [filterE, hp, ih hxs, List.filter]
    cases strictEq (itemId x) id <;> simp

end JS

namespace AdminDataManager
open JS

theorem getItem_cons_self (ls : Storage) (k : String) (t : StoredText) :
    localStorage.getItem ((k, t) :: ls) k = some t := by
  simp [localStorage.getItem, List.lookup]

theorem gallery_add_ok (q : Quota) (ls : Storage) (c : Clock) (kvs : List (String × JVal))
    (xs : List JVal) (hget : Gallery.getAll ls c = .arr xs)
    (hq : q ls KEYS.GALLERY (JSON.stringify (.arr (xs ++ [mkObj [("id", some (.num c.now)),
      ("src", kvs.lookup "src"), ("alt", kvs.lookup "alt"),
      ("uploadDate", some (.str c.uploadStamp))]]))) = true) :
    Gallery.add q ls c (some (.obj kvs)) =
      (mkObj [("id", some (.num c.now)), ("src", kvs.lookup "src"), ("alt", kvs.lookup "alt"),
        ("uploadDate", some (.str c.uploadStamp))],
       (KEYS.GALLERY, JSON.stringify (.arr (xs ++ [mkObj [("id", some (.num c.now)),
          ("src", kvs.lookup "src"), ("alt", kvs.lookup "alt"),
          ("uploadDate", some (.str c.uploadStamp))]]))) ::
        ls.filter (fun p => p.1 != KEYS.GALLERY)) := by
  simp only [Gallery.add, Gallery.addTry, hget, Gallery.newImage, getProp, arrayPush,
    setItem_accepted q ls _ _ hq]

theorem notice_addItem_ok (q : Quota) (ls : Storage) (c : Clock) (category : String)
    (text : Option JVal) (kvs : List (String × JVal)) (xs : List JVal)
    (hget : NoticeBoard.getAll ls = .obj kvs) (hcat : kvs.lookup category = some (.arr xs))
    (hq : q ls KEYS.NOTICE_BOARD (JSON.stringify (.obj (setField category
      (.arr (xs ++ [mkObj [("id", some (.num c.now)), ("text", text)]])) kvs))) = true) :
    NoticeBoard.addItem q ls c category text =
      (mkObj [("id", some (.num c.now)), ("text", text)],
       (KEYS.NOTICE_BOARD, JSON.stringify (.obj (setField category
          (.arr (xs ++ [mkObj [("id", some (.num c.now)), ("text", text)]])) kvs))) ::
        ls.filter (fun p => p.1 != KEYS.NOTICE_BOARD)) := by
  simp only [NoticeBoard.addItem, NoticeBoard.addItemTry, hget, getProp, hcat, arrayPush,
    setProp, notice_save_eq, hq, if_true]

theorem uniform_addItem_ok (q : Quota) (ls : Storage) (c : Clock) (gender category : String)
    (fields kvs sub : List (String × JVal)) (xs : List JVal)
    (hget : UniformShop.getAll ls = .obj kvs) (hgen : kvs.lookup gender = some (.obj sub))
    (hcat : sub.lookup category = some (.arr xs))
    (hq : q ls KEYS.UNIFORM_SHOP (JSON.stringify (.obj (setField gender (.obj (setField category
      (.arr (xs ++ [mkObj [("id", some (.num c.now)), ("name", fields.lookup "name"),
        ("price", fields.lookup "price")]])) sub)) kvs))) = true) :
    UniformShop.addItem q ls c gender category (some (.obj fields)) =
      (mkObj [("id", some (.num c.now)), ("name", fields.lookup "name"),
        ("price", fields.lookup "price")],
       (KEYS.UNIFORM_SHOP, JSON.stringify (.obj (setField gender (.obj (setField category
          (.arr (xs ++ [mkObj [("id", some (.num c.now)), ("name", fields.lookup "name"),
            ("price", fields.lookup "price")]])) sub)) kvs))) ::
        ls.filter (fun p => p.1 != KEYS.UNIFORM_SHOP)) := by
  simp only [UniformShop.addItem, UniformShop.addItemTry, UniformShop.newItem, hget, getProp,
    hgen, hcat, arrayPush, setNested, setProp, uniform_save_eq, hq, if_true]

end AdminDataManager

open JS AdminDataManager in
/-- C4 (amended): when the storage accepts the write, a repository add followed
by `getAll` returns the previous collection, unchanged and in the same order,
followed by exactly one new item.  The new item is built from a fixed list of
properties: `Gallery.add` copies `src` and `alt` of the item passed in and adds
the id `Date.now()` and an `uploadDate`; `NoticeBoard.addItem` pairs the id with
the text; `UniformShop.addItem` copies `name` and `price` and adds the id.  The
other lists of the notice board and uniform shop documents are as before. -/
theorem c4_add_then_getAll_appends_built_item (q : Quota) (ls : Storage) (c c' : Clock) :
    (∀ (item : List (String × JVal)) (xs : List JVal),
      Gallery.getAll ls c = .arr xs →
      q ls KEYS.GALLERY (JSON.stringify (.arr (xs ++ [mkObj [("id", some (.num c.now)),
        ("src", item.lookup "src"), ("alt", item.lookup "alt"),
        ("uploadDate", some (.str c.uploadStamp))]]))) = true →
      (Gallery.add q ls c (some (.obj item))).1 =
          mkObj [("id", some (.num c.now)), ("src", item.lookup "src"),
            ("alt", item.lookup "alt"), ("uploadDate", some (.str c.uploadStamp))] ∧
      Gallery.getAll (Gallery.add q ls c (some (.obj item))).2 c' =
          .arr (xs ++ [(Gallery.add q ls c (some (.obj item))).1])) ∧
    (∀ (category : String) (text : Option JVal) (kvs : List (String × JVal)) (xs : List JVal),
      NoticeBoard.getAll ls = .obj kvs → kvs.lookup category = some (.arr xs) →
      q ls KEYS.NOTICE_BOARD (JSON.stringify (.obj (setField category
        (.arr (xs ++ [mkObj [("id", some (.num c.now)), ("text", text)]])) kvs))) = true →
      (NoticeBoard.addItem q ls c category text).1 =
          mkObj [("id", some (.num c.now)), ("text", text)] ∧
      ∃ kvs', NoticeBoard.getAll (NoticeBoard.addItem q ls c category text).2 = .obj kvs' ∧
        kvs'.lookup category = some (.arr (xs ++ [(NoticeBoard.addItem q ls c category text).1])) ∧
        ∀ k, k ≠ category → kvs'.lookup k = kvs.lookup k) ∧
    (∀ (gender category : String) (item kvs sub : List (String × JVal)) (xs : List JVal),
      UniformShop.getAll ls = .obj kvs → kvs.lookup gender = some (.obj sub) →
      sub.lookup category = some (.arr xs) →
      q ls KEYS.UNIFORM_SHOP (JSON.stringify (.obj (setField gender (.obj (setField category
        (.arr (xs ++ [mkObj [("id", some (.num c.now)), ("name", item.lookup "name"),
          ("price", item.lookup "price")]])) sub)) kvs))) = true →
      (UniformShop.addItem q ls c gender category (some (.obj item))).1 =
          mkObj [("id", some (.num c.now)), ("name", item.lookup "name"),
            ("price", item.lookup "price")] ∧
      ∃ kvs' sub', UniformShop.getAll
            (UniformShop.addItem q ls c gender category (some (.obj item))).2 = .obj kvs' ∧
        kvs'.lookup gender = some (.obj sub') ∧
        sub'.lookup category = some (.arr (xs ++
          [(UniformShop.addItem q ls c gender category (some (.obj item))).1])) ∧
        (∀ k, k ≠ gender → kvs'.lookup k = kvs.lookup k) ∧
        (∀ k, k ≠ category → sub'.lookup k = sub.lookup k)) := by
  refine ⟨?_, ?_, ?_⟩
  · intro item xs hget hq
    rw [gallery_add_ok q ls c item xs hget hq]
    exact ⟨rfl, gallery_getAll_of_stored _ c' _ (getItem_cons_self _ _ _)⟩
  · intro category text kvs xs hget hcat hq
    rw [notice_addItem_ok q ls c category text kvs xs hget hcat hq]
    refine ⟨rfl, _, notice_getAll_of_stored _ _ (getItem_cons_self _ _ _), ?_, ?_⟩
    · exact lookup_setField_same _ _ _
    · intro k hk
      exact lookup_setField_other _ _ _ _ hk
  · intro gender category item kvs sub xs hget hgen hcat hq
    rw [uniform_addItem_ok q ls c gender category item kvs sub xs hget hgen hcat hq]
    exact ⟨rfl, _, _, uniform_getAll_of_stored _ _ (getItem_cons_self _ _ _),
      lookup_setField_same _ _ _, lookup_setField_same _ _ _,
      fun k hk => lookup_setField_other _ _ _ _ hk,
      fun k hk => lookup_setField_other _ _ _ _ hk⟩

open JS AdminDataManager in
/-- Witness for C4: adding an image to a stored one-image gallery, a notice to
the default notice board and an item to the default uniform shop. -/
theorem c4_add_then_getAll_appends_built_item_witness :
    Gallery.getAll (Gallery.add Sample.quotaFree
        [(KEYS.GALLERY, .json (.arr [galleryImage 1 "a.jpg" "A" "then"]))] Sample.clock
        (some (.obj [("src", .str "b.jpg"), ("alt", .str "B")]))).2 Sample.laterClock =
      .arr ([galleryImage 1 "a.jpg" "A" "then"] ++ [(Gallery.add Sample.quotaFree
        [(KEYS.GALLERY, .json (.arr [galleryImage 1 "a.jpg" "A" "then"]))] Sample.clock
        (some (.obj [("src", .str "b.jpg"), ("alt", .str "B")]))).1]) ∧
    (NoticeBoard.addItem Sample.quotaFree [] Sample.clock "news" (some (.str "Hello"))).1 =
      mkObj [("id", some (.num Sample.clock.now)), ("text", some (.str "Hello"))] ∧
    (UniformShop.addItem Sample.quotaFree [] Sample.clock "girls" "winter"
        (some (.obj [("name", .str "Scarf"), ("price", .num 70)]))).1 =
      mkObj [("id", some (.num Sample.clock.now)), ("name", some (.str "Scarf")),
        ("price", some (.num 70))] :=
  have h := c4_add_then_getAll_appends_built_item Sample.quotaFree
    [(KEYS.GALLERY, .json (.arr [galleryImage 1 "a.jpg" "A" "then"]))] Sample.clock
    Sample.laterClock
  have h' := c4_add_then_getAll_appends_built_item Sample.quotaFree [] Sample.clock
    Sample.laterClock
  ⟨(h.1 [("src", .str "b.jpg"), ("alt", .str "B")] [galleryImage 1 "a.jpg" "A" "then"]
      rfl rfl).2,
   (h'.2.1 "news" (some (.str "Hello")) _ _ rfl rfl rfl).1,
   (h'.2.2 "girls" "winter" [("name", .str "Scarf"), ("price", .num 70)] _ _ _ rfl rfl rfl
      rfl).1⟩

open JS AdminDataManager in
/-- C4 fails as stated: an item passed to `Gallery.add` with an `uploadDate`
and a `caption` next to `src` and `alt` is stored with the clock's
`uploadDate` and without the caption, so the new item does not have all the
fields of the item passed in. -/
theorem c4_extra_field_not_copied :
    getProp (some (.obj [("src", .str "a.jpg"), ("alt", .str "A"),
        ("uploadDate", .str "1/1/2020, 9:00:00 AM"), ("caption", .str "Sports day")]))
        "caption" = .ok (some (.str "Sports day")) ∧
    Gallery.getAll (Gallery.add Sample.quotaFree [(KEYS.GALLERY, .json (.arr []))] Sample.clock
        (some (.obj [("src", .str "a.jpg"), ("alt", .str "A"),
          ("uploadDate", .str "1/1/2020, 9:00:00 AM"), ("caption", .str "Sports day")]))).2
        Sample.clock =
      .arr [.obj [("id", .num 1700000000000), ("src", .str "a.jpg"), ("alt", .str "A"),
        ("uploadDate", .str "11/14/2023, 10:13:20 PM")]] ∧
    getProp (some (.obj [("id", .num 1700000000000), ("src", .str "a.jpg"), ("alt", .str "A"),
        ("uploadDate", .str "11/14/2023, 10:13:20 PM")])) "caption" = .ok none :=
  ⟨rfl, rfl, rfl⟩

namespace AdminDataManager
open JS

theorem gallery_delete_ok (q : Quota) (ls : Storage) (c : Clock) (id : Option JVal)
    (xs : List JVal) (hget : Gallery.getAll ls c = .arr xs) (hnn : ∀ x ∈ xs, x ≠ JVal.null)
    (hq : q ls KEYS.GALLERY (JSON.stringify
      (.arr (xs.filter (fun x => !strictEq (itemId x) id)))) = true) :
    Gallery.delete q ls c id =
      (true, (KEYS.GALLERY, JSON.stringify
        (.arr (xs.filter (fun x => !strictEq (itemId x) id)))) ::
        ls.filter (fun p => p.1 != KEYS.GALLERY)) := by
  simp only [Gallery.delete, Gallery.deleteTry, hget, arrayFilter, filterE_idDiffers id xs hnn,
    setItem_accepted q ls _ _ hq]

theorem notice_deleteItem_ok (q : Quota) (ls : Storage) (category : String)
    (id : Option JVal) (kvs : List (String × JVal)) (xs : List JVal)
    (hget : NoticeBoard.getAll ls = .obj kvs) (hcat : kvs.lookup category = some (.arr xs))
    (hnn : ∀ x ∈ xs, x ≠ JVal.null)
    (hq : q ls KEYS.NOTICE_BOARD (JSON.stringify (.obj (setField category
      (.arr (xs.filter (fun x => !strictEq (itemId x) id))) kvs))) = true) :
    NoticeBoard.deleteItem q ls category id =
      (true, (KEYS.NOTICE_BOARD, JSON.stringify (.obj (setField category
        (.arr (xs.filter (fun x => !strictEq (itemId x) id))) kvs))) ::
        ls.filter (fun p => p.1 != KEYS.NOTICE_BOARD)) := by
  simp only [NoticeBoard.deleteItem, NoticeBoard.deleteItemTry, hget, getProp, hcat, arrayFilter,
    filterE_idDiffers id xs hnn, setProp, notice_save_eq, hq, if_true]

theorem uniform_deleteItem_ok (q : Quota) (ls : Storage) (gender category : String)
    (id : Option JVal) (kvs sub : List (String × JVal)) (xs : List JVal)
    (hget : UniformShop.getAll ls = .obj kvs) (hgen : kvs.lookup gender = some (.obj sub))
    (hcat : sub.lookup category = some (.arr xs)) (hnn : ∀ x ∈ xs, x ≠ JVal.null)
    (hq : q ls KEYS.UNIFORM_SHOP (JSON.stringify (.obj (setField gender (.obj (setField category
      (.arr (xs.filter (fun x => !strictEq (itemId x) id))) sub)) kvs))) = true) :
    UniformShop.deleteItem q ls gender category id =
      (true, (KEYS.UNIFORM_SHOP, JSON.stringify (.obj (setField gender (.obj (setField category
        (.arr (xs.filter (fun x => !strictEq (itemId x) id))) sub)) kvs))) ::
        ls.filter (fun p => p.1 != KEYS.UNIFORM_SHOP)) := by
  simp only [UniformShop.deleteItem, UniformShop.deleteItemTry, hget, getProp, hgen, hcat,
    arrayFilter, filterE_idDiffers id xs hnn, setNested, setProp, uniform_save_eq, hq,
    if_true]

end AdminDataManager

open JS AdminDataManager in
/-- C5: for every stored collection of items (none of them `null`) and every
id, when the storage accepts the write a repository delete returns true and
`getAll` afterwards gives the previous collection with exactly the items
whose id is strictly equal to the given id removed: no such item remains and
the other items keep their content and order.  For the notice board and the
uniform shop this is the addressed list, the other lists staying as before. -/
theorem c5_delete_filters_by_id (q : Quota) (ls : Storage) (c c' : Clock) (id : Option JVal)
    (xs : List JVal) (hnn : ∀ x ∈ xs, x ≠ JVal.null) :
    (Gallery.getAll ls c = .arr xs →
      q ls KEYS.GALLERY (JSON.stringify
        (.arr (xs.filter (fun x => !strictEq (itemId x) id)))) = true →
      (Gallery.delete q ls c id).1 = true ∧
      Gallery.getAll (Gallery.delete q ls c id).2 c' =
        .arr (xs.filter (fun x => !strictEq (itemId x) id))) ∧
    (∀ (category : String) (kvs : List (String × JVal)),
      NoticeBoard.getAll ls = .obj kvs → kvs.lookup category = some (.arr xs) →
      q ls KEYS.NOTICE_BOARD (JSON.stringify (.obj (setField category
        (.arr (xs.filter (fun x => !strictEq (itemId x) id))) kvs))) = true →
      (NoticeBoard.deleteItem q ls category id).1 = true ∧
      ∃ kvs', NoticeBoard.getAll (NoticeBoard.deleteItem q ls category id).2 = .obj kvs' ∧
        kvs'.lookup category = some (.arr (xs.filter (fun x => !strictEq (itemId x) id))) ∧
        ∀ k, k ≠ category → kvs'.lookup k = kvs.lookup k) ∧
    (∀ (gender category : String) (kvs sub : List (String × JVal)),
      UniformShop.getAll ls = .obj kvs → kvs.lookup gender = some (.obj sub) →
      sub.lookup category = some (.arr xs) →
      q ls KEYS.UNIFORM_SHOP (JSON.stringify (.obj (setField gender (.obj (setField category
        (.arr (xs.filter (fun x => !strictEq (itemId x) id))) sub)) kvs))) = true →
      (UniformShop.deleteItem q ls gender category id).1 = true ∧
      ∃ kvs' sub', UniformShop.getAll (UniformShop.deleteItem q ls gender category id).2 =
          .obj kvs' ∧
        kvs'.lookup gender = some (.obj sub') ∧
        sub'.lookup category = some (.arr (xs.filter (fun x => !strictEq (itemId x) id))) ∧
        (∀ k, k ≠ gender → kvs'.lookup k = kvs.lookup k) ∧
        (∀ k, k ≠ category → sub'.lookup k = sub.lookup k)) ∧
    (∀ x ∈ xs.filter (fun x => !strictEq (itemId x) id), strictEq (itemId x) id = false) ∧
    (xs.filter (fun x => !strictEq (itemId x) id)).Sublist xs := by
  refine ⟨?_, ?_, ?_, ?_, List.filter_sublist _⟩
  · intro hget hq
    rw [gallery_delete_ok q ls c id xs hget hnn hq]
    exact ⟨rfl, gallery_getAll_of_stored _ c' _ (getItem_cons_self _ _ _)⟩
  · intro category kvs hget hcat hq
    rw [notice_deleteItem_ok q ls category id kvs xs hget hcat hnn hq]
    exact ⟨rfl, _, notice_getAll_of_stored _ _ (getItem_cons_self _ _ _),
      lookup_setField_same _ _ _, fun k hk => lookup_setField_other _ _ _ _ hk⟩
  · intro gender category kvs sub hget hgen hcat hq
    rw [uniform_deleteItem_ok q ls gender category id kvs sub xs hget hgen hcat hnn hq]
    exact ⟨rfl, _, _, uniform_getAll_of_stored _ _ (getItem_cons_self _ _ _),
      lookup_setField_same _ _ _, lookup_setField_same _ _ _,
      fun k hk => lookup_setField_other _ _ _ _ hk,
      fun k hk => lookup_setField_other _ _ _ _ hk⟩
  · intro x hx
    have := (List.mem_filter.mp hx).2
    simpa using this

open JS AdminDataManager in
/-- Witness for C5: deleting id 2 from the default events list of the notice
board leaves the items 1, 3 and 4 in order. -/
theorem c5_delete_filters_by_id_witness :
    (NoticeBoard.deleteItem Sample.quotaFree [] "events" (some (.num 2))).1 = true ∧
    ∃ kvs', NoticeBoard.getAll
        (NoticeBoard.deleteItem Sample.quotaFree [] "events" (some (.num 2))).2 = .obj kvs' ∧
      kvs'.lookup "events" = some (.arr [
        noticeItem 1 "Parent-Teacher Conference - March 15, 2025",
        noticeItem 3 "Grade 7 Graduation Ceremony - December 5, 2025",
        noticeItem 4 "School Open Day - April 10, 2025"]) :=
  have h := (c5_delete_filters_by_id Sample.quotaFree [] Sample.clock Sample.clock
    (some (.num 2)) [
        noticeItem 1 "Parent-Teacher Conference - March 15, 2025",
        noticeItem 2 "School Sports Day - March 22, 2025",
        noticeItem 3 "Grade 7 Graduation Ceremony - December 5, 2025",
        noticeItem 4 "School Open Day - April 10, 2025"]
    (by intro x hx; simp [noticeItem] at hx; rcases hx with h | h | h | h <;> simp [h])).2.1
    "events" _ rfl rfl rfl
  ⟨h.1, h.2.choose, h.2.choose_spec.1, h.2.choose_spec.2.1⟩

namespace AdminDataManager
open JS

theorem contact_get_congr (ls ls' : Storage)
    (h : localStorage.getItem ls KEYS.CONTACT = localStorage.getItem ls' KEYS.CONTACT) :
    ContactInfo.get ls = ContactInfo.get ls' := by
  simp [ContactInfo.get, ContactInfo.getTry, h]

theorem notice_getAll_congr (ls ls' : Storage)
    (h : localStorage.getItem ls KEYS.NOTICE_BOARD = localStorage.getItem ls' KEYS.NOTICE_BOARD) :
    NoticeBoard.getAll ls = NoticeBoard.getAll ls' := by
  simp [NoticeBoard.getAll, NoticeBoard.getAllTry, h]

theorem uniform_getAll_congr (ls ls' : Storage)
    (h : localStorage.getItem ls KEYS.UNIFORM_SHOP = localStorage.getItem ls' KEYS.UNIFORM_SHOP) :
    UniformShop.getAll ls = UniformShop.getAll ls' := by
  simp [UniformShop.getAll, UniformShop.getAllTry, h]

theorem gallery_getAll_congr (ls ls' : Storage) (c : Clock)
    (h : localStorage.getItem ls KEYS.GALLERY = localStorage.getItem ls' KEYS.GALLERY) :
    Gallery.getAll ls c = Gallery.getAll ls' c := by
  simp [Gallery.getAll, Gallery.getAllTry, h]

theorem gallery_getDefault_congr (c c' : Clock)
    (h : ∀ i, i < 17 → c.defaultStamp i = c'.defaultStamp i) :
    Gallery.getDefault c = Gallery.getDefault c' := by
  simp only [Gallery.getDefault]
  rw [h 0 (by decide), h 1 (by decide), h 2 (by decide), h 3 (by decide), h 4 (by decide),
    h 5 (by decide), h 6 (by decide), h 7 (by decide), h 8 (by decide), h 9 (by decide),
    h 10 (by decide), h 11 (by decide), h 12 (by decide), h 13 (by decide), h 14 (by decide),
    h 15 (by decide), h 16 (by decide)]

theorem gallery_getAll_cases (ls : Storage) (c : Clock) :
    (Gallery.getAll ls c = Gallery.getDefault c ∧
      ∀ c', Gallery.getAll ls c' = Gallery.getDefault c') ∨
    (∃ v, localStorage.getItem ls KEYS.GALLERY = some (.json v)) := by
  cases h : localStorage.getItem ls KEYS.GALLERY with
  | none =>
    exact Or.inl ⟨gallery_getAll_of_unreadable ls c (Or.inl h),
      fun c' => gallery_getAll_of_unreadable ls c' (Or.inl h)⟩
  | some t =>
    cases t with
    | json v => exact Or.inr ⟨v, rfl⟩
    | malformed s =>
      exact Or.inl ⟨gallery_getAll_of_unreadable ls c (Or.inr ⟨s, h⟩),
        fun c' => gallery_getAll_of_unreadable ls c' (Or.inr ⟨s, h⟩)⟩

end AdminDataManager

open JS AdminDataManager in
/-- C9 (amended): a read depends only on the entry stored under its key, so
with no intervening write two calls of `ContactInfo.get`, of
`NoticeBoard.getAll` and of `UniformShop.getAll` return equal documents, and so
do two calls of `Gallery.getAll` whenever a JSON value is stored under the
gallery key.  When `Gallery.getAll` falls back on the default collection the
two documents are equal provided the two calls read the same
`toLocaleString()` values for the 17 default images. -/
theorem c9_reads_repeat (ls ls' : Storage) (c c' : Clock) :
    (localStorage.getItem ls KEYS.CONTACT = localStorage.getItem ls' KEYS.CONTACT →
      ContactInfo.get ls = ContactInfo.get ls') ∧
    (localStorage.getItem ls KEYS.NOTICE_BOARD = localStorage.getItem ls' KEYS.NOTICE_BOARD →
      NoticeBoard.getAll ls = NoticeBoard.getAll ls') ∧
    (localStorage.getItem ls KEYS.UNIFORM_SHOP = localStorage.getItem ls' KEYS.UNIFORM_SHOP →
      UniformShop.getAll ls = UniformShop.getAll ls') ∧
    (∀ v, localStorage.getItem ls KEYS.GALLERY = some (.json v) →
      localStorage.getItem ls KEYS.GALLERY = localStorage.getItem ls' KEYS.GALLERY →
      Gallery.getAll ls c = Gallery.getAll ls' c') ∧
    ((∀ i, i < 17 → c.defaultStamp i = c'.defaultStamp i) →
      localStorage.getItem ls KEYS.GALLERY = localStorage.getItem ls' KEYS.GALLERY →
      Gallery.getAll ls c = Gallery.getAll ls' c') := by
  refine ⟨contact_get_congr ls ls', notice_getAll_congr ls ls',
    uniform_getAll_congr ls ls', ?_, ?_⟩
  · intro v hv h
    rw [gallery_getAll_of_stored ls c v hv, gallery_getAll_of_stored ls' c' v (h ▸ hv)]
  · intro hc h
    rw [← gallery_getAll_congr ls ls' c' h]
    rcases gallery_getAll_cases ls c with ⟨h1, h2⟩ | ⟨v, hv⟩
    · rw [h1, h2 c']
      exact gallery_getDefault_congr c c' hc
    · rw [gallery_getAll_of_stored ls c v hv, gallery_getAll_of_stored ls c' v hv]

open JS AdminDataManager in
/-- Witness for C9: two reads of an empty storage, the second with clock
readings that differ only outside the default gallery's stamps. -/
theorem c9_reads_repeat_witness :
    ContactInfo.get [] = ContactInfo.get [] ∧
    Gallery.getAll [] Sample.clock =
      Gallery.getAll [] { Sample.clock with now := 1700000000500 } :=
  have h := c9_reads_repeat [] [] Sample.clock { Sample.clock with now := 1700000000500 }
  ⟨h.1 rfl, h.2.2.2.2 (fun _ _ => rfl) rfl⟩

open JS AdminDataManager in
/-- C9 fails as stated: with nothing stored, two calls of `Gallery.getAll` one
second apart return default collections with different `uploadDate` stamps. -/
theorem c9_default_gallery_differs_across_seconds :
    Gallery.getAll [] Sample.clock ≠ Gallery.getAll [] Sample.laterClock := by
  intro h
  simp [Gallery.getAll, Gallery.getAllTry, localStorage.getItem, Gallery.getDefault,
    galleryImage, Sample.clock, Sample.laterClock] at h

namespace AdminDataManager
open JS

theorem arrayPush_ok_inv (list : Option JVal) (x r : JVal) (h : arrayPush list x = .ok r) :
    ∃ xs, list = some (.arr xs) ∧ r = .arr (xs ++ [x]) := by
  unfold arrayPush at h
  split at h
  · injection h with h
    exact ⟨_, rfl, h.symm⟩
  · cases h

theorem itemId_mkObj_id (n : Int) (rest : List (String × Option JVal)) :
    itemId (mkObj (("id", some (.num n)) :: rest)) = some (.num n) := by
  simp [itemId, mkObj, getProp, List.lookup]

theorem idsOf_append_singleton (xs : List JVal) (x : JVal) :
    idsOf (xs ++ [x]) = idsOf xs ++ [itemId x] := by
  simp [idsOf]

theorem nodup_idsOf_push (xs : List JVal) (x : JVal) (h : (idsOf xs).Nodup)
    (hx : itemId x ∉ idsOf xs) : (idsOf (xs ++ [x])).Nodup := by
  rw [idsOf_append_singleton]
  exact List.Nodup.append h (List.nodup_singleton _) (by
    intro a ha hb
    rw [List.mem_singleton] at hb
    exact hx (hb ▸ ha))

theorem gallery_addTry_ok_inv (q : Quota) (ls : Storage) (c : Clock) (d : Option JVal)
    (r : JVal × Storage) (h : Gallery.addTry q ls c d = .ok r) :
    ∃ xs new, Gallery.getAll ls c = .arr xs ∧ itemId new = some (.num c.now) ∧
      r.2 = (KEYS.GALLERY, .json (.arr (xs ++ [new]))) ::
        ls.filter (fun p => p.1 != KEYS.GALLERY) := by
  unfold Gallery.addTry at h
  simp only at h
  split at h
  · cases h
  · rename_i new hnew
    have hid : itemId new = some (.num c.now) := by
      unfold Gallery.newImage at hnew
      split at hnew
      · cases hnew
      · split at hnew
        · cases hnew
        · injection hnew with hnew
          subst hnew
          exact itemId_mkObj_id _ _
    split at h
    · cases h
    · rename_i images' hpush
      obtain ⟨xs, hxs, himg⟩ := arrayPush_ok_inv _ _ _ hpush
      injection hxs with hxs
      subst himg
      unfold localStorage.setItem at h
      split at h
      · cases h
      · rename_i ls' hset
        split at hset
        · injection hset with hset
          injection h with h
          subst h
          exact ⟨xs, new, hxs, hid, hset.symm⟩
        · cases hset

theorem gallery_step (q : Quota) (ls : Storage) (c : Clock) (d : Option JVal)
    (hinv : idsDistinct ls) (hfresh : freshFor ls c (.gallery d)) :
    idsDistinct (Gallery.add q ls c d).2 := by
  unfold Gallery.add
  cases h : Gallery.addTry q ls c d with
  | error e => exact hinv
  | ok r =>
    obtain ⟨xs, new, hget, hid, hr⟩ := gallery_addTry_ok_inv q ls c d r h
    simp only
    rw [hr]
    have hnb : localStorage.getItem ((KEYS.GALLERY, StoredText.json (.arr (xs ++ [new]))) ::
        ls.filter (fun p => p.1 != KEYS.GALLERY)) KEYS.NOTICE_BOARD =
        localStorage.getItem ls KEYS.NOTICE_BOARD := by
      have : (KEYS.NOTICE_BOARD == KEYS.GALLERY) = false := by decide
      simp only [localStorage.getItem, List.lookup, this]
      exact lookup_filter_ne ls _ _ (by decide)
    have hus : localStorage.getItem ((KEYS.GALLERY, StoredText.json (.arr (xs ++ [new]))) ::
        ls.filter (fun p => p.1 != KEYS.GALLERY)) KEYS.UNIFORM_SHOP =
        localStorage.getItem ls KEYS.UNIFORM_SHOP := by
      have : (KEYS.UNIFORM_SHOP == KEYS.GALLERY) = false := by decide
      simp only [localStorage.getItem, List.lookup, this]
      exact lookup_filter_ne ls _ _ (by decide)
    refine ⟨?_, ?_, ?_⟩
    · intro c' ys hys
      rw [gallery_getAll_of_stored _ c' _ (getItem_cons_self _ _ _)] at hys
      injection hys with hys
      subst hys
      exact nodup_idsOf_push xs new (hinv.1 c xs hget) (hid ▸ hfresh c xs hget)
    · intro kvs category ys hdoc hcat
      rw [notice_getAll_congr _ ls hnb] at hdoc
      exact hinv.2.1 kvs category ys hdoc hcat
    · intro kvs gender sub category ys hdoc hgen hcat
      rw [uniform_getAll_congr _ ls hus] at hdoc
      exact hinv.2.2 kvs gender sub category ys hdoc hgen hcat

end AdminDataManager

namespace AdminDataManager
open JS

theorem setProp_obj_inv (data : JVal) (k : String) (v : JVal) (kvs' : List (String × JVal))
    (h : setProp data k v = .obj kvs') :
    ∃ kvs, data = .obj kvs ∧ kvs' = setField k v kvs := by
  cases data with
  | obj kvs =>
    simp only [setProp] at h
    injection h with h
    exact ⟨kvs, rfl, h.symm⟩
  | arr xs =>
    simp only [setProp] at h
    split at h <;> cases h
  | null => simp [setProp] at h
  | bool b => simp [setProp] at h
  | num n => simp [setProp] at h
  | str s => simp [setProp] at h

theorem getItem_write_other (ls : Storage) (k k' : String) (t : StoredText) (hk : k' ≠ k) :
    localStorage.getItem ((k, t) :: ls.filter (fun p => p.1 != k)) k' =
      localStorage.getItem ls k' := by
  have : (k' == k) = false := by simpa using hk
  simp only [localStorage.getItem, List.lookup, this]
  exact lookup_filter_ne ls _ _ hk

theorem notice_addItemTry_ok_inv (q : Quota) (ls : Storage) (c : Clock) (category : String)
    (text : Option JVal) (r : JVal × Storage)
    (h : NoticeBoard.addItemTry q ls c category text = .ok r) :
    r.2 = ls ∨ ∃ xs new, getProp (some (NoticeBoard.getAll ls)) category = .ok (some (.arr xs)) ∧
      itemId new = some (.num c.now) ∧
      r.2 = (KEYS.NOTICE_BOARD, .json (setProp (NoticeBoard.getAll ls) category
        (.arr (xs ++ [new])))) :: ls.filter (fun p => p.1 != KEYS.NOTICE_BOARD) := by
  unfold NoticeBoard.addItemTry at h
  simp only at h
  split at h
  · cases h
  · rename_i list hlist
    split at h
    · cases h
    · rename_i list' hpush
      obtain ⟨xs, hxs, hl⟩ := arrayPush_ok_inv _ _ _ hpush
      subst hxs hl
      injection h with h
      subst h
      rw [notice_save_eq]
      split
      · exact Or.inr ⟨xs, _, hlist, itemId_mkObj_id _ _, rfl⟩
      · exact Or.inl rfl

theorem notice_step (q : Quota) (ls : Storage) (c : Clock) (category : String)
    (text : Option JVal) (hinv : idsDistinct ls) (hfresh : freshFor ls c (.notice category text)) :
    idsDistinct (NoticeBoard.addItem q ls c category text).2 := by
  unfold NoticeBoard.addItem
  cases h : NoticeBoard.addItemTry q ls c category text with
  | error e => exact hinv
  | ok r =>
    simp only
    rcases notice_addItemTry_ok_inv q ls c category text r h with hr | ⟨xs, new, hlist, hid, hr⟩
    · rw [hr]; exact hinv
    · rw [hr]
      refine ⟨?_, ?_, ?_⟩
      · intro c' ys hys
        rw [gallery_getAll_congr _ ls c' (getItem_write_other ls _ _ _ (by decide))] at hys
        exact hinv.1 c' ys hys
      · intro kvs' cat' ys hdoc hcat
        rw [notice_getAll_of_stored _ _ (getItem_cons_self _ _ _)] at hdoc
        obtain ⟨kvs, hdata, hkvs'⟩ := setProp_obj_inv _ _ _ _ hdoc
        rw [hdata] at hlist
        simp only [getProp] at hlist
        injection hlist with hlist
        subst hkvs'
        by_cases hc : cat' = category
        · subst hc
          rw [lookup_setField_same] at hcat
          injection hcat with hcat
          injection hcat with hcat
          subst hcat
          exact nodup_idsOf_push xs new (hinv.2.1 kvs cat' xs hdata hlist)
            (hid ▸ hfresh kvs xs hdata hlist)
        · rw [lookup_setField_other _ _ _ _ hc] at hcat
          exact hinv.2.1 kvs cat' ys hdata hcat
      · intro kvs gender sub cat' ys hdoc hgen hcat
        rw [uniform_getAll_congr _ ls (getItem_write_other ls _ _ _ (by decide))] at hdoc
        exact hinv.2.2 kvs gender sub cat' ys hdoc hgen hcat

theorem uniform_addItemTry_ok_inv (q : Quota) (ls : Storage) (c : Clock)
    (gender category : String) (d : Option JVal) (r : JVal × Storage)
    (h : UniformShop.addItemTry q ls c gender category d = .ok r) :
    r.2 = ls ∨ ∃ s xs new, getProp (some (UniformShop.getAll ls)) gender = .ok (some s) ∧
      getProp (some s) category = .ok (some (.arr xs)) ∧
      itemId new = some (.num c.now) ∧
      r.2 = (KEYS.UNIFORM_SHOP, .json (setProp (UniformShop.getAll ls) gender
        (setProp s category (.arr (xs ++ [new]))))) ::
          ls.filter (fun p => p.1 != KEYS.UNIFORM_SHOP) := by
  unfold UniformShop.addItemTry at h
  simp only at h
  split at h
  · cases h
  · rename_i new hnew
    have hid : itemId new = some (.num c.now) := by
      unfold UniformShop.newItem at hnew
      split at hnew
      · cases hnew
      · split at hnew
        · cases hnew
        · injection hnew with hnew
          subst hnew
          exact itemId_mkObj_id _ _
    split at h
    · cases h
    · rename_i sub hsub
      split at h
      · cases h
      · rename_i list hlist
        split at h
        · cases h
        · rename_i list' hpush
          obtain ⟨xs, hxs, hl⟩ := arrayPush_ok_inv _ _ _ hpush
          subst hxs hl
          injection h with h
          subst h
          rw [uniform_save_eq]
          split
          · cases sub with
            | none => simp [getProp] at hlist
            | some s => exact Or.inr ⟨s, xs, new, hsub, hlist, hid, rfl⟩
          · exact Or.inl rfl

theorem uniform_step (q : Quota) (ls : Storage) (c : Clock) (gender category : String)
    (d : Option JVal) (hinv : idsDistinct ls)
    (hfresh : freshFor ls c (.uniform gender category d)) :
    idsDistinct (UniformShop.addItem q ls c gender category d).2 := by
  unfold UniformShop.addItem
  cases h : UniformShop.addItemTry q ls c gender category d with
  | error e => exact hinv
  | ok r =>
    simp only
    rcases uniform_addItemTry_ok_inv q ls c gender category d r h with
      hr | ⟨s, xs, new, hsub, hlist, hid, hr⟩
    · rw [hr]; exact hinv
    · rw [hr]
      refine ⟨?_, ?_, ?_⟩
      · intro c' ys hys
        rw [gallery_getAll_congr _ ls c' (getItem_write_other ls _ _ _ (by decide))] at hys
        exact hinv.1 c' ys hys
      · intro kvs cat' ys hdoc hcat
        rw [notice_getAll_congr _ ls (getItem_write_other ls _ _ _ (by decide))] at hdoc
        exact hinv.2.1 kvs cat' ys hdoc hcat
      · intro kvs' g' sub' cat' ys hdoc hgen hcat
        rw [uniform_getAll_of_stored _ _ (getItem_cons_self _ _ _)] at hdoc
        obtain ⟨kvs, hdata, hkvs'⟩ := setProp_obj_inv _ _ _ _ hdoc
        rw [hdata] at hsub
        simp only [getProp] at hsub
        injection hsub with hsub
        subst hkvs'
        by_cases hg : g' = gender
        · subst hg
          rw [lookup_setField_same] at hgen
          injection hgen with hgen
          obtain ⟨subkvs, hs, hsub'⟩ := setProp_obj_inv _ _ _ _ hgen
          subst hs
          simp only [getProp] at hlist
          injection hlist with hlist
          subst hsub'
          by_cases hc : cat' = category
          · subst hc
            rw [lookup_setField_same] at hcat
            injection hcat with hcat
            injection hcat with hcat
            subst hcat
            exact nodup_idsOf_push xs new (hinv.2.2 kvs g' subkvs cat' xs hdata hsub hlist)
              (hid ▸ hfresh kvs subkvs xs hdata hsub hlist)
          · rw [lookup_setField_other _ _ _ _ hc] at hcat
            exact hinv.2.2 kvs g' subkvs cat' ys hdata hsub hcat
        · rw [lookup_setField_other _ _ _ _ hg] at hgen
          exact hinv.2.2 kvs g' sub' cat' ys hdata hgen hcat

theorem idsDistinct_empty : idsDistinct [] := by
  refine ⟨?_, ?_, ?_⟩
  · intro c xs h
    simp [Gallery.getAll, Gallery.getAllTry, localStorage.getItem, Gallery.getDefault,
      galleryImage] at h
    subst h
    simp [idsOf, itemId, getProp, List.lookup]
  · intro kvs category xs hdoc hcat
    simp only [NoticeBoard.getAll, NoticeBoard.getAllTry, localStorage.getItem, List.lookup,
      NoticeBoard.getDefault] at hdoc
    injection hdoc with hdoc
    subst hdoc
    simp only [List.lookup] at hcat
    split at hcat
    · injection hcat with hcat; injection hcat with hcat; subst hcat
      simp [idsOf, itemId, getProp, List.lookup, noticeItem]
    · split at hcat
      · injection hcat with hcat; injection hcat with hcat; subst hcat
        simp [idsOf, itemId, getProp, List.lookup, noticeItem]
      · split at hcat
        · injection hcat with hcat; injection hcat with hcat; subst hcat
          simp [idsOf, itemId, getProp, List.lookup, noticeItem]
        · cases hcat
  · intro kvs gender sub category xs hdoc hgen hcat
    simp only [UniformShop.getAll, UniformShop.getAllTry, localStorage.getItem, List.lookup,
      UniformShop.getDefault] at hdoc
    injection hdoc with hdoc
    subst hdoc
    simp only [List.lookup] at hgen
    split at hgen
    · injection hgen with hgen; injection hgen with hgen; subst hgen
      simp only [List.lookup] at hcat
      split at hcat
      · injection hcat with hcat; injection hcat with hcat; subst hcat
        simp [idsOf, itemId, getProp, List.lookup, uniformItem]
      · split at hcat
        · injection hcat with hcat; injection hcat with hcat; subst hcat
          simp [idsOf, itemId, getProp, List.lookup, uniformItem]
        · split at hcat
          · injection hcat with hcat; injection hcat with hcat; subst hcat
            simp [idsOf, itemId, getProp, List.lookup, uniformItem]
          · cases hcat
    · split at hgen
      · injection hgen with hgen; injection hgen with hgen; subst hgen
        simp only [List.lookup] at hcat
        split at hcat
        · injection hcat with hcat; injection hcat with hcat; subst hcat
          simp [idsOf, itemId, getProp, List.lookup, uniformItem]
        · split at hcat
          · injection hcat with hcat; injection hcat with hcat; subst hcat
            simp [idsOf, itemId, getProp, List.lookup, uniformItem]
          · split at hcat
            · injection hcat with hcat; injection hcat with hcat; subst hcat
              simp [idsOf, itemId, getProp, List.lookup, uniformItem]
            · cases hcat
      · cases hgen

end AdminDataManager

namespace AdminDataManager
open JS

theorem call_step (q : Quota) (ls : Storage) (c : Clock) (call : AddCall)
    (hinv : idsDistinct ls) (hfresh : freshFor ls c call) : idsDistinct (call.run q ls c) := by
  cases call with
  | gallery d => exact gallery_step q ls c d hinv hfresh
  | notice category text => exact notice_step q ls c category text hinv hfresh
  | uniform gender category d => exact uniform_step q ls c gender category d hinv hfresh

theorem idsDistinct_empty_gallery :
    idsDistinct [(KEYS.GALLERY, StoredText.json (.arr []))] := by
  refine ⟨?_, ?_, ?_⟩
  · intro c xs h
    rw [gallery_getAll_of_stored _ c _ (getItem_cons_self _ _ _)] at h
    injection h with h
    subst h
    exact List.nodup_nil
  · intro kvs category xs hdoc hcat
    rw [notice_getAll_congr [(KEYS.GALLERY, StoredText.json (.arr []))] [] rfl] at hdoc
    exact idsDistinct_empty.2.1 kvs category xs hdoc hcat
  · intro kvs gender sub category xs hdoc hgen hcat
    rw [uniform_getAll_congr [(KEYS.GALLERY, StoredText.json (.arr []))] [] rfl] at hdoc
    exact idsDistinct_empty.2.2 kvs gender sub category xs hdoc hgen hcat

end AdminDataManager

open JS AdminDataManager in
/-- C10 (amended): starting from a storage whose gallery collection, notice
board lists and uniform shop lists each have pairwise distinct ids, the ids
are still pairwise distinct after any sequence of `Gallery.add`,
`NoticeBoard.addItem` and `UniformShop.addItem` calls in which every call is
made at a `Date.now()` reading that is not already an id of the list the call
appends to. -/
theorem c10_fresh_adds_keep_ids_distinct (q : Quota) (calls : List (Clock × AddCall))
    (ls : Storage) (hinv : idsDistinct ls) (hfresh : freshCalls q ls calls) :
    idsDistinct (runCalls q ls calls) := by
  induction calls generalizing ls with
  | nil => exact hinv
  | cons head rest ih =>
    obtain ⟨c, call⟩ := head
    exact ih (call.run q ls c) (call_step q ls c call hinv hfresh.1) hfresh.2

open JS AdminDataManager in
/-- Witness for C10: from the default documents, an image added at one clock
reading and a notice added one second later. -/
theorem c10_fresh_adds_keep_ids_distinct_witness :
    idsDistinct (runCalls Sample.quotaFree []
      [(Sample.clock, .gallery (some (.obj [("src", .str "b.jpg"), ("alt", .str "B")]))),
       (Sample.laterClock, .notice "news" (some (.str "Hello")))]) :=
  c10_fresh_adds_keep_ids_distinct Sample.quotaFree _ [] idsDistinct_empty (by
    refine ⟨?_, ?_, trivial⟩
    · intro c' xs h
      simp [Gallery.getAll, Gallery.getAllTry, localStorage.getItem, Gallery.getDefault,
        galleryImage] at h
      subst h
      simp [idsOf, itemId, getProp, List.lookup, Sample.clock]
    · intro kvs xs hdoc hcat
      rw [notice_getAll_congr (AddCall.run Sample.quotaFree [] Sample.clock
        (.gallery (some (.obj [("src", .str "b.jpg"), ("alt", .str "B")])))) [] rfl] at hdoc
      simp only [NoticeBoard.getAll, NoticeBoard.getAllTry, localStorage.getItem, List.lookup,
        NoticeBoard.getDefault] at hdoc
      injection hdoc with hdoc
      subst hdoc
      simp [List.lookup] at hcat
      subst hcat
      simp [idsOf, itemId, getProp, List.lookup, noticeItem, Sample.laterClock])

open JS AdminDataManager in
/-- C10 fails as stated: from an empty stored gallery (and default notice board
and uniform shop), two `Gallery.add` calls within the same millisecond leave a
gallery collection whose two images carry the same id. -/
theorem c10_same_millisecond_adds_collide :
    idsDistinct [(KEYS.GALLERY, StoredText.json (.arr []))] ∧
    ∃ xs, Gallery.getAll (runCalls Sample.quotaFree [(KEYS.GALLERY, StoredText.json (.arr []))]
        [(Sample.clock, .gallery (some (.obj [("src", .str "a.jpg"), ("alt", .str "A")]))),
         (Sample.clock, .gallery (some (.obj [("src", .str "b.jpg"), ("alt", .str "B")])))])
        Sample.clock = .arr xs ∧
      idsOf xs = [some (.num 1700000000000), some (.num 1700000000000)] ∧
      ¬ (idsOf xs).Nodup :=
  ⟨idsDistinct_empty_gallery,
   [.obj [("id", .num 1700000000000), ("src", .str "a.jpg"), ("alt", .str "A"),
      ("uploadDate", .str "11/14/2023, 10:13:20 PM")],
    .obj [("id", .num 1700000000000), ("src", .str "b.jpg"), ("alt", .str "B"),
      ("uploadDate", .str "11/14/2023, 10:13:20 PM")]],
   rfl, rfl, by simp [idsOf, itemId, getProp, List.lookup]⟩

namespace AdminDataManager
open JS

theorem idEquals_of_ne_null (id : Option JVal) (x : JVal) (hx : x ≠ JVal.null) :
    idEquals id x = .ok (strictEq (itemId x) id) := by
  obtain ⟨v, hv⟩ := getProp_ok_of_ne_null x "id" hx
  simp [idEquals, itemId, hv]

theorem findIndexE_found (id : Option JVal) (xs : List JVal) (hnn : ∀ x ∈ xs, x ≠ JVal.null)
    (i : Nat) (item : JVal) (hi : xs[i]? = some item) (hid : strictEq (itemId item) id = true)
    (hfirst : ∀ j y, j < i → xs[j]? = some y → strictEq (itemId y) id = false) :
    findIndexE (idEquals id) xs = .ok (some i) := by
  induction xs generalizing i with
  | nil => simp at hi
  | cons x xs ih =>
    have hx : x ≠ JVal.null := hnn x (List.mem_cons_self _ _)
    have hxs : ∀ y ∈ xs, y ≠ JVal.null := fun y hy => hnn y (List.mem_cons_of_mem _ hy)
    cases i with
    | zero =>
      simp only [List.getElem?_cons_zero, Option.some.injEq] at hi
      subst hi
      simp [findIndexE, idEquals_of_ne_null id x hx, hid]
    | succ i =>
      have h0 : strictEq (itemId x) id = false := hfirst 0 x (Nat.succ_pos _) (by simp)
      simp only [List.getElem?_cons_succ] at hi
      have := ih hxs i hi (fun j y hj hy => hfirst (j + 1) y (Nat.succ_lt_succ hj) (by simpa using hy))
      simp [findIndexE, idEquals_of_ne_null id x hx, h0, this]

theorem findIndexE_none (id : Option JVal) (xs : List JVal) (hnn : ∀ x ∈ xs, x ≠ JVal.null)
    (hno : ∀ x ∈ xs, strictEq (itemId x) id = false) :
    findIndexE (idEquals id) xs = .ok none := by
  induction xs with
  | nil => rfl
  | cons x xs ih =>
    have hx : x ≠ JVal.null := hnn x (List.mem_cons_self _ _)
    have h0 := hno x (List.mem_cons_self _ _)
    have := ih (fun y hy => hnn y (List.mem_cons_of_mem _ hy))
      (fun y hy => hno y (List.mem_cons_of_mem _ hy))
    simp [findIndexE, idEquals_of_ne_null id x hx, h0, this]

theorem lookup_foldl_setField (k : String) (l acc : List (String × JVal)) :
    (l.foldl (fun acc p => setField p.1 p.2 acc) acc).lookup k =
      match l.reverse.lookup k with
      | some v => some v
      | none => acc.lookup k := by
  induction l generalizing acc with
  | nil => simp
  | cons p l ih =>
    obtain ⟨a, b⟩ := p
    simp only [List.foldl_cons, List.reverse_cons]
    rw [ih, List.lookup_append]
    cases hl : l.reverse.lookup k with
    | some v => simp
    | none =>
      by_cases hk : k = a
      · subst hk
        simp [lookup_setField_same, List.lookup]
      · have : (k == a) = false := by simpa using hk
        simp [lookup_setField_other _ _ _ _ hk, List.lookup, this]

end AdminDataManager

open JS AdminDataManager in
/-- C11: in a uniform shop document whose addressed list holds items (none of
them `null`), when an item has the given id `UniformShop.updateItem` replaces
the first such item by the shallow merge `{...item, ...updates}`, leaves every
other position of the list as it was, and returns the result of saving that
document; when no item has the id it returns false and the storage is as
before.  In the merge of two objects a property of the patch wins and every
other property of the item is kept (the value of a property is its last
binding). -/
theorem c11_updateItem_merges_first_match (q : Quota) (ls : Storage) (gender category : String)
    (id updates : Option JVal) (kvs sub : List (String × JVal)) (xs : List JVal)
    (hget : UniformShop.getAll ls = .obj kvs) (hgen : kvs.lookup gender = some (.obj sub))
    (hcat : sub.lookup category = some (.arr xs)) (hnn : ∀ x ∈ xs, x ≠ JVal.null) :
    (∀ i item, xs[i]? = some item → strictEq (itemId item) id = true →
      (∀ j y, j < i → xs[j]? = some y → strictEq (itemId y) id = false) →
      UniformShop.updateItem q ls gender category id updates =
        UniformShop.save q ls (.obj (setField gender (.obj (setField category
          (.arr (xs.set i (spreadMerge (some item) updates))) sub)) kvs)) ∧
      (xs.set i (spreadMerge (some item) updates))[i]? = some (spreadMerge (some item) updates) ∧
      ∀ j, j ≠ i → (xs.set i (spreadMerge (some item) updates))[j]? = xs[j]?) ∧
    ((∀ x ∈ xs, strictEq (itemId x) id = false) →
      UniformShop.updateItem q ls gender category id updates = (false, ls)) ∧
    (∀ (item patch : List (String × JVal)) (k : String),
      ∃ m, spreadMerge (some (.obj item)) (some (.obj patch)) = .obj m ∧
        m.lookup k = match patch.reverse.lookup k with
          | some v => some v
          | none => item.reverse.lookup k) := by
  refine ⟨?_, ?_, ?_⟩
  · intro i item hi hid hfirst
    refine ⟨?_, ?_, ?_⟩
    · simp only [UniformShop.updateItem, UniformShop.updateItemTry, hget, getProp, hgen, hcat,
        arrayFindIndex, findIndexE_found id xs hnn i item hi hid hfirst, getIndex, hi,
        setNested, setProp, setAt]
    · have hlt : i < xs.length := by
        rcases Nat.lt_or_ge i xs.length with h | h
        · exact h
        · rw [List.getElem?_eq_none h] at hi; cases hi
      simp [hlt]
    · intro j hj
      exact List.getElem?_set_ne (Ne.symm hj)
  · intro hno
    simp only [UniformShop.updateItem, UniformShop.updateItemTry, hget, getProp, hgen, hcat,
      arrayFindIndex, findIndexE_none id xs hnn hno]
  · intro item patch k
    refine ⟨_, rfl, ?_⟩
    simp only [ownEntries]
    rw [lookup_foldl_setField, lookup_foldl_setField]
    cases patch.reverse.lookup k <;> cases item.reverse.lookup k <;> simp [List.lookup]

open JS AdminDataManager in
/-- Witness for C11: raising the price of item 2 of a stored boys' summer list
of two items; the name is kept, the price is the patch's, item 1 is untouched
and the call returns the result of the save. -/
theorem c11_updateItem_merges_first_match_witness :
    UniformShop.updateItem Sample.quotaFree
        [(KEYS.UNIFORM_SHOP, .json (.obj [("boys", .obj [("summer", .arr [
          uniformItem 1 "Navy blue shorts" 150,
          uniformItem 2 "White short-sleeve shirt" 120])])]))]
        "boys" "summer" (some (.num 2)) (some (.obj [("price", .num 135)])) =
      UniformShop.save Sample.quotaFree
        [(KEYS.UNIFORM_SHOP, .json (.obj [("boys", .obj [("summer", .arr [
          uniformItem 1 "Navy blue shorts" 150,
          uniformItem 2 "White short-sleeve shirt" 120])])]))]
        (.obj [("boys", .obj [("summer", .arr [
          uniformItem 1 "Navy blue shorts" 150,
          uniformItem 2 "White short-sleeve shirt" 135])])]) :=
  ((c11_updateItem_merges_first_match Sample.quotaFree
    [(KEYS.UNIFORM_SHOP, .json (.obj [("boys", .obj [("summer", .arr [
      uniformItem 1 "Navy blue shorts" 150, uniformItem 2 "White short-sleeve shirt" 120])])]))]
    "boys" "summer" (some (.num 2)) (some (.obj [("price", .num 135)]))
    [("boys", .obj [("summer", .arr [
      uniformItem 1 "Navy blue shorts" 150, uniformItem 2 "White short-sleeve shirt" 120])])]
    [("summer", .arr [uniformItem 1 "Navy blue shorts" 150,
      uniformItem 2 "White short-sleeve shirt" 120])]
    [uniformItem 1 "Navy blue shorts" 150, uniformItem 2 "White short-sleeve shirt" 120]
    rfl rfl rfl
    (by intro x hx; simp [uniformItem] at hx; rcases hx with h | h <;> simp [h])).1
    1 (uniformItem 2 "White short-sleeve shirt" 120) rfl rfl
    (by
      intro j y hj hy
      have hj0 : j = 0 := by omega
      subst hj0
      simp at hy
      subst hy
      rfl)).1

namespace FormValidationManager
open JS

theorem ruleError_of_ruleObjOf (pg : Page) (c : Clock) (fieldName value rule : String)
    (o : RuleObj) (h : ruleObjOf pg c rule = some o) :
    ruleError pg c fieldName value rule =
      .ok (if o.test value then none else some (messageFor pg fieldName rule o)) := by
  unfold ruleObjOf at h
  unfold ruleError
  split at h
  · rename_i ruleObj hres
    injection h with h
    subst h
    rw [hres]
    cases ht : ruleObj.test value <;> simp [ht]
  · cases h

theorem configured_resolves (pg : Page) (c : Clock) (rule : String)
    (h : rule ∈ configuredRules) : ∃ o, ruleObjOf pg c rule = some o := by
  have hall : configuredRules.all (fun r => (ruleObjOf pg c r).isSome) = true := rfl
  have := List.all_eq_true.mp hall rule h
  exact Option.isSome_iff_exists.mp this

end FormValidationManager

namespace FormValidationManager
open JS

theorem collectErrors_resolved (pg : Page) (c : Clock) (fieldName value : String)
    (rules : List String) (h : ∀ r ∈ rules, ∃ o, ruleObjOf pg c r = some o) :
    collectErrors pg c fieldName value rules =
      .ok (rules.filterMap (rejectionMessage pg c fieldName value)) := by
  induction rules with
  | nil => rfl
  | cons r rest ih =>
    obtain ⟨o, ho⟩ := h r (List.mem_cons_self _ _)
    have hrest := ih (fun r' hr' => h r' (List.mem_cons_of_mem _ hr'))
    simp only [collectErrors, ruleError_of_ruleObjOf pg c fieldName value r o ho, hrest,
      List.filterMap_cons, rejectionMessage, ho]
    cases o.test value <;> simp

theorem rejectionMessage_none_iff (pg : Page) (c : Clock) (fieldName value rule : String) :
    rejectionMessage pg c fieldName value rule = none ↔ rejects pg c value rule = false := by
  unfold rejectionMessage rejects
  cases ruleObjOf pg c rule with
  | none => simp
  | some o => cases o.test value <;> simp

theorem filterMap_none (pg : Page) (c : Clock) (fieldName value : String) (rules : List String)
    (h : ∀ r ∈ rules, rejects pg c value r = false) :
    rules.filterMap (rejectionMessage pg c fieldName value) = [] := by
  rw [List.filterMap_eq_nil_iff]
  intro r hr
  exact (rejectionMessage_none_iff pg c fieldName value r).mpr (h r hr)

theorem validateField_resolved (pg : Page) (c : Clock) (value fieldName : String)
    (rules : List String) (h : ∀ r ∈ rules, ∃ o, ruleObjOf pg c r = some o) :
    validateField pg c value fieldName rules =
      .ok (match rules.filterMap (rejectionMessage pg c fieldName value) with
        | [] => { valid := true, shown := none }
        | first :: _ => { valid := false, shown := some first }) := by
  unfold validateField
  rw [collectErrors_resolved pg c fieldName value rules h]
  cases rules.filterMap (rejectionMessage pg c fieldName value) <;> rfl

theorem validateField_first_rejection (pg : Page) (c : Clock) (value fieldName : String)
    (rules pre post : List String) (r : String) (o : RuleObj)
    (h : ∀ r ∈ rules, ∃ o, ruleObjOf pg c r = some o) (hsplit : rules = pre ++ r :: post)
    (hpre : ∀ r' ∈ pre, rejects pg c value r' = false) (ho : ruleObjOf pg c r = some o)
    (htest : o.test value = false) :
    validateField pg c value fieldName rules =
      .ok { valid := false, shown := some (messageFor pg fieldName r o) } := by
  rw [validateField_resolved pg c value fieldName rules h, hsplit, List.filterMap_append,
    filterMap_none pg c fieldName value pre hpre]
  simp [List.filterMap_cons, rejectionMessage, ho, htest]

theorem validateField_valid_flag (pg : Page) (c : Clock) (value fieldName : String)
    (rules : List String) (h : ∀ r ∈ rules, ∃ o, ruleObjOf pg c r = some o) :
    ∃ res, validateField pg c value fieldName rules = .ok res ∧
      res.valid = rules.all (fun r => !rejects pg c value r) := by
  rw [validateField_resolved pg c value fieldName rules h]
  refine ⟨_, rfl, ?_⟩
  cases hl : rules.filterMap (rejectionMessage pg c fieldName value) with
  | nil =>
    simp only
    symm
    rw [List.all_eq_true]
    intro r hr
    have := (List.filterMap_eq_nil_iff.mp hl) r hr
    simp [(rejectionMessage_none_iff pg c fieldName value r).mp this]
  | cons m ms =>
    simp only
    symm
    rw [Bool.eq_false_iff]
    intro hall
    rw [List.all_eq_true] at hall
    have : rules.filterMap (rejectionMessage pg c fieldName value) = [] :=
      filterMap_none pg c fieldName value rules (fun r hr => by simpa using hall r hr)
    rw [this] at hl
    cases hl

end FormValidationManager

open JS FormValidationManager in
/-- C1: for every field value and every ordered list of rule names taken from
the form configurations, `validateField` returns a result (no exception), and
that result is false exactly when at least one rule of the list rejects the
value; when no rule rejects it returns true and shows no error; when some rule
rejects, the one message it shows is the message of the first rejecting rule
in list order, which is the value of `customMessage || ruleObj.message` for
that rule. -/
theorem c1_validateField_reports_first_failure (pg : Page) (c : Clock)
    (value fieldName : String) (rules : List String)
    (hconf : ∀ r ∈ rules, r ∈ configuredRules) :
    (∃ res, validateField pg c value fieldName rules = .ok res ∧
      (res.valid = false ↔ ∃ r ∈ rules, rejects pg c value r = true)) ∧
    ((∀ r ∈ rules, rejects pg c value r = false) →
      validateField pg c value fieldName rules = .ok { valid := true, shown := none }) ∧
    (∀ pre r post o, rules = pre ++ r :: post →
      (∀ r' ∈ pre, rejects pg c value r' = false) →
      ruleObjOf pg c r = some o → o.test value = false →
      validateField pg c value fieldName rules =
        .ok { valid := false, shown := some (messageFor pg fieldName r o) }) := by
  have h : ∀ r ∈ rules, ∃ o, ruleObjOf pg c r = some o :=
    fun r hr => configured_resolves pg c r (hconf r hr)
  refine ⟨?_, ?_, ?_⟩
  · obtain ⟨res, hres, hflag⟩ := validateField_valid_flag pg c value fieldName rules h
    refine ⟨res, hres, ?_⟩
    rw [hflag]
    constructor
    · intro hall
      by_contra hne
      have : rules.all (fun r => !rejects pg c value r) = true := by
        rw [List.all_eq_true]
        intro r hr
        cases hrej : rejects pg c value r with
        | false => rfl
        | true => exact absurd ⟨r, hr, hrej⟩ hne
      rw [this] at hall
      cases hall
    · rintro ⟨r, hr, hrej⟩
      rw [Bool.eq_false_iff]
      intro hall
      have := List.all_eq_true.mp hall r hr
      simp [hrej] at this
  · intro hnone
    rw [validateField_resolved pg c value fieldName rules h,
      filterMap_none pg c fieldName value rules hnone]
  · intro pre r post o hsplit hpre ho htest
    exact validateField_first_rejection pg c value fieldName rules pre post r o h hsplit hpre
      ho htest

open JS FormValidationManager in
/-- Witness for C1: the empty value under the rules of `fullName` is rejected
by `required`, the first rule, and its message is the one shown. -/
theorem c1_validateField_reports_first_failure_witness :
    validateField Sample.page Sample.clock "" "fullName"
        ["required", "name", "minLength:2", "maxLength:100"] =
      .ok { valid := false, shown := some "Student's full name is required" } :=
  (c1_validateField_reports_first_failure Sample.page Sample.clock "" "fullName"
    ["required", "name", "minLength:2", "maxLength:100"] (by decide)).2.2
    [] "required" ["name", "minLength:2", "maxLength:100"] requiredRule rfl
    (fun _ h => absurd h (List.not_mem_nil _)) rfl rfl

namespace FormValidationManager
open JS

theorem mem_of_lookup_eq_some {β : Type} (l : List (String × β)) (k : String) (v : β)
    (h : l.lookup k = some v) : (k, v) ∈ l := by
  induction l with
  | nil => cases h
  | cons p rest ih =>
    obtain ⟨a, b⟩ := p
    by_cases hk : k = a
    · subst hk
      simp [List.lookup] at h
      subst h
      exact List.mem_cons_self _ _
    · have : (k == a) = false := by simpa using hk
      simp only [List.lookup, this] at h
      exact List.mem_cons_of_mem _ (ih h)

theorem definedMessage_nonempty (fieldName rule m : String)
    (h : definedMessage fieldName rule = some m) : m ≠ "" := by
  have hall : initializeErrorMessages.all (fun p => p.2.all (fun e => e.2 != "")) = true := by
    decide
  unfold definedMessage at h
  split at h
  · rename_i messages hm
    have h1 := List.all_eq_true.mp hall _ (mem_of_lookup_eq_some _ _ _ hm)
    have h2 := List.all_eq_true.mp h1 _ (mem_of_lookup_eq_some _ _ _ h)
    simpa using h2
  · cases h

theorem customMessage_defined (pg : Page) (fieldName rule m : String)
    (h : definedMessage fieldName rule = some m) : customMessage pg fieldName rule = some m := by
  have hne := definedMessage_nonempty fieldName rule m h
  unfold definedMessage at h
  unfold customMessage
  split at h
  · rename_i messages hm
    simp [hm, h, hne]
  · cases h

theorem customMessage_undefined (pg : Page) (fieldName rule : String)
    (h : definedMessage fieldName rule = none) (hfield : pg.inherited fieldName = none)
    (hrule : pg.inherited rule = none) : customMessage pg fieldName rule = none := by
  unfold definedMessage at h
  unfold customMessage
  split at h
  · rename_i messages hm
    simp [hm, h, hrule]
  · rename_i hm
    simp [hm, hfield]

theorem messageFor_custom (pg : Page) (fieldName rule m : String) (o : RuleObj)
    (h : definedMessage fieldName rule = some m) : messageFor pg fieldName rule o = m := by
  simp [messageFor, customMessage_defined pg fieldName rule m h]

theorem messageFor_default (pg : Page) (fieldName rule : String) (o : RuleObj)
    (h : definedMessage fieldName rule = none) (hfield : pg.inherited fieldName = none)
    (hrule : pg.inherited rule = none) : messageFor pg fieldName rule o = o.message := by
  simp [messageFor, customMessage_undefined pg fieldName rule h hfield hrule]

/-- Off the prototype chain the custom message takes precedence: when a rule is
the first of a configured rule list to reject the value, `validateField` shows
the message the table defines for the field name and the rule; when the table
defines none, and objects inherit no property under the field name or the
rule, it shows the rule's default message. -/
theorem custom_message_precedence_off_prototype (pg : Page) (c : Clock)
    (value fieldName : String) (rules pre post : List String) (r : String) (o : RuleObj)
    (hconf : ∀ r ∈ rules, r ∈ configuredRules) (hsplit : rules = pre ++ r :: post)
    (hpre : ∀ r' ∈ pre, rejects pg c value r' = false) (ho : ruleObjOf pg c r = some o)
    (htest : o.test value = false) :
    (∀ m, definedMessage fieldName r = some m →
      validateField pg c value fieldName rules = .ok { valid := false, shown := some m }) ∧
    (definedMessage fieldName r = none → pg.inherited fieldName = none →
      pg.inherited r = none →
      validateField pg c value fieldName rules =
        .ok { valid := false, shown := some o.message }) := by
  have h := validateField_first_rejection pg c value fieldName rules pre post r o
    (fun r hr => configured_resolves pg c r (hconf r hr)) hsplit hpre ho htest
  constructor
  · intro m hm
    rw [h, messageFor_custom pg fieldName r m o hm]
  · intro hm hfield hrule
    rw [h, messageFor_default pg fieldName r o hm hfield hrule]

end FormValidationManager

open JS FormValidationManager in
/-- C13, evaluated at the failing input: the table of custom messages has no
entry for a field named `constructor`, yet when the rule `name` rejects the
value "1" of that field, `validateField` shows "Object", the name of the
function every object inherits under `constructor`, and not the default
message of the rule. -/
theorem c13_inherited_field_name_overrides_default :
    definedMessage "constructor" "name" = none ∧
    validateField Sample.page Sample.clock "1" "constructor" ["name"] =
      .ok { valid := false, shown := some "Object" } ∧
    nameRule.message =
      "Please enter a valid name (letters, spaces, hyphens, and apostrophes only)" :=
  ⟨rfl, rfl, rfl⟩

namespace FormValidationManager
open JS

theorem log_preserves (q : Quota) (pg : Page) (c : Clock) (st : AppState) (formType : String)
    (results : List (String × Bool)) (isValid : Bool) :
    (logValidationAttempt q pg c st formType results isValid).2.dataStorage.admissions =
        st.dataStorage.admissions ∧
    (logValidationAttempt q pg c st formType results isValid).2.dataStorage.enquiries =
        st.dataStorage.enquiries ∧
    (logValidationAttempt q pg c st formType results isValid).2.dataStorage.volunteers =
        st.dataStorage.volunteers ∧
    (logValidationAttempt q pg c st formType results isValid).2.dataStorage.sponsors =
        st.dataStorage.sponsors ∧
    ∀ k, k ≠ "validationLogs" →
      localStorage.getItem (logValidationAttempt q pg c st formType results isValid).2.localStorage
        k = localStorage.getItem st.localStorage k := by
  unfold logValidationAttempt
  simp only
  split
  · split
    · rename_i ls' hset
      refine ⟨rfl, rfl, rfl, rfl, ?_⟩
      intro k hk
      exact getItem_setItem_other q _ _ _ _ _ hset hk
    · exact ⟨rfl, rfl, rfl, rfl, fun _ _ => rfl⟩
  · exact ⟨rfl, rfl, rfl, rfl, fun _ _ => rfl⟩

theorem validateFields_mem (pg : Page) (c : Clock) (form : Form)
    (fields : List (String × List String)) (rs : List (String × Bool))
    (h : validateFields pg c form fields = .ok rs) (fieldName : String) (rules : List String)
    (field : Control) (hmem : (fieldName, rules) ∈ fields)
    (hfield : form.querySelector fieldName = some field) :
    ∃ r, validateField pg c field.value fieldName rules = .ok r ∧ (fieldName, r.valid) ∈ rs := by
  induction fields generalizing rs with
  | nil => cases hmem
  | cons head rest ih =>
    obtain ⟨name, rules'⟩ := head
    unfold validateFields at h
    split at h
    · rename_i hq
      rcases List.mem_cons.mp hmem with heq | hrest
      · injection heq with h1 h2
        subst h1
        rw [hfield] at hq
        cases hq
      · exact ih rs h hrest
    · rename_i field' hq
      split at h
      · cases h
      · rename_i r hr
        split at h
        · cases h
        · rename_i rs' hrs'
          injection h with h
          subst h
          rcases List.mem_cons.mp hmem with heq | hrest
          · injection heq with h1 h2
            subst h1 h2
            rw [hfield] at hq
            injection hq with hq
            subst hq
            exact ⟨r, hr, List.mem_cons_self _ _⟩
          · obtain ⟨r2, hr2, hm2⟩ := ih rs' hrs' hrest
            exact ⟨r2, hr2, List.mem_cons_of_mem _ hm2⟩

end FormValidationManager

open JS FormValidationManager in
/-- C2: whenever a configured field of the form fails validation, the call of
`handleFormSubmission` leaves the admissions, enquiries, volunteers and
sponsors collections in memory as they were, and every storage entry other
than the validation log (so the four stored collections) as it was: no record
is persisted. -/
theorem c2_invalid_form_persists_nothing (q : Quota) (pg : Page) (c : Clock) (st : AppState)
    (form : Form) (config : FormConfig) (fieldName : String) (rules : List String)
    (field : Control) (hmem : (fieldName, rules) ∈ config.fields)
    (hfield : form.querySelector fieldName = some field)
    (hfail : ∀ r, validateField pg c field.value fieldName rules = .ok r → r.valid = false) :
    (handleFormSubmission q pg c st form config).state.dataStorage.admissions =
        st.dataStorage.admissions ∧
    (handleFormSubmission q pg c st form config).state.dataStorage.enquiries =
        st.dataStorage.enquiries ∧
    (handleFormSubmission q pg c st form config).state.dataStorage.volunteers =
        st.dataStorage.volunteers ∧
    (handleFormSubmission q pg c st form config).state.dataStorage.sponsors =
        st.dataStorage.sponsors ∧
    (∀ k, k ≠ "validationLogs" →
      localStorage.getItem (handleFormSubmission q pg c st form config).state.localStorage k =
        localStorage.getItem st.localStorage k) ∧
    (handleFormSubmission q pg c st form config).banner ≠
      some ("success", config.successMessage) := by
  unfold handleFormSubmission
  simp only
  cases hv : validateFields pg c form config.fields with
  | error e => exact ⟨rfl, rfl, rfl, rfl, fun _ _ => rfl, by simp⟩
  | ok rs =>
    obtain ⟨r, hr, hm⟩ := validateFields_mem pg c form config.fields rs hv fieldName rules field
      hmem hfield
    have hinvalid : rs.all (fun r => r.2) = false := by
      rw [Bool.eq_false_iff]
      intro hall
      have := List.all_eq_true.mp hall _ hm
      simp [hfail r hr] at this
    have hlog := log_preserves q pg c st config.name rs false
    simp only [hinvalid]
    cases hl : logValidationAttempt q pg c st config.name rs false with
    | mk e st1 =>
      rw [hl] at hlog
      cases e with
      | some e => exact ⟨hlog.1, hlog.2.1, hlog.2.2.1, hlog.2.2.2.1, hlog.2.2.2.2, by simp⟩
      | none =>
        refine ⟨hlog.1, hlog.2.1, hlog.2.2.1, hlog.2.2.2.1, hlog.2.2.2.2, ?_⟩
        simp

open JS FormValidationManager in
/-- Witness for C2: the admission form with `fullName = ""` on a first visit;
the field fails on `required`, nothing is stored under `admissionApplications`
and the admissions collection in memory stays empty. -/
theorem c2_invalid_form_persists_nothing_witness :
    validateField Sample.page Sample.clock "" "fullName"
        ["required", "name", "minLength:2", "maxLength:100"] =
      .ok { valid := false, shown := some "Student's full name is required" } ∧
    (handleFormSubmission Sample.quotaFree Sample.page Sample.clock Sample.emptyState
        Sample.blankNameForm admissionConfig).state.dataStorage.admissions = .arr [] ∧
    localStorage.getItem (handleFormSubmission Sample.quotaFree Sample.page Sample.clock
        Sample.emptyState Sample.blankNameForm admissionConfig).state.localStorage
        "admissionApplications" = none :=
  have h := c2_invalid_form_persists_nothing Sample.quotaFree Sample.page Sample.clock
    Sample.emptyState Sample.blankNameForm admissionConfig "fullName"
    ["required", "name", "minLength:2", "maxLength:100"]
    { name := "fullName", id := "fullName", value := "" } (by decide) rfl
    (by
      intro r hr
      have hv : validateField Sample.page Sample.clock "" "fullName"
          ["required", "name", "minLength:2", "maxLength:100"] =
          .ok { valid := false, shown := some "Student's full name is required" } := rfl
      rw [hv] at hr
      injection hr with hr
      rw [← hr])
  ⟨rfl, h.1, h.2.2.2.2.1 "admissionApplications" (by decide)⟩

namespace FormValidationManager
open JS

theorem admission_success (q : Quota) (pg : Page) (c : Clock) (st : AppState) (form : Form)
    (rs : List (String × Bool)) (logs items : List JVal)
    (hvalid : validateFields pg c form admissionConfig.fields = .ok rs)
    (hall : rs.all (fun r => r.2) = true)
    (hlogs : st.dataStorage.validationLogs = .arr logs)
    (hadm : st.dataStorage.admissions = .arr items)
    (hq : ∀ ls k t, q ls k t = true) :
    (handleFormSubmission q pg c st form admissionConfig).thrown = none ∧
    (handleFormSubmission q pg c st form admissionConfig).banner =
      some ("success", admissionConfig.successMessage) ∧
    (handleFormSubmission q pg c st form admissionConfig).state.dataStorage.admissions =
      .arr (items ++ [admissionRecord pg c form]) ∧
    (handleFormSubmission q pg c st form admissionConfig).state.localStorage =
      ("admissionApplications", JSON.stringify (.arr (items ++ [admissionRecord pg c form]))) ::
        (logValidationAttempt q pg c st "admission" rs true).2.localStorage.filter
          (fun p => p.1 != "admissionApplications") := by
  have hlog : (logValidationAttempt q pg c st "admission" rs true).1 = none ∧
      (logValidationAttempt q pg c st "admission" rs true).2.dataStorage.admissions =
        .arr items := by
    unfold logValidationAttempt
    simp only [hlogs, localStorage.setItem, hq, if_true]
    exact ⟨trivial, hadm⟩
  unfold handleFormSubmission
  cases hl : logValidationAttempt q pg c st "admission" rs true with
  | mk e st1 =>
    rw [hl] at hlog
    obtain ⟨he, hadm1⟩ := hlog
    simp only at he hadm1
    subst he
    simp only [hvalid, hall, show admissionConfig.name = "admission" from rfl, hl, if_true,
      show admissionConfig.submitHandler = SubmitHandler.admission from rfl, runSubmitHandler,
      handleAdmissionSubmission, storeSubmission, hadm1, localStorage.setItem, hq,
      admissionRecord, submittedData]
    exact ⟨trivial, trivial, trivial, trivial⟩

end FormValidationManager

open JS FormValidationManager in
/-- C3 (amended): for every admission form whose configured fields all pass
validation, when the validation log and the admissions collection in memory
are arrays, the admissions collection in memory mirrors the stored one, and
the storage accepts the writes, `handleFormSubmission` completes with the
success banner and persists exactly one new record: the stored
`admissionApplications` collection is the earlier one followed by one new
element, the collection in memory likewise, and the new record has status
`pending` and carries every submitted field value (every property of the form
data other than the five stamped ones). -/
theorem c3_valid_admission_persists_one_record (q : Quota) (pg : Page) (c : Clock)
    (st : AppState) (form : Form) (rs : List (String × Bool)) (logs items : List JVal)
    (hvalid : validateFields pg c form admissionConfig.fields = .ok rs)
    (hall : rs.all (fun r => r.2) = true)
    (hlogs : st.dataStorage.validationLogs = .arr logs)
    (hadm : st.dataStorage.admissions = .arr items)
    (hsync : JSON.parse (storedOrEmpty st.localStorage "admissionApplications") =
      .ok (.arr items))
    (hq : ∀ ls k t, q ls k t = true) :
    (handleFormSubmission q pg c st form admissionConfig).thrown = none ∧
    (handleFormSubmission q pg c st form admissionConfig).banner =
      some ("success", admissionConfig.successMessage) ∧
    (JSON.parse (storedOrEmpty st.localStorage "admissionApplications") = .ok (.arr items) ∧
      JSON.parse (storedOrEmpty
        (handleFormSubmission q pg c st form admissionConfig).state.localStorage
        "admissionApplications") = .ok (.arr (items ++ [admissionRecord pg c form]))) ∧
    (handleFormSubmission q pg c st form admissionConfig).state.dataStorage.admissions =
      .arr (items ++ [admissionRecord pg c form]) ∧
    getProp (some (admissionRecord pg c form)) "status" = .ok (some (.str "pending")) ∧
    (∀ k, k ∉ stampedKeys →
      getProp (some (admissionRecord pg c form)) k = .ok (form.data.lookup k)) := by
  obtain ⟨h1, h2, h3, h4⟩ := admission_success q pg c st form rs logs items hvalid hall hlogs
    hadm hq
  refine ⟨h1, h2, ⟨hsync, ?_⟩, h3, ?_, ?_⟩
  · rw [h4]
    simp [storedOrEmpty, localStorage.getItem, List.lookup, JSON.stringify, StoredText.truthy,
      JSON.parse]
  · simp only [admissionRecord, getProp]
    rw [lookup_setField_other _ _ _ _ (by decide), lookup_setField_same]
  · intro k hk
    simp only [stampedKeys, List.mem_cons, List.mem_nil_iff, or_false, not_or] at hk
    obtain ⟨k1, k2, k3, k4, k5⟩ := hk
    simp only [admissionRecord, submittedData, getProp]
    rw [lookup_setField_other _ _ _ _ k5, lookup_setField_other _ _ _ _ k4,
      lookup_setField_other _ _ _ _ k3, lookup_setField_other _ _ _ _ k2,
      lookup_setField_other _ _ _ _ k1]

open JS FormValidationManager in
/-- Witness for C3: the completely filled admission form on a first visit with
a storage that accepts every write; one record is stored. -/
theorem c3_valid_admission_persists_one_record_witness :
    JSON.parse (storedOrEmpty (handleFormSubmission Sample.quotaFree Sample.page Sample.clock
        Sample.emptyState Sample.validForm admissionConfig).state.localStorage
        "admissionApplications") =
      .ok (.arr [admissionRecord Sample.page Sample.clock Sample.validForm]) ∧
    getProp (some (admissionRecord Sample.page Sample.clock Sample.validForm)) "fullName" =
      .ok (some (.str "Thandi Mokoena")) :=
  have h := c3_valid_admission_persists_one_record Sample.quotaFree Sample.page Sample.clock
    Sample.emptyState Sample.validForm
    [("fullName", true), ("dob", true), ("previousSchool", true), ("parentName", true),
     ("contactNumber", true), ("email", true), ("gradeApplying", true),
     ("additionalInfo", true)] [] [] rfl rfl rfl rfl rfl (fun _ _ _ => rfl)
  ⟨h.2.2.1.2, h.2.2.2.2.2 "fullName" (by decide)⟩

open JS FormValidationManager in
/-- C3 fails as stated: the completely filled admission form passes every
configured rule, yet when the storage refuses the write of the admissions
collection `handleFormSubmission` shows the error banner and the stored
`admissionApplications` collection is as empty as before. -/
theorem c3_refused_write_persists_nothing :
    validateFields Sample.page Sample.clock Sample.validForm admissionConfig.fields =
      .ok [("fullName", true), ("dob", true), ("previousSchool", true), ("parentName", true),
        ("contactNumber", true), ("email", true), ("gradeApplying", true),
        ("additionalInfo", true)] ∧
    JSON.parse (storedOrEmpty Sample.emptyState.localStorage "admissionApplications") =
      .ok (.arr []) ∧
    JSON.parse (storedOrEmpty (handleFormSubmission Sample.quotaNoAdmissions Sample.page
        Sample.clock Sample.emptyState Sample.validForm admissionConfig).state.localStorage
        "admissionApplications") = .ok (.arr []) ∧
    (handleFormSubmission Sample.quotaNoAdmissions Sample.page Sample.clock Sample.emptyState
        Sample.validForm admissionConfig).banner =
      some ("error", "An error occurred while submitting the form. Please try again.") :=
  ⟨rfl, rfl, rfl, rfl⟩

open JS FormValidationManager in
/-- C7, evaluated at the failing input: with the text `not json` stored under
`admissionApplications`, `initializeDataStorage` ends with the `SyntaxError` of
`JSON.parse` instead of an empty collection, and likewise for the key
`validationLogs`; the guarded sibling `AJAXFormManager.getStoredSubmissions`
returns its default on the same text. -/
theorem c7_unguarded_read_throws :
    initializeDataStorage [("admissionApplications", .malformed "not json")] =
      .error .SyntaxError ∧
    initializeDataStorage [("validationLogs", .malformed "not json")] =
      .error .SyntaxError ∧
    AJAXFormManager.getStoredSubmissions
      [(AJAXFormManager.storageKey, .malformed "not json")] = .obj [] :=
  ⟨rfl, rfl, rfl⟩

open JS FormValidationManager in
theorem initializeDataStorage_throws (ls : Storage) (s : String)
    (h : localStorage.getItem ls "admissionApplications" = some (.malformed s)) (hs : s ≠ "") :
    initializeDataStorage ls = .error .SyntaxError := by
  simp [initializeDataStorage, storedOrEmpty, h, StoredText.truthy, hs, JSON.parse]

open JS FormValidationManager in
/-- C12, evaluated at the failing input: a draft of the completely filled
admission form is written by `autoSaveFormData`; after `handleFormSubmission`
has succeeded for that form the draft entry is still in storage, unchanged. -/
theorem c12_draft_survives_successful_submission :
    autoSaveFormData Sample.quotaFree Sample.clock [] Sample.validForm =
      .ok [("autoSave-submit_admission.html", JSON.stringify (.obj [
        ("data", .obj Sample.validForm.data), ("timestamp", .str Sample.clock.iso)]))] ∧
    (handleFormSubmission Sample.quotaFree Sample.page Sample.laterClock
        { Sample.emptyState with
          localStorage := [("autoSave-submit_admission.html", JSON.stringify (.obj [
            ("data", .obj Sample.validForm.data), ("timestamp", .str Sample.clock.iso)]))] }
        Sample.validForm admissionConfig).banner =
      some ("success", admissionConfig.successMessage) ∧
    localStorage.getItem (handleFormSubmission Sample.quotaFree Sample.page Sample.laterClock
        { Sample.emptyState with
          localStorage := [("autoSave-submit_admission.html", JSON.stringify (.obj [
            ("data", .obj Sample.validForm.data), ("timestamp", .str Sample.clock.iso)]))] }
        Sample.validForm admissionConfig).state.localStorage
        (autoSaveKey Sample.validForm) =
      some (JSON.stringify (.obj [
        ("data", .obj Sample.validForm.data), ("timestamp", .str Sample.clock.iso)])) :=
  ⟨rfl, rfl, rfl⟩

open JS FormValidationManager in
/-- C18: after a call of `logValidationAttempt` on a validation log that is an
array, the log in memory holds at most 100 entries, its last element is the
entry just logged, and it is the longest suffix of at most 100 entries of the
earlier log followed by the new entry (the most recent entries, in their
order); when the storage accepts the write the stored log is the same array. -/
theorem c18_validation_log_capped (q : Quota) (pg : Page) (c : Clock) (st : AppState)
    (formType : String) (results : List (String × Bool)) (isValid : Bool) (logs : List JVal)
    (hlogs : st.dataStorage.validationLogs = .arr logs) :
    ∃ kept, (logValidationAttempt q pg c st formType results isValid).2.dataStorage.validationLogs
        = .arr kept ∧
      kept.length ≤ 100 ∧
      kept.getLast? = some (logEntryOf pg c formType results isValid) ∧
      kept <:+ logs ++ [logEntryOf pg c formType results isValid] ∧
      kept.length = min 100 (logs.length + 1) ∧
      ((logValidationAttempt q pg c st formType results isValid).1 = none →
        localStorage.getItem
          (logValidationAttempt q pg c st formType results isValid).2.localStorage
          "validationLogs" = some (JSON.stringify (.arr kept))) := by
  have hkept : ∀ kept, kept = (if (logs ++ [logEntryOf pg c formType results isValid]).length > 100
        then sliceLast 100 (logs ++ [logEntryOf pg c formType results isValid])
        else logs ++ [logEntryOf pg c formType results isValid]) →
      kept.length ≤ 100 ∧ kept.getLast? = some (logEntryOf pg c formType results isValid) ∧
      kept <:+ logs ++ [logEntryOf pg c formType results isValid] ∧
      kept.length = min 100 (logs.length + 1) := by
    intro kept hk
    subst hk
    split
    · rename_i hgt
      simp only [List.length_append, List.length_singleton] at hgt
      refine ⟨?_, ?_, List.drop_suffix _ _, ?_⟩
      · simp [sliceLast]; omega
      · simp only [sliceLast, List.getLast?_drop, List.length_append, List.length_singleton]
        rw [if_neg (by omega)]
        simp
      · simp [sliceLast]; omega
    · rename_i hle
      simp only [List.length_append, List.length_singleton] at hle
      refine ⟨?_, ?_, List.suffix_refl _, ?_⟩
      · simp; omega
      · simp
      · simp; omega
  unfold logValidationAttempt
  simp only [hlogs]
  split
  · rename_i ls' hset
    refine ⟨_, rfl, ?_⟩
    obtain ⟨h1, h2, h3, h4⟩ := hkept _ rfl
    exact ⟨h1, h2, h3, h4, fun _ => getItem_setItem_same q _ _ _ _ hset⟩
  · refine ⟨_, rfl, ?_⟩
    obtain ⟨h1, h2, h3, h4⟩ := hkept _ rfl
    exact ⟨h1, h2, h3, h4, fun h => by simp at h⟩

open JS FormValidationManager in
/-- Witness for C18: logging onto a log that already holds 100 entries. -/
theorem c18_validation_log_capped_witness :
    ∃ kept, (logValidationAttempt Sample.quotaFree Sample.page Sample.clock
        { Sample.emptyState with
          dataStorage := { Sample.emptyState.dataStorage with
            validationLogs := .arr (List.replicate 100 .null) } }
        "admission" [("fullName", false)] false).2.dataStorage.validationLogs = .arr kept ∧
      kept.length ≤ 100 ∧
      kept.getLast? = some (logEntryOf Sample.page Sample.clock "admission"
        [("fullName", false)] false) ∧
      kept <:+ List.replicate 100 .null ++ [logEntryOf Sample.page Sample.clock "admission"
        [("fullName", false)] false] ∧
      kept.length = min 100 (100 + 1) :=
  have ⟨kept, h1, h2, h3, h4, h5, _⟩ := c18_validation_log_capped Sample.quotaFree Sample.page
    Sample.clock
    { Sample.emptyState with
      dataStorage := { Sample.emptyState.dataStorage with
        validationLogs := .arr (List.replicate 100 .null) } }
    "admission" [("fullName", false)] false (List.replicate 100 .null) rfl
  ⟨kept, h1, h2, h3, h4, by simpa using h5⟩

namespace JS

theorem matchesAll_empty (cs : List Char) : Regex.matchesAll .empty cs = false := by
  induction cs with
  | nil => rfl
  | cons c cs ih => simpa [Regex.matchesAll, Regex.deriv] using ih

theorem matchesAll_eps (cs : List Char) : Regex.matchesAll .eps cs = true ↔ cs = [] := by
  cases cs with
  | nil => simp [Regex.matchesAll, Regex.nullable]
  | cons c cs => simp [Regex.matchesAll, Regex.deriv, matchesAll_empty]

theorem matchesAll_cls (p : Char → Bool) (cs : List Char) :
    Regex.matchesAll (.cls p) cs = true ↔ ∃ c, cs = [c] ∧ p c = true := by
  cases cs with
  | nil => simp [Regex.matchesAll, Regex.nullable]
  | cons c cs =>
    simp only [Regex.matchesAll, Regex.deriv]
    by_cases hp : p c = true
    · simp only [hp, if_true, matchesAll_eps]
      constructor
      · intro h; subst h; exact ⟨c, rfl, hp⟩
      · rintro ⟨d, hd, _⟩
        injection hd with _ h2
    · have hp' : p c = false := by simpa using hp
      simp only [hp', Bool.false_eq_true, if_false, matchesAll_empty]
      constructor
      · intro h; cases h
      · rintro ⟨d, hd, hpd⟩
        injection hd with h1 h2
        subst h1
        exact absurd hpd hp

theorem matchesAll_alt (a b : Regex) (cs : List Char) :
    Regex.matchesAll (.alt a b) cs = (Regex.matchesAll a cs || Regex.matchesAll b cs) := by
  induction cs generalizing a b with
  | nil => rfl
  | cons c cs ih => simp only [Regex.matchesAll, Regex.deriv, ih]

theorem matchesAll_seq (a b : Regex) (cs : List Char) :
    Regex.matchesAll (.seq a b) cs = true ↔
      ∃ u v, cs = u ++ v ∧ Regex.matchesAll a u = true ∧ Regex.matchesAll b v = true := by
  induction cs generalizing a with
  | nil =>
    simp only [Regex.matchesAll, Regex.nullable, Bool.and_eq_true]
    constructor
    · rintro ⟨ha, hb⟩
      exact ⟨[], [], rfl, ha, hb⟩
    · rintro ⟨u, v, huv, hu, hv⟩
      have hu' : u = [] := by
        cases u with
        | nil => rfl
        | cons x xs => simp at huv
      have hv' : v = [] := by
        subst hu'
        simpa using huv.symm
      subst hu' hv'
      exact ⟨hu, hv⟩
  | cons c cs ih =>
    have key : Regex.matchesAll (.seq (a.deriv c) b) cs = true ↔
        ∃ u v, c :: cs = (c :: u) ++ v ∧ Regex.matchesAll a (c :: u) = true ∧
          Regex.matchesAll b v = true := by
      rw [ih]
      constructor
      · rintro ⟨u, v, huv, hu, hv⟩
        exact ⟨u, v, by rw [huv]; rfl, hu, hv⟩
      · rintro ⟨u, v, huv, hu, hv⟩
        refine ⟨u, v, ?_, hu, hv⟩
        simpa using huv
    simp only [Regex.matchesAll, Regex.deriv]
    by_cases hn : a.nullable = true
    · simp only [hn, if_true, matchesAll_alt, Bool.or_eq_true, key]
      constructor
      · rintro (⟨u, v, huv, hu, hv⟩ | hb)
        · exact ⟨c :: u, v, huv, hu, hv⟩
        · exact ⟨[], c :: cs, rfl, hn, hb⟩
      · rintro ⟨u, v, huv, hu, hv⟩
        cases u with
        | nil =>
          right
          simp only [List.nil_append] at huv
          subst huv
          exact hv
        | cons x xs =>
          left
          have hx : x = c := by
            simp only [List.cons_append] at huv
            injection huv with h1 _
            exact h1.symm
          subst hx
          exact ⟨xs, v, huv, hu, hv⟩
    · have hn' : a.nullable = false := by simpa using hn
      simp only [hn', Bool.false_eq_true, if_false, key]
      constructor
      · rintro ⟨u, v, huv, hu, hv⟩
        exact ⟨c :: u, v, huv, hu, hv⟩
      · rintro ⟨u, v, huv, hu, hv⟩
        cases u with
        | nil =>
          rw [show Regex.matchesAll a [] = a.nullable from rfl, hn'] at hu
          cases hu
        | cons x xs =>
          have hx : x = c := by
            simp only [List.cons_append] at huv
            injection huv with h1 _
            exact h1.symm
          subst hx
          exact ⟨xs, v, huv, hu, hv⟩

theorem matchesAll_star_cls (p : Char → Bool) (cs : List Char) :
    Regex.matchesAll (.star (.cls p)) cs = true ↔ ∀ c ∈ cs, p c = true := by
  induction cs with
  | nil => simp [Regex.matchesAll, Regex.nullable]
  | cons c cs ih =>
    simp only [Regex.matchesAll, Regex.deriv]
    by_cases hp : p c = true
    · simp only [hp, if_true]
      rw [matchesAll_seq]
      constructor
      · rintro ⟨u, v, huv, hu, hv⟩
        rw [matchesAll_eps] at hu
        subst hu
        simp only [List.nil_append] at huv
        subst huv
        intro d hd
        rcases List.mem_cons.mp hd with h | h
        · subst h; exact hp
        · exact ih.mp hv d h
      · intro h
        exact ⟨[], cs, rfl, (matchesAll_eps []).mpr rfl,
          ih.mpr (fun d hd => h d (List.mem_cons_of_mem _ hd))⟩
    · have hp' : p c = false := by simpa using hp
      simp only [hp', Bool.false_eq_true, if_false]
      rw [matchesAll_seq]
      constructor
      · rintro ⟨u, v, _, hu, _⟩
        rw [matchesAll_empty] at hu
        cases hu
      · intro h
        exact absurd (h c (List.mem_cons_self _ _)) hp

theorem matchesAll_plus_cls (p : Char → Bool) (cs : List Char) :
    Regex.matchesAll (Regex.plus (.cls p)) cs = true ↔ cs ≠ [] ∧ ∀ c ∈ cs, p c = true := by
  unfold Regex.plus
  rw [matchesAll_seq]
  constructor
  · rintro ⟨u, v, huv, hu, hv⟩
    obtain ⟨c, hc, hpc⟩ := (matchesAll_cls p u).mp hu
    subst hc huv
    refine ⟨by simp, ?_⟩
    intro d hd
    rcases List.mem_cons.mp hd with h | h
    · subst h; exact hpc
    · exact (matchesAll_star_cls p v).mp hv d h
  · rintro ⟨hne, hall⟩
    cases cs with
    | nil => exact absurd rfl hne
    | cons c cs =>
      exact ⟨[c], cs, rfl, (matchesAll_cls p [c]).mpr ⟨c, rfl, hall c (List.mem_cons_self _ _)⟩,
        (matchesAll_star_cls p cs).mpr (fun d hd => hall d (List.mem_cons_of_mem _ hd))⟩

theorem matchesAll_chr (x : Char) (cs : List Char) :
    Regex.matchesAll (Regex.chr x) cs = true ↔ cs = [x] := by
  unfold Regex.chr
  rw [matchesAll_cls]
  constructor
  · rintro ⟨c, hc, hpc⟩
    have : c = x := by simpa using hpc
    subst this
    exact hc
  · intro h
    exact ⟨x, h, by simp⟩

end JS

namespace FormValidationManager
open JS

theorem toList_ne_nil_iff (s : String) : s.toList ≠ [] ↔ s ≠ "" := by
  constructor
  · intro h hs
    subst hs
    exact h rfl
  · intro h hs
    apply h
    cases s with
    | mk data =>
      simp only [String.toList] at hs
      subst hs
      rfl

theorem trim_nil : trim [] = [] := rfl

theorem trimLength_pos_ne_empty (s : String) (h : 0 < trimLength s) : s ≠ "" := by
  intro hs
  subst hs
  exact absurd h (by decide)

end FormValidationManager

open JS FormValidationManager in
/-- C15: the `phone` rule accepts a string exactly when the string is
non-empty, every character of it is a digit, `+`, `-`, white space, `(` or
`)`, and it contains at least 10 digits. -/
theorem c15_phone_rule_characterised (s : String) :
    phoneRule.test s = true ↔
      s ≠ "" ∧ (∀ c ∈ s.toList, PhoneChar c) ∧ 10 ≤ s.toList.countP isDigit := by
  simp only [phoneRule, phoneRegex, Regex.test, Bool.and_eq_true, decide_eq_true_eq,
    matchesAll_plus_cls, digitCount, ← List.countP_eq_length_filter, toList_ne_nil_iff]
  constructor
  · rintro ⟨⟨hne, hall⟩, hd⟩
    refine ⟨hne, ?_, hd⟩
    intro c hc
    have := hall c hc
    simp only [Bool.or_eq_true, beq_iff_eq] at this
    unfold PhoneChar
    tauto
  · rintro ⟨hne, hall, hd⟩
    refine ⟨⟨hne, ?_⟩, hd⟩
    intro c hc
    have := hall c hc
    unfold PhoneChar at this
    simp only [Bool.or_eq_true, beq_iff_eq]
    tauto

open JS FormValidationManager in
/-- What the pattern of the `name` rule does: the rule accepts a string exactly
when every character of it is a letter (a-z, A-Z), a white-space character, a
hyphen, an apostrophe or a period, and its trimmed length is at least 2. -/
theorem nameRule_accepts_iff (s : String) :
    nameRule.test s = true ↔ (∀ c ∈ s.toList, NameChar c) ∧ 2 ≤ trimLength s := by
  simp only [nameRule, nameRegex, Regex.test, Bool.and_eq_true, decide_eq_true_eq,
    matchesAll_plus_cls, toList_ne_nil_iff, ge_iff_le]
  constructor
  · rintro ⟨⟨_, hall⟩, hd⟩
    refine ⟨?_, hd⟩
    intro c hc
    have := hall c hc
    simp only [Bool.or_eq_true, beq_iff_eq] at this
    unfold NameChar
    tauto
  · rintro ⟨hall, hd⟩
    refine ⟨⟨trimLength_pos_ne_empty s (by omega), ?_⟩, hd⟩
    intro c hc
    have := hall c hc
    unfold NameChar at this
    simp only [Bool.or_eq_true, beq_iff_eq]
    tauto

open JS FormValidationManager in
/-- C16, evaluated at the failing inputs: the `name` rule accepts "J.R.", which
holds periods, and a name with a tab in it, although neither a period nor a
tab is a letter, a space, a hyphen or an apostrophe, the characters that the
rule's own message allows. -/
theorem c16_name_rule_accepts_period :
    nameRule.test "J.R." = true ∧ ¬ (∀ c ∈ "J.R.".toList, NameCharClaimed c) ∧
    nameRule.test "Ann\tLee" = true ∧ ¬ (∀ c ∈ "Ann\tLee".toList, NameCharClaimed c) ∧
    nameRule.message =
      "Please enter a valid name (letters, spaces, hyphens, and apostrophes only)" := by
  refine ⟨by decide, ?_, by decide, ?_, rfl⟩
  · intro h
    have := h '.' (by decide)
    unfold NameCharClaimed at this
    revert this
    decide
  · intro h
    have := h '\t' (by decide)
    unfold NameCharClaimed at this
    revert this
    decide

open JS FormValidationManager in
/-- C17 (amended): the `textArea` rule accepts a string exactly when the string
is empty or its trimmed length is between 10 and 1000 inclusive. -/
theorem c17_textArea_rule_characterised (s : String) :
    textAreaRule.test s = true ↔ s = "" ∨ (10 ≤ trimLength s ∧ trimLength s ≤ 1000) := by
  simp [textAreaRule]

open JS FormValidationManager in
/-- C17 fails as stated: the `textArea` rule accepts the empty string, whose
trimmed length is 0. -/
theorem c17_textArea_rule_accepts_empty :
    textAreaRule.test "" = true ∧ trimLength "" = 0 ∧
    ¬ (10 ≤ trimLength "" ∧ trimLength "" ≤ 1000) := by
  decide

namespace FormValidationManager
open JS

/-- A non-empty run of characters that are neither white space nor `@`. -/
theorem emailPart_iff (cs : List Char) :
    Regex.matchesAll (Regex.plus (.cls (fun c => !(isWhiteSpace c || c == '@')))) cs = true ↔
      cs ≠ [] ∧ ∀ c ∈ cs, isWhiteSpace c = false ∧ c ≠ '@' := by
  rw [matchesAll_plus_cls]
  constructor
  · rintro ⟨hne, hall⟩
    refine ⟨hne, fun c hc => ?_⟩
    have := hall c hc
    simpa using this
  · rintro ⟨hne, hall⟩
    refine ⟨hne, fun c hc => ?_⟩
    have := hall c hc
    simpa using this

theorem emailRegex_iff (cs : List Char) :
    emailRegex.matchesAll cs = true ↔
      ∃ u v w, cs = u ++ '@' :: (v ++ '.' :: w) ∧
        (u ≠ [] ∧ ∀ c ∈ u, isWhiteSpace c = false ∧ c ≠ '@') ∧
        (v ≠ [] ∧ ∀ c ∈ v, isWhiteSpace c = false ∧ c ≠ '@') ∧
        (w ≠ [] ∧ ∀ c ∈ w, isWhiteSpace c = false ∧ c ≠ '@') := by
  unfold emailRegex
  simp only [matchesAll_seq, matchesAll_chr, emailPart_iff]
  constructor
  · rintro ⟨u, r1, h1, hu, a, r2, h2, ha, v, r3, h3, hv, d, w, h4, hd, hw⟩
    subst ha hd h4 h3 h2 h1
    exact ⟨u, v, w, by simp, hu, hv, hw⟩
  · rintro ⟨u, v, w, h, hu, hv, hw⟩
    exact ⟨u, '@' :: (v ++ '.' :: w), h, hu, ['@'], v ++ '.' :: w, rfl, rfl, v, '.' :: w, rfl,
      hv, ['.'], w, rfl, rfl, hw⟩

theorem count_at_zero (cs : List Char) (h : ∀ c ∈ cs, isWhiteSpace c = false ∧ c ≠ '@') :
    cs.count '@' = 0 := by
  rw [List.count_eq_zero]
  intro hmem
  exact (h '@' hmem).2 rfl

theorem emailRegex_iff_shape (cs : List Char) :
    emailRegex.matchesAll cs = true ↔ EmailShape cs := by
  rw [emailRegex_iff]
  constructor
  · rintro ⟨u, v, w, h, hu, hv, hw⟩
    subst h
    refine ⟨?_, ?_, u, v ++ '.' :: w, rfl, hu.1, v, w, rfl, hv.1, hw.1⟩
    · intro c hc
      simp only [List.mem_append, List.mem_cons] at hc
      rcases hc with h | h | h | h | h
      · exact (hu.2 c h).1
      · subst h; decide
      · exact (hv.2 c h).1
      · subst h; decide
      · exact (hw.2 c h).1
    · simp only [List.count_append, List.count_cons, count_at_zero u hu.2, count_at_zero v hv.2,
        count_at_zero w hw.2]
      decide
  · rintro ⟨hws, hcount, pre, post, hsplit, hpre, v, w, hpost, hv, hw⟩
    subst hpost hsplit
    simp only [List.count_append, List.count_cons, beq_self_eq_true, if_true] at hcount
    have hdot : (('.' : Char) == '@') = false := by decide
    simp only [hdot, Bool.false_eq_true, if_false] at hcount
    have h1 : pre.count '@' = 0 := by omega
    have h2 : v.count '@' = 0 := by omega
    have h3 : w.count '@' = 0 := by omega
    rw [List.count_eq_zero] at h1 h2 h3
    refine ⟨pre, v, w, rfl, ⟨hpre, fun c hc => ⟨hws c (by simp [hc]), ?_⟩⟩,
      ⟨hv, fun c hc => ⟨hws c (by simp [hc]), ?_⟩⟩,
      ⟨hw, fun c hc => ⟨hws c (by simp [hc]), ?_⟩⟩⟩
    · intro h; subst h; exact h1 hc
    · intro h; subst h; exact h2 hc
    · intro h; subst h; exact h3 hc

end FormValidationManager

open JS FormValidationManager in
/-- C14: the `email` rule accepts "a@b.co" and rejects "a@b"; it accepts a
string exactly when the string contains no white space, contains exactly one
`@` with at least one character before it, and the part after the `@` contains
a `.` that is neither its first nor its last character; and
`AJAXFormManager.isValidEmail` decides the same set. -/
theorem c14_email_rule_characterised :
    emailRule.test "a@b.co" = true ∧ emailRule.test "a@b" = false ∧
    (∀ s : String, emailRule.test s = true ↔ EmailShape s.toList) ∧
    (∀ s : String, AJAXFormManager.isValidEmail s = emailRule.test s) := by
  refine ⟨by decide, by decide, ?_, fun _ => rfl⟩
  intro s
  exact emailRegex_iff_shape s.toList

namespace Lightbox
open JS

theorem position_lt (x : Image) (xs : List Image) (h : x ∈ xs) :
    ∃ i, position x xs = some i ∧ i < xs.length := by
  induction xs with
  | nil => cases h
  | cons y ys ih =>
    by_cases hy : y = x
    · exact ⟨0, by simp [position, hy], by simp⟩
    · have hmem : x ∈ ys := by
        rcases List.mem_cons.mp h with h | h
        · exact absurd h.symm hy
        · exact h
      obtain ⟨i, hi, hlt⟩ := ih hmem
      exact ⟨i + 1, by simp [position, hy, hi], by simp; omega⟩

theorem next_index (s : LightboxState) (i : Int) (hi : s.currentImageIndex = some i)
    (h0 : 0 ≤ i) (hlt : i < s.galleryImages.length) :
    (nextImage s).currentImageIndex =
      some (if i = (s.galleryImages.length : Int) - 1 then 0 else i + 1) := by
  have hn : (s.galleryImages.length : Int) ≠ 0 := by omega
  simp only [nextImage, hi, jsAdd, jsRem, hn, if_false]
  rw [Int.tmod_eq_emod (by omega) (by omega)]
  split
  · rename_i h
    rw [h]
    simp
  · rename_i h
    rw [Int.emod_eq_of_lt (by omega) (by omega)]

theorem previous_index (s : LightboxState) (i : Int) (hi : s.currentImageIndex = some i)
    (h0 : 0 ≤ i) (hlt : i < s.galleryImages.length) :
    (previousImage s).currentImageIndex =
      some (if i = 0 then (s.galleryImages.length : Int) - 1 else i - 1) := by
  have hn : (s.galleryImages.length : Int) ≠ 0 := by omega
  simp only [previousImage, hi, jsAdd, jsRem, hn, if_false]
  rw [Int.tmod_eq_emod (by omega) (by omega)]
  split
  · rename_i h
    subst h
    rw [Int.emod_eq_of_lt (by omega) (by omega)]
    congr 1
  · rename_i h
    rw [Int.add_emod_self, Int.emod_eq_of_lt (by omega) (by omega)]
    congr 1

end Lightbox

open Lightbox in
/-- C19: for every gallery with at least one image and every current index
`i` in `[0, count)`, `nextImage` sets the index to 0 when `i = count - 1` and
to `i + 1` otherwise, `previousImage` sets it to `count - 1` when `i = 0` and
to `i - 1` otherwise, and neither changes the collected images. -/
theorem c19_lightbox_index_wraps (s : LightboxState) (i : Int)
    (hi : s.currentImageIndex = some i) (h0 : 0 ≤ i) (hlt : i < s.galleryImages.length) :
    (nextImage s).currentImageIndex =
      some (if i = (s.galleryImages.length : Int) - 1 then 0 else i + 1) ∧
    (previousImage s).currentImageIndex =
      some (if i = 0 then (s.galleryImages.length : Int) - 1 else i - 1) ∧
    (nextImage s).galleryImages = s.galleryImages ∧
    (previousImage s).galleryImages = s.galleryImages :=
  ⟨next_index s i hi h0 hlt, previous_index s i hi h0 hlt, rfl, rfl⟩

open Lightbox in
/-- Witness for C19: in a gallery of two images, `nextImage` from the last
index returns to 0 and `previousImage` from index 0 goes to the last index. -/
theorem c19_lightbox_index_wraps_witness :
    (nextImage { currentImageIndex := some 1,
                 galleryImages := [Sample.imageA, Sample.imageB] }).currentImageIndex = some 0 ∧
    (previousImage { currentImageIndex := some 0,
                     galleryImages := [Sample.imageA, Sample.imageB] }).currentImageIndex =
      some 1 :=
  ⟨(c19_lightbox_index_wraps
      { currentImageIndex := some 1, galleryImages := [Sample.imageA, Sample.imageB] } 1 rfl
      (by decide) (by decide)).1,
   (c19_lightbox_index_wraps
      { currentImageIndex := some 0, galleryImages := [Sample.imageA, Sample.imageB] } 0 rfl
      (by decide) (by decide)).2.1⟩

namespace Lightbox
open JS

theorem inRange_updates (s : LightboxState) (h : InRange s) :
    ∃ content, updateLightboxContent s = .ok content := by
  obtain ⟨i, hi, h0, hlt⟩ := h
  have hnat : i.toNat < s.galleryImages.length := by omega
  simp only [updateLightboxContent, currentImage, hi, h0, if_true,
    List.getElem?_eq_getElem hnat]
  exact ⟨_, rfl⟩

theorem inRange_next (s : LightboxState) (h : InRange s) : InRange (nextImage s) := by
  obtain ⟨i, hi, h0, hlt⟩ := h
  refine ⟨_, next_index s i hi h0 hlt, ?_, ?_⟩
  · split <;> omega
  · show _ < ((nextImage s).galleryImages.length : Int)
    rw [show (nextImage s).galleryImages = s.galleryImages from rfl]
    split <;> omega

theorem inRange_previous (s : LightboxState) (h : InRange s) : InRange (previousImage s) := by
  obtain ⟨i, hi, h0, hlt⟩ := h
  refine ⟨_, previous_index s i hi h0 hlt, ?_, ?_⟩
  · split <;> omega
  · show _ < ((previousImage s).galleryImages.length : Int)
    rw [show (previousImage s).galleryImages = s.galleryImages from rfl]
    split <;> omega

theorem inRange_opened (page : List Image) (img : Image) (s : LightboxState) (h : img ∈ page) :
    InRange (openLightbox page img s) := by
  obtain ⟨i, hi, hlt⟩ := position_lt img page h
  refine ⟨i, ?_, by omega, ?_⟩
  · simp [openLightbox, indexOf, hi]
  · simp only [openLightbox]
    exact_mod_cast hlt

end Lightbox

open JS Lightbox in
/-- C20 (amended): in every state reachable through `openLightbox` called with
one of the page's gallery images, `nextImage` and `previousImage`, the current
index lies in `[0, count)`, where `count` is the number of collected gallery
images, and `updateLightboxContent` finds an image at the current index. -/
theorem c20_index_in_range_when_opened_on_gallery_image (s : LightboxState)
    (h : ReachableFromGallery s) :
    InRange s ∧ ∃ content, updateLightboxContent s = .ok content := by
  have hr : InRange s := by
    induction h with
    | opened page img s hmem => exact inRange_opened page img s hmem
    | next _ ih => exact inRange_next _ ih
    | previous _ ih => exact inRange_previous _ ih
  exact ⟨hr, inRange_updates s hr⟩

open JS Lightbox in
/-- Witness for C20: opening the lightbox on the first of two gallery images
and going back once. -/
theorem c20_index_in_range_when_opened_on_gallery_image_witness :
    InRange (previousImage (openLightbox [Sample.imageA, Sample.imageB] Sample.imageA initial)) ∧
    ∃ content, updateLightboxContent
      (previousImage (openLightbox [Sample.imageA, Sample.imageB] Sample.imageA initial)) =
        .ok content :=
  c20_index_in_range_when_opened_on_gallery_image _
    (.previous (.opened [Sample.imageA, Sample.imageB] Sample.imageA initial (by decide)))

open JS Lightbox in
/-- C20 fails as stated: `openLightbox` called with an element that is not one
of the collected gallery images sets the current index to -1, outside
`[0, count)`, and `updateLightboxContent` finds no image there. -/
theorem c20_open_on_foreign_element_leaves_range :
    Reachable (openLightbox [Sample.imageA, Sample.imageB] Sample.logo initial) ∧
    (openLightbox [Sample.imageA, Sample.imageB] Sample.logo initial).currentImageIndex =
      some (-1) ∧
    ¬ InRange (openLightbox [Sample.imageA, Sample.imageB] Sample.logo initial) ∧
    updateLightboxContent (openLightbox [Sample.imageA, Sample.imageB] Sample.logo initial) =
      .error .TypeError := by
  refine ⟨.opened _ _ _, rfl, ?_, rfl⟩
  rintro ⟨i, hi, h0, _⟩
  have : (openLightbox [Sample.imageA, Sample.imageB] Sample.logo initial).currentImageIndex =
      some (-1) := rfl
  rw [this] at hi
  injection hi with hi
  omega

open JS SchoolPosts in
/-- C24: `SchoolPosts.add` gives the new post the id (number of posts before
the call) + 1 and puts it in front of the array; and this is not
collision-safe: in the collection left after the post with id 1 has been
deleted from two posts, whose ids are pairwise distinct, `add` produces a post
whose id is the id of the post already there. -/
theorem c24_add_id_is_length_plus_one_and_collides :
    (∀ (posts : List JVal) (c : Clock) (postData : List (String × JVal)),
      ∃ post, add posts c (some (.obj postData)) = .ok (post, post :: posts) ∧
        itemId post = some (.num (posts.length + 1))) ∧
    (∃ (posts : List JVal) (post : JVal),
      (idsOf posts).Nodup ∧
      add posts Sample.clock (some (.obj [("title", .str "Open day")])) =
        .ok (post, post :: posts) ∧
      itemId post ∈ idsOf posts ∧ ¬ (idsOf (post :: posts)).Nodup) := by
  constructor
  · intro posts c postData
    refine ⟨_, rfl, ?_⟩
    simp [itemId, mkObj, getProp, List.lookup]
  · refine ⟨[.obj [("id", .num 2), ("title", .str "Sports day")]], _, ?_, rfl, ?_, ?_⟩
    · simp [idsOf]
    · simp [idsOf, itemId, mkObj, getProp, List.lookup]
    · simp [idsOf, itemId, mkObj, getProp, List.lookup]

open JS FormValidationManager in
/-- C25, evaluated at the failing input: for a value of 100 letters followed
by `<b`, `validateSearchInput` first truncates the input to 100 characters and
then overwrites it with the sanitized copy of the whole original value, which
has 101 characters; the value left in the input is free of the four dangerous
characters but longer than 100. -/
theorem c25_long_value_with_dangerous_character_exceeds_limit :
    utf16Length (validateSearchInput
      (String.mk (List.replicate 100 'a' ++ ['<', 'b']))).1.toList = 101 ∧
    (validateSearchInput (String.mk (List.replicate 100 'a' ++ ['<', 'b']))).1 =
      String.mk (List.replicate 100 'a' ++ ['b']) ∧
    (validateSearchInput (String.mk (List.replicate 100 'a' ++ ['<', 'b']))).2 =
      ["Search term too long. Maximum 100 characters.",
       "Special characters removed for security."] := by
  decide

namespace JS

theorem substringTo_mem (n : Nat) (l : List Char) : ∀ x ∈ substringTo n l, x ∈ l := by
  induction l generalizing n with
  | nil => intro x hx; simp [substringTo] at hx
  | cons d ds ih =>
    intro x hx
    simp only [substringTo] at hx
    by_cases hw : (if d.toNat < 0x10000 then 1 else 2) ≤ n
    · rw [if_pos hw] at hx
      rcases List.mem_cons.mp hx with h | h
      · exact h ▸ List.mem_cons_self _ _
      · exact List.mem_cons_of_mem _ (ih _ x h)
    · rw [if_neg hw] at hx
      cases hx

theorem utf16Length_substringTo (n : Nat) (l : List Char) :
    utf16Length (substringTo n l) ≤ n := by
  induction l generalizing n with
  | nil => simp [substringTo, utf16Length]
  | cons d ds ih =>
    simp only [substringTo]
    by_cases hw : (if d.toNat < 0x10000 then 1 else 2) ≤ n
    · rw [if_pos hw]
      have := ih (n - (if d.toNat < 0x10000 then 1 else 2))
      simp only [utf16Length, List.map_cons, List.sum_cons] at this ⊢
      omega
    · rw [if_neg hw]
      simp [utf16Length]

end JS

open JS FormValidationManager in
theorem validateSearchInput_removes_dangerous (value : String) :
    ∀ ch ∈ (validateSearchInput value).1.toList, isDangerous ch = false := by
  intro ch hch
  unfold validateSearchInput at hch
  simp only at hch
  split at hch
  · simp only [String.toList, List.mem_filter] at hch
    simpa using hch.2
  · rename_i hsan
    have hsame : String.mk (value.toList.filter (fun c => !isDangerous c)) = value := by
      simpa using hsan
    have hall : ∀ x ∈ value.toList, isDangerous x = false := by
      intro x hx
      rw [← hsame] at hx
      simp only [String.toList, List.mem_filter] at hx
      simpa using hx.2
    split at hch
    · exact hall ch (substringTo_mem 100 _ ch (by simpa [String.toList] using hch))
    · exact hall ch hch

open JS FormValidationManager in
/-- C26, evaluated at the failing inputs: the empty value is rejected for
`previousSchool` (by `noSpecialChars`) and for the enquiry form's `phone` (by
`phone`), both configured without `required`, while `additionalInfo` accepts
it; an otherwise valid admission form whose previous school is left blank is
turned down with the error banner. -/
theorem c26_blank_optional_field_rejected :
    validateField Sample.page Sample.clock "" "previousSchool"
        ["maxLength:200", "noSpecialChars"] =
      .ok { valid := false,
            shown := some "Special characters are not allowed except hyphens, underscores, and periods" } ∧
    validateField Sample.page Sample.clock "" "phone" ["phone"] =
      .ok { valid := false, shown := some "Please enter a valid phone number" } ∧
    validateField Sample.page Sample.clock "" "additionalInfo" ["textArea"] =
      .ok { valid := true, shown := none } ∧
    (handleFormSubmission Sample.quotaFree Sample.page Sample.clock Sample.emptyState
        Sample.blankSchoolForm admissionConfig).banner =
      some ("error", "Please correct the errors below and try again.") ∧
    localStorage.getItem (handleFormSubmission Sample.quotaFree Sample.page Sample.clock
        Sample.emptyState Sample.blankSchoolForm admissionConfig).state.localStorage
        "admissionApplications" = none :=
  ⟨rfl, rfl, rfl, rfl, rfl⟩

namespace JS

theorem matchesAll_atLeast_cls (n : Nat) (p : Char → Bool) (cs : List Char) :
    Regex.matchesAll (Regex.atLeast n (.cls p)) cs = true ↔
      n ≤ cs.length ∧ ∀ c ∈ cs, p c = true := by
  induction n generalizing cs with
  | zero =>
    simp only [Regex.atLeast, matchesAll_star_cls, Nat.zero_le, true_and]
  | succ n ih =>
    simp only [Regex.atLeast, matchesAll_seq, matchesAll_cls]
    constructor
    · rintro ⟨u, v, huv, ⟨c, hc, hpc⟩, hv⟩
      obtain ⟨hlen, hall⟩ := (ih v).mp hv
      subst hc huv
      refine ⟨by simp; omega, ?_⟩
      intro d hd
      rcases List.mem_cons.mp hd with h | h
      · subst h; exact hpc
      · exact hall d h
    · rintro ⟨hlen, hall⟩
      cases cs with
      | nil => simp at hlen
      | cons c cs =>
        refine ⟨[c], cs, rfl, ⟨c, rfl, hall c (List.mem_cons_self _ _)⟩, (ih cs).mpr ⟨?_, ?_⟩⟩
        · simp at hlen; omega
        · exact fun d hd => hall d (List.mem_cons_of_mem _ hd)

theorem isDigit_not_whiteSpace (c : Char) (h : isDigit c = true) : isWhiteSpace c = false := by
  simp only [isDigit, Bool.and_eq_true, decide_eq_true_eq] at h
  have h1 : 48 ≤ c.toNat := h.1
  have h2 : c.toNat ≤ 57 := h.2
  simp only [isWhiteSpace, Bool.or_eq_false_iff, Bool.and_eq_false_iff, beq_eq_false_iff_ne,
    decide_eq_false_iff_not]
  refine ⟨⟨⟨⟨⟨⟨⟨⟨⟨⟨⟨⟨⟨⟨?_, ?_⟩, ?_⟩, ?_⟩, ?_⟩, ?_⟩, ?_⟩, ?_⟩, ?_⟩, ?_⟩, ?_⟩, ?_⟩, ?_⟩, ?_⟩, ?_⟩ <;>
    omega

end JS

open JS FormValidationManager in
/-- C30: every string accepted by the validation engine's `phone` rule is also
accepted by `AJAXFormManager.isValidPhone`. -/
theorem c30_phone_rule_implies_isValidPhone (s : String) (h : phoneRule.test s = true) :
    AJAXFormManager.isValidPhone s = true := by
  simp only [phoneRule, phoneRegex, Regex.test, Bool.and_eq_true, decide_eq_true_eq,
    matchesAll_plus_cls, digitCount] at h
  obtain ⟨⟨_, hall⟩, hd⟩ := h
  simp only [AJAXFormManager.isValidPhone, AJAXFormManager.phoneRegex, matchesAll_atLeast_cls]
  constructor
  · have hsub : (s.toList.filter isDigit).Sublist
        (s.toList.filter (fun c => !isWhiteSpace c)) :=
      List.monotone_filter_right s.toList (fun c hc => by
        simp [isDigit_not_whiteSpace c hc])
    have := hsub.length_le
    omega
  · intro c hc
    have hmem := (List.mem_filter.mp hc).1
    have := hall c hmem
    simp only [Bool.or_eq_true, beq_iff_eq] at this ⊢
    tauto

open JS FormValidationManager in
/-- Witness for C30: a ten-digit number written with spaces. -/
theorem c30_phone_rule_implies_isValidPhone_witness :
    phoneRule.test "082 555 0142" = true ∧ AJAXFormManager.isValidPhone "082 555 0142" = true :=
  ⟨by decide, c30_phone_rule_implies_isValidPhone "082 555 0142" (by decide)⟩

namespace JS

theorem includes_iff_contained (needle hay : List Char) :
    includes needle hay = true ↔ needle <:+: hay := by
  induction hay with
  | nil =>
    simp only [includes, List.isPrefixOf_iff_prefix, List.prefix_nil, List.infix_nil]
  | cons c cs ih =>
    simp only [includes, Bool.or_eq_true, List.isPrefixOf_iff_prefix, ih]
    exact List.infix_cons_iff.symm

theorem splitChars_parts (sep : Char) (cs : List Char) :
    (∀ w ∈ splitChars sep cs, w <:+: cs) ∧
    ∃ h t, splitChars sep cs = h :: t ∧ h <+: cs := by
  induction cs with
  | nil =>
    refine ⟨?_, [], [], rfl, List.prefix_refl _⟩
    intro w hw
    simp only [splitChars, List.mem_singleton] at hw
    subst hw
    exact List.infix_refl _
  | cons c cs ih =>
    obtain ⟨hparts, h, t, hsplit, hpre⟩ := ih
    by_cases hc : c = sep
    · simp only [splitChars, hc, if_true]
      refine ⟨?_, [], _, rfl, List.nil_prefix⟩
      intro w hw
      rcases List.mem_cons.mp hw with hw | hw
      · subst hw
        exact List.nil_infix
      · exact List.infix_cons (hparts w hw)
    · simp only [splitChars, hc, if_false, hsplit]
      refine ⟨?_, c :: h, t, rfl, (List.prefix_cons_inj c).mpr hpre⟩
      intro w hw
      rcases List.mem_cons.mp hw with hw | hw
      · subst hw
        exact ((List.prefix_cons_inj c).mpr hpre).isInfix
      · exact List.infix_cons (hparts w (by rw [hsplit]; exact List.mem_cons_of_mem _ hw))

end JS

namespace SEOSearchManager
open JS

theorem wordScore_le (item : List Char) (words : List (List Char)) (init : Nat) :
    words.foldl (fun score word => if includes word item then score + 10 else score) init ≤
      init + 10 * words.length := by
  induction words generalizing init with
  | nil => simp
  | cons w ws ih =>
    simp only [List.foldl_cons, List.length_cons]
    split
    · have := ih (init + 10)
      omega
    · have := ih init
      omega

theorem wordScore_all (item : List Char) (words : List (List Char)) (init : Nat)
    (h : ∀ w ∈ words, includes w item = true) :
    words.foldl (fun score word => if includes word item then score + 10 else score) init =
      init + 10 * words.length := by
  induction words generalizing init with
  | nil => simp
  | cons w ws ih =>
    simp only [List.foldl_cons, List.length_cons, h w (List.mem_cons_self _ _), if_true]
    rw [ih (init + 10) (fun w' hw' => h w' (List.mem_cons_of_mem _ hw'))]
    omega

theorem score_exact (toLowerCase : String → String) (item term : String)
    (h : toLowerCase item = toLowerCase term) :
    calculateRelevanceScore toLowerCase item term =
      175 + 10 * (splitChars ' ' (toLowerCase term).toList).length := by
  unfold calculateRelevanceScore
  simp only [h, if_true]
  have hpre : (toLowerCase term).toList.isPrefixOf (toLowerCase term).toList = true :=
    List.isPrefixOf_iff_prefix.mpr (List.prefix_refl _)
  have hinc : includes (toLowerCase term).toList (toLowerCase term).toList = true :=
    (includes_iff_contained _ _).mpr (List.infix_refl _)
  simp only [hpre, hinc, if_true]
  rw [wordScore_all _ _ _ (fun w hw =>
    (includes_iff_contained _ _).mpr ((splitChars_parts ' ' _).1 w hw))]

theorem score_inexact (toLowerCase : String → String) (item term : String)
    (h : toLowerCase item ≠ toLowerCase term) :
    calculateRelevanceScore toLowerCase item term ≤
      75 + 10 * (splitChars ' ' (toLowerCase term).toList).length := by
  unfold calculateRelevanceScore
  have hne : (toLowerCase item).toList ≠ (toLowerCase term).toList := by
    intro heq
    apply h
    cases hi : toLowerCase item
    cases ht : toLowerCase term
    rw [hi, ht] at heq
    simp only [String.toList] at heq
    rw [heq]
  simp only [hne, if_false]
  refine le_trans (wordScore_le _ _ _) ?_
  have h1 : (if (toLowerCase term).toList.isPrefixOf (toLowerCase item).toList = true
      then 50 else 0) ≤ 50 := by split <;> omega
  have h2 : (if includes (toLowerCase term).toList (toLowerCase item).toList = true
      then 25 else 0) ≤ 25 := by split <;> omega
  omega

end SEOSearchManager

open JS SEOSearchManager in
/-- C29: for every search term and all items `a` and `b`, if `a` equals the
term case-insensitively (their lower-case forms are equal) and `b` does not,
then `calculateRelevanceScore(a, term)` is strictly greater than
`calculateRelevanceScore(b, term)`; this holds whatever the platform's
`toLowerCase` is. -/
theorem c29_exact_match_scores_highest (toLowerCase : String → String) (a b term : String)
    (ha : toLowerCase a = toLowerCase term) (hb : toLowerCase b ≠ toLowerCase term) :
    calculateRelevanceScore toLowerCase b term < calculateRelevanceScore toLowerCase a term := by
  have h1 := score_exact toLowerCase a term ha
  have h2 := score_inexact toLowerCase b term hb
  omega

open JS SEOSearchManager in
/-- Witness for C29: the term "math games" against the items "Math games" and
"Math workbooks". -/
theorem c29_exact_match_scores_highest_witness :
    calculateRelevanceScore Sample.asciiLower "Math workbooks" "math games" <
      calculateRelevanceScore Sample.asciiLower "Math games" "math games" :=
  c29_exact_match_scores_highest Sample.asciiLower "Math games" "Math workbooks" "math games"
    (by decide) (by decide)

namespace JS

theorem utf16Length_filter_le (p : Char → Bool) (l : List Char) :
    utf16Length (l.filter p) ≤ utf16Length l := by
  induction l with
  | nil => simp [utf16Length]
  | cons c cs ih =>
    simp only [List.filter]
    cases p c
    · simp only [utf16Length, List.map_cons, List.sum_cons] at ih ⊢
      omega
    · simp only [utf16Length, List.map_cons, List.sum_cons] at ih ⊢
      omega

theorem length_le_utf16Length (l : List Char) : l.length ≤ utf16Length l := by
  induction l with
  | nil => simp [utf16Length]
  | cons c cs ih =>
    simp only [utf16Length, List.map_cons, List.sum_cons, List.length_cons] at ih ⊢
    split <;> omega

end JS

open JS SEOSearchManager in
/-- C27: for every input, whatever the removal of script elements returns,
`sanitizeInput` returns a string of at most 100 characters (UTF-16 code units,
`inputSanitization.maxLength`) whose characters are all permitted by
`inputSanitization.allowedChars` (letters, digits, white space and
`- _ . , ! ? ( )`), so it contains neither `<` nor `>`; an empty or non-string
input yields the empty string. -/
theorem c27_sanitizeInput_bounded_and_allowed (removeScripts : String → String)
    (input : Option JVal) :
    utf16Length (sanitizeInput removeScripts input).toList ≤ 100 ∧
    (sanitizeInput removeScripts input).toList.length ≤ 100 ∧
    (∀ c ∈ (sanitizeInput removeScripts input).toList,
      isLetter c = true ∨ isDigit c = true ∨ isWhiteSpace c = true ∨ c = '-' ∨ c = '_' ∨
      c = '.' ∨ c = ',' ∨ c = '!' ∨ c = '?' ∨ c = '(' ∨ c = ')') ∧
    '<' ∉ (sanitizeInput removeScripts input).toList ∧
    '>' ∉ (sanitizeInput removeScripts input).toList ∧
    ((∀ s, s ≠ "" → input ≠ some (.str s)) → sanitizeInput removeScripts input = "") := by
  have hallowed : ∀ c ∈ (sanitizeInput removeScripts input).toList, allowedChar c = true := by
    intro c hc
    unfold sanitizeInput at hc
    split at hc
    · split at hc
      · simp at hc
      · simp only at hc
        split at hc
        · simp only [String.toList, List.mem_filter] at hc
          exact hc.2
        · rename_i hm
          simp only [Bool.not_eq_true, Bool.not_eq_false', allowedChars] at hm
          exact ((matchesAll_plus_cls _ _).mp hm).2 c hc
    · simp at hc
  have hlen : utf16Length (sanitizeInput removeScripts input).toList ≤ 100 := by
    unfold sanitizeInput
    split
    · split
      · decide
      · simp only
        split
        · exact le_trans (utf16Length_filter_le _ _) (utf16Length_substringTo _ _)
        · exact utf16Length_substringTo _ _
    · decide
  refine ⟨hlen, le_trans (length_le_utf16Length _) hlen, ?_, ?_, ?_, ?_⟩
  · intro c hc
    have := hallowed c hc
    simp only [allowedChar, Bool.or_eq_true, beq_iff_eq] at this
    tauto
  · intro h
    have := hallowed _ h
    revert this
    decide
  · intro h
    have := hallowed _ h
    revert this
    decide
  · intro h
    unfold sanitizeInput
    split
    · rename_i s
      by_cases hs : s = ""
      · simp [hs]
      · exact absurd rfl (h s hs)
    · rfl

namespace Tabs

theorem find_map_of_preserved (p : Element → Bool) (f : Element → Element)
    (hp : ∀ e, p (f e) = p e) (l : List Element) :
    (l.map f).find? p = (l.find? p).map f := by
  induction l with
  | nil => rfl
  | cons e es ih =>
    simp only [List.map_cons, List.find?_cons, hp]
    cases p e <;> simp [ih]

theorem countP_updateById_one (q : Element → Bool) (id : String) (f : Element → Element)
    (l : List Element) (x : Element) (hall : ∀ e ∈ l, q e = false)
    (hx : getElementById l id = some x) (hq : q (f x) = true) :
    (updateById id f l).countP q = 1 := by
  induction l with
  | nil => simp [getElementById] at hx
  | cons e es ih =>
    have hes : ∀ y ∈ es, q y = false := fun y hy => hall y (List.mem_cons_of_mem _ hy)
    simp only [getElementById, List.find?_cons] at hx
    simp only [updateById]
    cases hid : e.id == id
    · rw [hid] at hx
      have he : q e = false := hall e (List.mem_cons_self _ _)
      simp only [Bool.false_eq_true, if_false, List.countP_cons, he, add_zero]
      exact ih hes hx
    · rw [hid] at hx
      simp only at hx
      cases hx
      have : es.countP q = 0 := by
        rw [List.countP_eq_zero]
        intro y hy
        simp [hes y hy]
      simp [List.countP_cons, hq, this]

theorem countP_updateById_same (q : Element → Bool) (id : String) (f : Element → Element)
    (hq : ∀ e, q (f e) = q e) (l : List Element) :
    (updateById id f l).countP q = l.countP q := by
  induction l with
  | nil => rfl
  | cons e es ih =>
    simp only [updateById]
    split
    · simp [List.countP_cons, hq]
    · simp [List.countP_cons, ih]

theorem getElementById_updateById_same (id : String) (f : Element → Element)
    (hid : ∀ e, (f e).id = e.id) (l : List Element) (x : Element)
    (hx : getElementById l id = some x) :
    getElementById (updateById id f l) id = some (f x) := by
  induction l with
  | nil => simp [getElementById] at hx
  | cons e es ih =>
    simp only [getElementById, List.find?_cons] at hx
    simp only [updateById]
    cases he : e.id == id
    · rw [he] at hx
      simp only [Bool.false_eq_true, if_false, getElementById, List.find?_cons, he]
      exact ih hx
    · rw [he] at hx
      simp only at hx
      cases hx
      simp only [if_true, getElementById, List.find?_cons, hid, he]

theorem getElementById_updateById_any (id other : String) (f : Element → Element)
    (hid : ∀ e, (f e).id = e.id) (l : List Element) (x : Element)
    (hx : getElementById l other = some x) :
    ∃ y, getElementById (updateById id f l) other = some y ∧ (y = x ∨ y = f x) := by
  induction l with
  | nil => simp [getElementById] at hx
  | cons e es ih =>
    simp only [getElementById, List.find?_cons] at hx
    simp only [updateById]
    cases ho : e.id == other
    · rw [ho] at hx
      cases he : e.id == id
      · simp only [Bool.false_eq_true, if_false, getElementById, List.find?_cons, ho]
        exact ih hx
      · simp only [if_true, getElementById, List.find?_cons, hid, ho]
        exact ⟨x, hx, Or.inl rfl⟩
    · rw [ho] at hx
      simp only at hx
      cases hx
      cases he : x.id == id
      · simp only [Bool.false_eq_true, if_false, getElementById, List.find?_cons, ho]
        exact ⟨x, rfl, Or.inl rfl⟩
      · simp only [if_true, getElementById, List.find?_cons, hid, ho]
        exact ⟨f x, rfl, Or.inr rfl⟩

theorem hasClass_classListAdd_self (cls : String) (e : Element) :
    hasClass (classListAdd cls e) cls = true := by
  unfold classListAdd
  split
  · assumption
  · simp [hasClass]

theorem hasClass_classListAdd_of (cls other : String) (e : Element)
    (h : hasClass e other = true) : hasClass (classListAdd cls e) other = true := by
  unfold classListAdd
  split
  · exact h
  · simp only [hasClass, List.contains_eq_any_beq, List.any_append, Bool.or_eq_true] at h ⊢
    exact Or.inl h

theorem hasClass_classListAdd_other (cls other : String) (e : Element) (hne : other ≠ cls) :
    hasClass (classListAdd cls e) other = hasClass e other := by
  unfold classListAdd
  split
  · rfl
  · simp [hasClass, List.any_append, hne]

theorem hasClass_classListRemove_self (cls : String) (e : Element) :
    hasClass (classListRemove cls e) cls = false := by
  simp [hasClass, classListRemove]

theorem hasClass_classListRemove_other (cls other : String) (e : Element) (hne : other ≠ cls) :
    hasClass (classListRemove cls e) other = hasClass e other := by
  simp only [hasClass, classListRemove, List.contains_eq_any_beq]
  induction e.classList with
  | nil => rfl
  | cons c cs ih =>
    simp only [List.filter]
    by_cases hc : c = cls
    · subst hc
      simp [ih, hne]
    · have : (c != cls) = true := by simp [hc]
      simp [this, ih]

end Tabs

namespace Tabs

theorem clearTab_id (e : Element) : (clearTab e).id = e.id := by
  unfold clearTab
  split <;> rfl

theorem hideContent_id (e : Element) : (hideContent e).id = e.id := by
  unfold hideContent
  split <;> rfl

theorem hideContent_hasClass (e : Element) (cls : String) :
    hasClass (hideContent e) cls = hasClass e cls := by
  unfold hideContent
  split <;> rfl

theorem clearTab_hasClass (e : Element) (cls : String) (hne : cls ≠ "active") :
    hasClass (clearTab e) cls = hasClass e cls := by
  unfold clearTab
  split
  · exact hasClass_classListRemove_other _ _ _ hne
  · rfl

theorem clearTab_not_active (e : Element) :
    (hasClass (clearTab e) "grade-tab" && hasClass (clearTab e) "active") = false := by
  rw [clearTab_hasClass e "grade-tab" (by decide)]
  cases h : hasClass e "grade-tab"
  · rfl
  · simp only [clearTab, h, if_true, Bool.true_and]
    exact hasClass_classListRemove_self _ _

theorem hideContent_not_displayed (e : Element) :
    (hasClass (hideContent e) "grade-content" && (hideContent e).display != "none") = false := by
  rw [hideContent_hasClass]
  cases h : hasClass e "grade-content"
  · rfl
  · simp [hideContent, h]

theorem showTab_eq (gradeId : String) (doc : List Element) :
    showTab gradeId doc =
      match getElementById ((doc.map clearTab).map hideContent) ("tab-" ++ gradeId),
          getElementById ((doc.map clearTab).map hideContent) ("content-" ++ gradeId) with
      | some _, some _ =>
        updateById ("content-" ++ gradeId) (fun e => { e with display := "block" })
          (updateById ("tab-" ++ gradeId) (classListAdd "active")
            ((doc.map clearTab).map hideContent))
      | _, _ => (doc.map clearTab).map hideContent := rfl

theorem getElementById_hidden (doc : List Element) (id : String) :
    getElementById ((doc.map clearTab).map hideContent) id =
      (getElementById doc id).map (fun e => hideContent (clearTab e)) := by
  unfold getElementById
  rw [find_map_of_preserved _ hideContent (fun e => by rw [hideContent_id]),
    find_map_of_preserved _ clearTab (fun e => by rw [clearTab_id])]
  cases List.find? (fun e => e.id == id) doc <;> rfl

theorem classListAdd_id (cls : String) (e : Element) : (classListAdd cls e).id = e.id := by
  unfold classListAdd
  split <;> rfl

theorem classListAdd_display (cls : String) (e : Element) :
    (classListAdd cls e).display = e.display := by
  unfold classListAdd
  split <;> rfl

end Tabs

open Tabs in
/-- C21, as stated, fails: on a page with the tabs and contents of grades 1 and
2, `showTab('grade-9')` finds no element to activate, and leaves no grade tab
active and no grade content displayed. -/
theorem c21_unknown_grade_leaves_no_active_tab :
    activeTabs (showTab "grade-9" Sample.gradePage) = 0 ∧
    displayedContents (showTab "grade-9" Sample.gradePage) = 0 := by
  decide

namespace Tabs

theorem showTab_missing (gradeId : String) (doc : List Element)
    (h : getElementById doc ("tab-" ++ gradeId) = none ∨
      getElementById doc ("content-" ++ gradeId) = none) :
    showTab gradeId doc = (doc.map clearTab).map hideContent := by
  have ht2 := getElementById_hidden doc ("tab-" ++ gradeId)
  have hc2 := getElementById_hidden doc ("content-" ++ gradeId)
  rw [showTab_eq]
  rcases h with h | h
  · rw [h] at ht2
    rw [ht2]
    rfl
  · rw [h] at hc2
    rw [hc2]
    cases getElementById ((doc.map clearTab).map hideContent) ("tab-" ++ gradeId) <;> rfl

end Tabs

open Tabs in
/-- C21, amended: when the page has an element with id `tab-gradeId` that is a
grade tab and an element with id `content-gradeId` that is a grade content,
then after `showTab(gradeId)` exactly one grade tab is marked active and exactly
one grade content is displayed, and these are the tab and the content of
`gradeId` (the content with display `block`); when the page has no element
with id `tab-gradeId` or none with id `content-gradeId`, then after
`showTab(gradeId)` no grade tab is marked active and no grade content is
displayed. -/
theorem c21_showTab_activates_exactly_one (gradeId : String) (doc : List Element) :
    (∀ t c : Element,
      getElementById doc ("tab-" ++ gradeId) = some t → hasClass t "grade-tab" = true →
      getElementById doc ("content-" ++ gradeId) = some c →
      hasClass c "grade-content" = true →
      activeTabs (showTab gradeId doc) = 1 ∧
      displayedContents (showTab gradeId doc) = 1 ∧
      (∃ x, getElementById (showTab gradeId doc) ("tab-" ++ gradeId) = some x ∧
        hasClass x "grade-tab" = true ∧ hasClass x "active" = true) ∧
      (∃ y, getElementById (showTab gradeId doc) ("content-" ++ gradeId) = some y ∧
        hasClass y "grade-content" = true ∧ y.display = "block")) ∧
    ((getElementById doc ("tab-" ++ gradeId) = none ∨
        getElementById doc ("content-" ++ gradeId) = none) →
      activeTabs (showTab gradeId doc) = 0 ∧ displayedContents (showTab gradeId doc) = 0) := by
  refine ⟨?_, ?_⟩
  · intro t c ht htab hc hcont
    have ht2 := getElementById_hidden doc ("tab-" ++ gradeId)
    have hc2 := getElementById_hidden doc ("content-" ++ gradeId)
    rw [ht] at ht2
    rw [hc] at hc2
    simp only [Option.map_some'] at ht2 hc2
    rw [showTab_eq, ht2, hc2]
    simp only
    generalize hh : (doc.map clearTab).map hideContent = hidden at ht2 hc2 ⊢
    have hall1 : ∀ e ∈ hidden, (hasClass e "grade-tab" && hasClass e "active") = false := by
      intro e he
      rw [← hh] at he
      simp only [List.mem_map] at he
      obtain ⟨x, ⟨d, _, rfl⟩, rfl⟩ := he
      rw [hideContent_hasClass, hideContent_hasClass]
      exact clearTab_not_active d
    have hall2 : ∀ e ∈ hidden,
        (hasClass e "grade-content" && e.display != "none") = false := by
      intro e he
      rw [← hh] at he
      simp only [List.mem_map] at he
      obtain ⟨x, _, rfl⟩ := he
      exact hideContent_not_displayed x
    have htab2 : hasClass (hideContent (clearTab t)) "grade-tab" = true := by
      rw [hideContent_hasClass, clearTab_hasClass _ _ (by decide)]
      exact htab
    have hcont2 : hasClass (hideContent (clearTab c)) "grade-content" = true := by
      rw [hideContent_hasClass, clearTab_hasClass _ _ (by decide)]
      exact hcont
    have hblock_id : ∀ e : Element, ({ e with display := "block" } : Element).id = e.id :=
      fun _ => rfl
    -- the document after the tab has been marked
    have hcount2 : (updateById ("tab-" ++ gradeId) (classListAdd "active") hidden).countP
        (fun e => hasClass e "grade-content" && e.display != "none") = 0 := by
      rw [countP_updateById_same _ _ _ (fun e => by
        rw [classListAdd_display, hasClass_classListAdd_other _ _ _ (by decide)])]
      rw [List.countP_eq_zero]
      intro e he
      simp [hall2 e he]
    have hall2b : ∀ e ∈ updateById ("tab-" ++ gradeId) (classListAdd "active") hidden,
        (hasClass e "grade-content" && e.display != "none") = false := by
      intro e he
      rw [List.countP_eq_zero] at hcount2
      simpa using hcount2 e he
    obtain ⟨y, hy, hycase⟩ := getElementById_updateById_any ("tab-" ++ gradeId)
      ("content-" ++ gradeId) (classListAdd "active") (classListAdd_id "active") hidden _ hc2
    have hycont : hasClass y "grade-content" = true := by
      rcases hycase with rfl | rfl
      · exact hcont2
      · exact hasClass_classListAdd_of _ _ _ hcont2
    have htx := getElementById_updateById_same ("tab-" ++ gradeId) (classListAdd "active")
      (classListAdd_id "active") hidden _ ht2
    refine ⟨?_, ?_, ?_, ?_⟩
    · unfold activeTabs
      rw [countP_updateById_same (fun e => hasClass e "grade-tab" && hasClass e "active")
        ("content-" ++ gradeId) (fun e => { e with display := "block" }) (fun e => rfl)]
      exact countP_updateById_one _ _ _ hidden _ hall1 ht2 (by
        simp only [Bool.and_eq_true]
        exact ⟨hasClass_classListAdd_of _ _ _ htab2, hasClass_classListAdd_self _ _⟩)
    · unfold displayedContents
      exact countP_updateById_one _ _ _ _ y hall2b hy (by
        simp only [Bool.and_eq_true]
        exact ⟨hycont, by decide⟩)
    · obtain ⟨x, hx, hxcase⟩ := getElementById_updateById_any ("content-" ++ gradeId)
        ("tab-" ++ gradeId) (fun e => { e with display := "block" }) hblock_id _ _ htx
      refine ⟨x, hx, ?_⟩
      have h1 : hasClass (classListAdd "active" (hideContent (clearTab t))) "grade-tab" = true :=
        hasClass_classListAdd_of _ _ _ htab2
      have h2 : hasClass (classListAdd "active" (hideContent (clearTab t))) "active" = true :=
        hasClass_classListAdd_self _ _
      rcases hxcase with rfl | rfl
      · exact ⟨h1, h2⟩
      · exact ⟨h1, h2⟩
    · exact ⟨_, getElementById_updateById_same ("content-" ++ gradeId) _ hblock_id _ y hy,
        hycont, rfl⟩
  · intro h
    rw [showTab_missing gradeId doc h]
    constructor
    · unfold activeTabs
      rw [List.countP_eq_zero]
      intro e he
      simp only [List.mem_map] at he
      obtain ⟨x, ⟨d, _, rfl⟩, rfl⟩ := he
      rw [hideContent_hasClass, hideContent_hasClass]
      simp [clearTab_not_active d]
    · unfold displayedContents
      rw [List.countP_eq_zero]
      intro e he
      simp only [List.mem_map] at he
      obtain ⟨x, _, rfl⟩ := he
      simp [hideContent_not_displayed x]

open Tabs in
/-- Witness for C21 (amended): `showTab('grade-2')` on the sample page, which
has the two elements, and `showTab('grade-9')`, for which it has neither. -/
theorem c21_showTab_activates_exactly_one_witness :
    (activeTabs (showTab "grade-2" Sample.gradePage) = 1 ∧
      displayedContents (showTab "grade-2" Sample.gradePage) = 1 ∧
      (∃ x, getElementById (showTab "grade-2" Sample.gradePage) ("tab-" ++ "grade-2") = some x ∧
        hasClass x "grade-tab" = true ∧ hasClass x "active" = true) ∧
      (∃ y, getElementById (showTab "grade-2" Sample.gradePage) ("content-" ++ "grade-2") =
          some y ∧
        hasClass y "grade-content" = true ∧ y.display = "block")) ∧
    (activeTabs (showTab "grade-9" Sample.gradePage) = 0 ∧
      displayedContents (showTab "grade-9" Sample.gradePage) = 0) :=
  ⟨(c21_showTab_activates_exactly_one "grade-2" Sample.gradePage).1
      { id := "tab-grade-2", classList := ["grade-tab"], display := "" }
      { id := "content-grade-2", classList := ["grade-content"], display := "none" }
      (by decide) (by decide) (by decide) (by decide),
    (c21_showTab_activates_exactly_one "grade-9" Sample.gradePage).2 (Or.inl (by decide))⟩

open JS AJAXFormManager FormValidationManager in
/-- C23: a saved draft is applied exactly when the current time minus the saved
timestamp is below 86,400,000 ms, and a draft aged 24 hours or more is never
applied.  For `AJAXFormManager.loadAutoSavedData` the draft is the object stored
under the key, with an object `data` and a number `timestamp`; for
`FormValidationManager.recoverFormData` it is the object stored under the
form's draft key, with an object `data` and a `timestamp` string that denotes
the time `saveTime`. -/
theorem c23_draft_applied_iff_younger_than_a_day (pg : Page) (co : Coercions) (c : Clock)
    (ls : Storage) (key : String) (form : Form)
    (draft draftV data dataV : List (String × JVal)) (timestamp saveTime : Int) (stamp : String)
    (hs : localStorage.getItem ls key = some (.json (.obj draft)))
    (hd : draft.lookup "data" = some (.obj data))
    (ht : draft.lookup "timestamp" = some (.num timestamp))
    (hsV : localStorage.getItem ls (autoSaveKey form) = some (.json (.obj draftV)))
    (hdV : draftV.lookup "data" = some (.obj dataV))
    (htV : draftV.lookup "timestamp" = some (.str stamp))
    (hp : pg.parseDate stamp = some saveTime) :
    (loadAutoSavedData co c ls key = some (.obj data) ↔ (c.now : Int) - timestamp < 86400000) ∧
    (86400000 ≤ (c.now : Int) - timestamp → loadAutoSavedData co c ls key = none) ∧
    (recoverFormData pg co c ls form = some (.obj dataV) ↔
      (c.now : Int) - saveTime < 86400000) ∧
    (86400000 ≤ (c.now : Int) - saveTime → recoverFormData pg co c ls form = none) := by
  have h1 : loadAutoSavedData co c ls key =
      if (c.now : Int) - timestamp < 86400000 then some (.obj data) else none := by
    by_cases h : (c.now : Int) - timestamp < 86400000
    · simp [loadAutoSavedData, loadAutoSavedDataTry, hs, StoredText.truthy, JSON.parse,
        getProp, hd, ht, toNumber, keysReceiver, h]
    · simp [loadAutoSavedData, loadAutoSavedDataTry, hs, StoredText.truthy, JSON.parse,
        getProp, hd, ht, toNumber, keysReceiver, h]
  have h2 : recoverFormData pg co c ls form =
      if (c.now : Int) - saveTime < 86400000 then some (.obj dataV) else none := by
    by_cases h : (c.now : Int) - saveTime < 86400000
    · simp [recoverFormData, recoverFormDataTry, hsV, StoredText.truthy, JSON.parse,
        getProp, hdV, htV, dateValue, hp, keysReceiver, h]
    · simp [recoverFormData, recoverFormDataTry, hsV, StoredText.truthy, JSON.parse,
        getProp, hdV, htV, dateValue, hp, keysReceiver, h]
  rw [h1, h2]
  refine ⟨?_, ?_, ?_, ?_⟩
  · split <;> simp_all
  · intro h
    rw [if_neg (by omega)]
  · split <;> simp_all
  · intro h
    rw [if_neg (by omega)]

open JS AJAXFormManager FormValidationManager in
/-- Witness for C23: two drafts saved one hour before the clock reading. -/
theorem c23_draft_applied_iff_younger_than_a_day_witness :
    (loadAutoSavedData Sample.coercions Sample.clock Sample.draftStorage "autosave_contact" =
        some (.obj [("name", .str "Thandi")]) ↔
      ((Sample.clock).now : Int) - 1699996400000 < 86400000) ∧
    (86400000 ≤ ((Sample.clock).now : Int) - 1699996400000 →
      loadAutoSavedData Sample.coercions Sample.clock Sample.draftStorage "autosave_contact" =
        none) ∧
    (recoverFormData Sample.recoveryPage Sample.coercions Sample.clock Sample.draftStorage
        Sample.validForm = some (.obj [("fullName", .str "Thandi")]) ↔
      ((Sample.clock).now : Int) - 1699996400000 < 86400000) ∧
    (86400000 ≤ ((Sample.clock).now : Int) - 1699996400000 →
      recoverFormData Sample.recoveryPage Sample.coercions Sample.clock Sample.draftStorage
        Sample.validForm = none) :=
  c23_draft_applied_iff_younger_than_a_day Sample.recoveryPage Sample.coercions Sample.clock
    Sample.draftStorage "autosave_contact" Sample.validForm
    [("data", .obj [("name", .str "Thandi")]), ("timestamp", .num 1699996400000)]
    [("data", .obj [("fullName", .str "Thandi")]),
      ("timestamp", .str "2023-11-14T21:13:20.000Z")]
    [("name", .str "Thandi")] [("fullName", .str "Thandi")] 1699996400000 1699996400000
    "2023-11-14T21:13:20.000Z" rfl rfl rfl rfl rfl rfl rfl

namespace AJAXFormManager
open JS

theorem getStoredSubmissions_cons (v : JVal) (ls : Storage) :
    getStoredSubmissions ((storageKey, .json v) :: ls) = v := by
  simp [getStoredSubmissions, getStoredSubmissionsTry, localStorage.getItem, List.lookup,
    StoredText.truthy, JSON.parse]

theorem storeSubmission_cases (q : Quota) (ls : Storage) (timestamp : Nat) (id : String)
    (data config : Option JVal) (pending : List (String × JVal))
    (hmap : getStoredSubmissions ls = .obj pending) :
    (∃ entry, q ls storageKey (.json (.obj (setField id entry pending))) = true ∧
      storeSubmission q ls timestamp id data config =
        (storageKey, .json (.obj (setField id entry pending))) ::
          ls.filter (fun p => p.1 != storageKey)) ∨
    storeSubmission q ls timestamp id data config = ls := by
  unfold storeSubmission storeSubmissionTry
  rw [hmap]
  simp only [assignEntry, JSON.stringify]
  generalize mkObj _ = entry
  cases h : q ls storageKey (.json (.obj (setField id entry pending)))
  · right
    rw [setItem_refused _ _ _ _ h]
  · left
    refine ⟨entry, h, ?_⟩
    rw [setItem_accepted _ _ _ _ h]

theorem removeStoredSubmission_cases (q : Quota) (ls : Storage) (id : String)
    (pending : List (String × JVal)) (hmap : getStoredSubmissions ls = .obj pending) :
    (q ls storageKey (.json (.obj (pending.filter (fun p => p.1 != id)))) = true ∧
      getStoredSubmissions (removeStoredSubmission q ls id) =
        .obj (pending.filter (fun p => p.1 != id))) ∨
    (q ls storageKey (.json (.obj (pending.filter (fun p => p.1 != id)))) = false ∧
      removeStoredSubmission q ls id = ls) := by
  unfold removeStoredSubmission removeStoredSubmissionTry
  rw [hmap]
  simp only [deleteEntry, JSON.stringify]
  cases h : q ls storageKey (.json (.obj (pending.filter (fun p => p.1 != id))))
  · right
    rw [setItem_refused _ _ _ _ h]
    exact ⟨rfl, rfl⟩
  · left
    rw [setItem_accepted _ _ _ _ h]
    exact ⟨rfl, getStoredSubmissions_cons _ _⟩

end AJAXFormManager

open JS AJAXFormManager in
/-- C22: for every submission data and form config, `submitFormData` resolves
to a result with `success` true that carries the generated submission id (the
model of the method has no request to a server).  When the storage holds a
pending-submissions map in which the generated id is fresh, and the quota does
not refuse to replace a map it has just accepted by that map with one entry
deleted, the map in storage after the call has no entry for the id and agrees
with the map before the call on every other id. -/
theorem c22_submitFormData_succeeds_and_restores_map (q : Quota) (ls : Storage) (c : Clock)
    (random : String) (storedAt : Nat) (data config : Option JVal)
    (pending : List (String × JVal))
    (hmap : getStoredSubmissions ls = .obj pending)
    (hfresh : pending.lookup (submissionId c random) = none)
    (hq : AcceptsRemoval q) :
    getProp (some (submitFormData q ls c random storedAt data config).1) "success" =
      .ok (some (.bool true)) ∧
    getProp (some (submitFormData q ls c random storedAt data config).1) "submissionId" =
      .ok (some (.str (submissionId c random))) ∧
    ∃ after, getStoredSubmissions (submitFormData q ls c random storedAt data config).2 =
        .obj after ∧
      after.lookup (submissionId c random) = none ∧
      ∀ id, id ≠ submissionId c random → after.lookup id = pending.lookup id := by
  refine ⟨rfl, rfl, ?_⟩
  simp only [submitFormData]
  rcases storeSubmission_cases q ls storedAt (submissionId c random) data config pending hmap
    with ⟨entry, hacc, hstored⟩ | hstored
  · rw [hstored]
    have hmap1 := getStoredSubmissions_cons
      (.obj (setField (submissionId c random) entry pending))
      (ls.filter (fun p => p.1 != storageKey))
    rcases removeStoredSubmission_cases q _ (submissionId c random) _ hmap1 with
      ⟨_, hafter⟩ | ⟨hrefused, _⟩
    · refine ⟨_, hafter, lookup_filter_self _ _, ?_⟩
      intro id hid
      rw [lookup_filter_ne _ _ _ hid, lookup_setField_other _ _ _ _ hid]
    · rw [hq ls _ (submissionId c random) hacc] at hrefused
      cases hrefused
  · rw [hstored]
    rcases removeStoredSubmission_cases q ls (submissionId c random) pending hmap with
      ⟨_, hafter⟩ | ⟨_, hsame⟩
    · refine ⟨_, hafter, lookup_filter_self _ _, ?_⟩
      intro id hid
      rw [lookup_filter_ne _ _ _ hid]
    · rw [hsame]
      exact ⟨pending, hmap, hfresh, fun _ _ => rfl⟩

open JS AJAXFormManager in
/-- Witness for C22: a submission on an empty storage that accepts every write. -/
theorem c22_submitFormData_succeeds_and_restores_map_witness :
    getProp (some (submitFormData Sample.quotaFree [] Sample.clock "k3j9x2m1q" 1700000000001
        (some (.obj [("name", .str "Thandi")])) (some (.obj [("type", .str "contact")]))).1)
      "success" = .ok (some (.bool true)) ∧
    getProp (some (submitFormData Sample.quotaFree [] Sample.clock "k3j9x2m1q" 1700000000001
        (some (.obj [("name", .str "Thandi")])) (some (.obj [("type", .str "contact")]))).1)
      "submissionId" = .ok (some (.str (submissionId Sample.clock "k3j9x2m1q"))) ∧
    ∃ after, getStoredSubmissions (submitFormData Sample.quotaFree [] Sample.clock "k3j9x2m1q"
        1700000000001 (some (.obj [("name", .str "Thandi")]))
        (some (.obj [("type", .str "contact")]))).2 = .obj after ∧
      after.lookup (submissionId Sample.clock "k3j9x2m1q") = none ∧
      ∀ id, id ≠ submissionId Sample.clock "k3j9x2m1q" →
        after.lookup id = List.lookup id ([] : List (String × JVal)) :=
  c22_submitFormData_succeeds_and_restores_map Sample.quotaFree [] Sample.clock "k3j9x2m1q"
    1700000000001 (some (.obj [("name", .str "Thandi")]))
    (some (.obj [("type", .str "contact")])) [] rfl rfl (fun _ _ _ _ => rfl)

namespace SEOSearchManager
open JS

theorem lookup_some_iff_mem_keys {β : Type} (l : List (String × β)) (k : String) :
    (∃ v, l.lookup k = some v) ↔ k ∈ l.map Prod.fst := by
  induction l with
  | nil => simp
  | cons p rest ih =>
    obtain ⟨a, b⟩ := p
    by_cases h : k = a
    · subst h
      simp [List.lookup]
    · have hb : (k == a) = false := by simpa using h
      simp only [List.lookup, hb, List.map_cons, List.mem_cons, h, false_or]
      exact ih

theorem mem_matchesOf (toLowerCase : String → String) (searchTerm cat gradeKey : String)
    (items : List String) (r : SearchResult) :
    r ∈ matchesOf toLowerCase searchTerm cat gradeKey items ↔
      ∃ item ∈ items,
        includes (toLowerCase searchTerm).toList (toLowerCase item).toList = true ∧
        r = { category := cat, grade := gradeLabel gradeKey, item := item,
              relevanceScore := calculateRelevanceScore toLowerCase item searchTerm } := by
  simp only [matchesOf, List.mem_map, List.mem_filter]
  constructor
  · rintro ⟨item, ⟨hmem, hinc⟩, rfl⟩
    exact ⟨item, hmem, hinc, rfl⟩
  · rintro ⟨item, hmem, hinc, rfl⟩
    exact ⟨item, ⟨hmem, hinc⟩, rfl⟩

theorem mem_allGrades (toLowerCase : String → String) (searchTerm cat : String)
    (table : List (String × List String)) (r : SearchResult) :
    r ∈ allGrades toLowerCase searchTerm cat table ↔
      ∃ gradeKey items, table.lookup gradeKey = some items ∧
        r ∈ matchesOf toLowerCase searchTerm cat gradeKey items := by
  simp only [allGrades, List.mem_flatten, List.mem_map]
  constructor
  · rintro ⟨l, ⟨gradeKey, ⟨p, hp, rfl⟩, rfl⟩, hr⟩
    obtain ⟨items, hitems⟩ := (lookup_some_iff_mem_keys table p.1).mpr
      (List.mem_map.mpr ⟨p, hp, rfl⟩)
    refine ⟨p.1, items, hitems, ?_⟩
    rw [hitems] at hr
    exact hr
  · rintro ⟨gradeKey, items, hitems, hr⟩
    obtain ⟨p, hp, hk⟩ := List.mem_map.mp
      ((lookup_some_iff_mem_keys table gradeKey).mp ⟨items, hitems⟩)
    refine ⟨_, ⟨gradeKey, ⟨p, hp, hk⟩, rfl⟩, ?_⟩
    rw [hitems]
    exact hr

/-- What one category contributes when it is a category of the table and the
grade names no inherited property. -/
theorem categoryResults_ok (inherited : Inherited) (toLowerCase : String → String)
    (searchData : List (String × List (String × List String)))
    (searchTerm grade cat : String) (table : List (String × List String))
    (htable : searchData.lookup cat = some table) (hgrade : inherited grade = none) :
    ∃ pushed, categoryResults inherited toLowerCase searchData searchTerm grade cat =
        .ok pushed ∧
      ∀ r, r ∈ pushed ↔ ∃ gradeKey items, table.lookup gradeKey = some items ∧
        (grade ≠ "" → (∃ list, table.lookup grade = some list) → gradeKey = grade) ∧
        r ∈ matchesOf toLowerCase searchTerm cat gradeKey items := by
  unfold categoryResults
  rw [htable]
  simp only [hgrade, Option.isSome_none, Bool.false_eq_true, and_false, if_false]
  by_cases hg : grade = ""
  · simp only [hg, if_true]
    refine ⟨_, rfl, fun r => ?_⟩
    rw [mem_allGrades]
    constructor
    · rintro ⟨gradeKey, items, h1, h2⟩
      exact ⟨gradeKey, items, h1, fun h => absurd rfl h, h2⟩
    · rintro ⟨gradeKey, items, h1, _, h2⟩
      exact ⟨gradeKey, items, h1, h2⟩
  · simp only [hg, if_false]
    cases hl : table.lookup grade with
    | none =>
      refine ⟨_, rfl, fun r => ?_⟩
      rw [mem_allGrades]
      constructor
      · rintro ⟨gradeKey, items, h1, h2⟩
        refine ⟨gradeKey, items, h1, fun _ h => ?_, h2⟩
        obtain ⟨list, hlist⟩ := h
        cases hlist
      · rintro ⟨gradeKey, items, h1, _, h2⟩
        exact ⟨gradeKey, items, h1, h2⟩
    | some items0 =>
      refine ⟨_, rfl, fun r => ?_⟩
      constructor
      · intro hr
        exact ⟨grade, items0, hl, fun _ _ => rfl, hr⟩
      · rintro ⟨gradeKey, items, h1, h2, h3⟩
        have hk : gradeKey = grade := h2 hg ⟨items0, rfl⟩
        subst hk
        rw [hl] at h1
        cases h1
        exact h3

theorem collectResults_ok (inherited : Inherited) (toLowerCase : String → String)
    (searchData : List (String × List (String × List String)))
    (searchTerm grade : String) (hgrade : inherited grade = none) (cats : List String)
    (hcats : ∀ cat ∈ cats, ∃ table, searchData.lookup cat = some table) :
    ∃ results, collectResults inherited toLowerCase searchData searchTerm grade cats =
        .ok results ∧
      ∀ r, r ∈ results ↔ ∃ cat ∈ cats, ∃ table, searchData.lookup cat = some table ∧
        ∃ gradeKey items, table.lookup gradeKey = some items ∧
          (grade ≠ "" → (∃ list, table.lookup grade = some list) → gradeKey = grade) ∧
          r ∈ matchesOf toLowerCase searchTerm cat gradeKey items := by
  induction cats with
  | nil => exact ⟨[], rfl, fun r => by simp⟩
  | cons cat rest ih =>
    obtain ⟨table, htable⟩ := hcats cat (List.mem_cons_self _ _)
    obtain ⟨pushed, hpushed, hmem⟩ := categoryResults_ok inherited toLowerCase searchData
      searchTerm grade cat table htable hgrade
    obtain ⟨others, hothers, hmem2⟩ := ih (fun c hc => hcats c (List.mem_cons_of_mem _ hc))
    refine ⟨pushed ++ others, ?_, fun r => ?_⟩
    · simp only [collectResults, hpushed, hothers]
    · rw [List.mem_append, hmem, hmem2]
      constructor
      · rintro (h | ⟨c, hc, h⟩)
        · exact ⟨cat, List.mem_cons_self _ _, table, htable, h⟩
        · exact ⟨c, List.mem_cons_of_mem _ hc, h⟩
      · rintro ⟨c, hc, table2, htable2, h⟩
        rcases List.mem_cons.mp hc with rfl | hc
        · left
          rw [htable] at htable2
          cases htable2
          exact h
        · exact Or.inr ⟨c, hc, table2, htable2, h⟩

theorem mem_searchCategories (category cat : String) :
    cat ∈ searchCategories category ↔
      (category ≠ "" → cat = category) ∧
      (category = "" → cat ∈ ["resources", "uniforms", "notices", "events"]) := by
  unfold searchCategories
  by_cases h : category = ""
  · simp [h]
  · simp [h]

end SEOSearchManager

open JS SEOSearchManager in
/-- C28, as stated, fails: for the category `library`, which the table does not
have (the search page takes the category from its URL), `getSearchResults`
throws a `TypeError` and returns no results. -/
theorem c28_unknown_category_throws :
    getSearchResults Sample.inherited Sample.asciiLower initializeSearchData
      "math" "library" "" = .error .TypeError := by
  rfl

open JS SEOSearchManager in
/-- C28, amended: for every search term, for a category that is absent or one
of the table, and for every grade that names no inherited property,
`getSearchResults` returns results in order of non-increasing relevanceScore;
every result is an item of a searched list (of the requested category, and of
the requested grade when that grade exists there) whose lower-cased text
contains the lower-cased search term, labelled with its category, grade and
score; and every such item of a searched list is among the results. -/
theorem c28_results_sorted_sound_complete (inherited : Inherited)
    (toLowerCase : String → String) (searchTerm category grade : String)
    (hcat : category = "" ∨ ∃ table, initializeSearchData.lookup category = some table)
    (hgrade : inherited grade = none) :
    ∃ results, getSearchResults inherited toLowerCase initializeSearchData searchTerm
        category grade = .ok results ∧
      results.Sorted (fun a b => b.relevanceScore ≤ a.relevanceScore) ∧
      (∀ r ∈ results, ∃ gradeKey items,
        Searched initializeSearchData category grade r.category gradeKey items ∧
        r.item ∈ items ∧
        includes (toLowerCase searchTerm).toList (toLowerCase r.item).toList = true ∧
        r.grade = gradeLabel gradeKey ∧
        r.relevanceScore = calculateRelevanceScore toLowerCase r.item searchTerm) ∧
      (∀ cat gradeKey items item,
        Searched initializeSearchData category grade cat gradeKey items →
        item ∈ items →
        includes (toLowerCase searchTerm).toList (toLowerCase item).toList = true →
        ∃ r ∈ results, r.category = cat ∧ r.grade = gradeLabel gradeKey ∧ r.item = item) := by
  have hcats : ∀ cat ∈ searchCategories category,
      ∃ table, initializeSearchData.lookup cat = some table := by
    intro cat hc
    rw [mem_searchCategories] at hc
    rcases hcat with h | h
    · have := hc.2 h
      simp only [List.mem_cons, List.mem_singleton, List.not_mem_nil, or_false] at this
      rcases this with rfl | rfl | rfl | rfl <;> exact ⟨_, rfl⟩
    · by_cases hne : category = ""
      · have := hc.2 hne
        simp only [List.mem_cons, List.mem_singleton, List.not_mem_nil, or_false] at this
        rcases this with rfl | rfl | rfl | rfl <;> exact ⟨_, rfl⟩
      · rw [hc.1 hne]
        exact h
  obtain ⟨collected, hcollected, hmem⟩ := collectResults_ok inherited toLowerCase
    initializeSearchData searchTerm grade hgrade (searchCategories category) hcats
  haveI : IsTotal SearchResult (fun a b => b.relevanceScore ≤ a.relevanceScore) :=
    ⟨fun a b => Nat.le_total b.relevanceScore a.relevanceScore⟩
  haveI : IsTrans SearchResult (fun a b => b.relevanceScore ≤ a.relevanceScore) :=
    ⟨fun _ _ _ hab hbc => Nat.le_trans hbc hab⟩
  have hperm := List.perm_insertionSort
    (fun a b : SearchResult => b.relevanceScore ≤ a.relevanceScore) collected
  refine ⟨collected.insertionSort (fun a b => b.relevanceScore ≤ a.relevanceScore),
    by simp only [getSearchResults, hcollected], List.sorted_insertionSort _ _, ?_, ?_⟩
  · intro r hr
    rw [hperm.mem_iff, hmem] at hr
    obtain ⟨cat, hc, table, htable, gradeKey, items, hitems, hreq, hm⟩ := hr
    rw [mem_matchesOf] at hm
    obtain ⟨item, hitem, hinc, rfl⟩ := hm
    rw [mem_searchCategories] at hc
    exact ⟨gradeKey, items, ⟨hc.1, hc.2, table, htable, hitems, hreq⟩, hitem, hinc, rfl, rfl⟩
  · intro cat gradeKey items item hs hitem hinc
    obtain ⟨h1, h2, table, htable, hitems, hreq⟩ := hs
    refine ⟨{ category := cat, grade := gradeLabel gradeKey, item := item,
              relevanceScore := calculateRelevanceScore toLowerCase item searchTerm },
      ?_, rfl, rfl, rfl⟩
    rw [hperm.mem_iff, hmem]
    exact ⟨cat, (mem_searchCategories category cat).mpr ⟨h1, h2⟩, table, htable, gradeKey,
      items, hitems, hreq, (mem_matchesOf _ _ _ _ _ _).mpr ⟨item, hitem, hinc, rfl⟩⟩

open JS SEOSearchManager in
/-- Witness for C28 (amended): the search for `math` among the resources of
grade 3. -/
theorem c28_results_sorted_sound_complete_witness :
    ∃ results, getSearchResults Sample.inherited Sample.asciiLower initializeSearchData "math"
        "resources" "grade-3" = .ok results ∧
      results.Sorted (fun a b => b.relevanceScore ≤ a.relevanceScore) ∧
      (∀ r ∈ results, ∃ gradeKey items,
        Searched initializeSearchData "resources" "grade-3" r.category gradeKey items ∧
        r.item ∈ items ∧
        includes (Sample.asciiLower "math").toList (Sample.asciiLower r.item).toList = true ∧
        r.grade = gradeLabel gradeKey ∧
        r.relevanceScore = calculateRelevanceScore Sample.asciiLower r.item "math") ∧
      (∀ cat gradeKey items item,
        Searched initializeSearchData "resources" "grade-3" cat gradeKey items →
        item ∈ items →
        includes (Sample.asciiLower "math").toList (Sample.asciiLower item).toList = true →
        ∃ r ∈ results, r.category = cat ∧ r.grade = gradeLabel gradeKey ∧ r.item = item) :=
  c28_results_sorted_sound_complete Sample.inherited Sample.asciiLower "math" "resources"
    "grade-3" (Or.inr ⟨_, rfl⟩) (by simp [Sample.inherited])
